import Mathlib

/-!
# dshop backend listener: shallow embedding of `src/backend/listener.js`

The listener keeps one websocket session to an Ethereum node, subscribes to
contract logs and to new block heads, and dispatches every inbound frame in
`connectWS.incoming`.  The embedding below follows that file function by
function.  Values that come out of `JSON.parse` are modelled by `JVal`;
the effects of a handler run (console output, `ws.send`, `handleLog`,
`Network.upsert`, the recursive `connectWS` call) are collected in a trace.
-/

namespace Listener

/-! ## JavaScript values -/

/-- JavaScript values as they reach the listener: the results of `JSON.parse`
plus `undefined`.  Numbers are restricted to integers; an object is the list of
its own properties in insertion order. -/
inductive JVal where
  | undefined : JVal
  | null : JVal
  | bool (b : Bool) : JVal
  | num (n : Int) : JVal
  | str (s : String) : JVal
  | arr (xs : List JVal) : JVal
  | obj (fields : List (String × JVal)) : JVal
  deriving Repr

mutual
/-- Structural equality of values is decidable. -/
def JVal.decEq : (a b : JVal) → Decidable (a = b)
  | .undefined, .undefined => isTrue rfl
  | .null, .null => isTrue rfl
  | .bool a, .bool b =>
    if h : a = b then isTrue (by rw [h]) else isFalse (by intro e; cases e; exact h rfl)
  | .num a, .num b =>
    if h : a = b then isTrue (by rw [h]) else isFalse (by intro e; cases e; exact h rfl)
  | .str a, .str b =>
    if h : a = b then isTrue (by rw [h]) else isFalse (by intro e; cases e; exact h rfl)
  | .arr a, .arr b =>
    match JVal.decEqList a b with
    | isTrue h => isTrue (by rw [h])
    | isFalse h => isFalse (by intro e; cases e; exact h rfl)
  | .obj a, .obj b =>
    match JVal.decEqFields a b with
    | isTrue h => isTrue (by rw [h])
    | isFalse h => isFalse (by intro e; cases e; exact h rfl)
  | .undefined, .null => isFalse nofun
  | .undefined, .bool _ => isFalse nofun
  | .undefined, .num _ => isFalse nofun
  | .undefined, .str _ => isFalse nofun
  | .undefined, .arr _ => isFalse nofun
  | .undefined, .obj _ => isFalse nofun
  | .null, .undefined => isFalse nofun
  | .null, .bool _ => isFalse nofun
  | .null, .num _ => isFalse nofun
  | .null, .str _ => isFalse nofun
  | .null, .arr _ => isFalse nofun
  | .null, .obj _ => isFalse nofun
  | .bool _, .undefined => isFalse nofun
  | .bool _, .null => isFalse nofun
  | .bool _, .num _ => isFalse nofun
  | .bool _, .str _ => isFalse nofun
  | .bool _, .arr _ => isFalse nofun
  | .bool _, .obj _ => isFalse nofun
  | .num _, .undefined => isFalse nofun
  | .num _, .null => isFalse nofun
  | .num _, .bool _ => isFalse nofun
  | .num _, .str _ => isFalse nofun
  | .num _, .arr _ => isFalse nofun
  | .num _, .obj _ => isFalse nofun
  | .str _, .undefined => isFalse nofun
  | .str _, .null => isFalse nofun
  | .str _, .bool _ => isFalse nofun
  | .str _, .num _ => isFalse nofun
  | .str _, .arr _ => isFalse nofun
  | .str _, .obj _ => isFalse nofun
  | .arr _, .undefined => isFalse nofun
  | .arr _, .null => isFalse nofun
  | .arr _, .bool _ => isFalse nofun
  | .arr _, .num _ => isFalse nofun
  | .arr _, .str _ => isFalse nofun
  | .arr _, .obj _ => isFalse nofun
  | .obj _, .undefined => isFalse nofun
  | .obj _, .null => isFalse nofun
  | .obj _, .bool _ => isFalse nofun
  | .obj _, .num _ => isFalse nofun
  | .obj _, .str _ => isFalse nofun
  | .obj _, .arr _ => isFalse nofun
/-- Structural equality of lists of values. -/
def JVal.decEqList : (a b : List JVal) → Decidable (a = b)
  | [], [] => isTrue rfl
  | [], _ :: _ => isFalse nofun
  | _ :: _, [] => isFalse nofun
  | x :: xs, y :: ys =>
    match JVal.decEq x y, JVal.decEqList xs ys with
    | isTrue h, isTrue h2 => isTrue (by rw [h, h2])
    | isFalse h, _ => isFalse (by intro e; cases e; exact h rfl)
    | _, isFalse h => isFalse (by intro e; cases e; exact h rfl)
/-- Structural equality of property lists. -/
def JVal.decEqFields : (a b : List (String × JVal)) → Decidable (a = b)
  | [], [] => isTrue rfl
  | [], _ :: _ => isFalse nofun
  | _ :: _, [] => isFalse nofun
  | (k, x) :: xs, (l, y) :: ys =>
    if hk : k = l then
      match JVal.decEq x y, JVal.decEqFields xs ys with
      | isTrue h, isTrue h2 => isTrue (by rw [hk, h, h2])
      | isFalse h, _ => isFalse (by intro e; cases e; exact h rfl)
      | _, isFalse h => isFalse (by intro e; cases e; exact h rfl)
    else isFalse (by intro e; cases e; exact hk rfl)
end

instance : DecidableEq JVal := JVal.decEq

/-- Exceptions a JavaScript call can raise in the listener. -/
inductive JsError where
  /-- `JSON.parse` on text that is not JSON. -/
  | syntaxError : JsError
  /-- Property access on `undefined`/`null`, or a call of a non-function. -/
  | typeError : JsError
  /-- An `Error` thrown by a library or by the log handler. -/
  | error (msg : String) : JsError
  deriving Repr, DecidableEq

/-- Equality of outcomes (a value or a raised error) is decidable. -/
instance instDecidableEqExcept {ε α : Type} [DecidableEq ε] [DecidableEq α] :
    DecidableEq (Except ε α)
  | .ok a, .ok b =>
    if h : a = b then isTrue (by rw [h]) else isFalse (by intro e; cases e; exact h rfl)
  | .error a, .error b =>
    if h : a = b then isTrue (by rw [h]) else isFalse (by intro e; cases e; exact h rfl)
  | .ok _, .error _ => isFalse nofun
  | .error _, .ok _ => isFalse nofun

/-- The test `v == null` of JavaScript: `v` is `undefined` or `null`. -/
def JVal.nullish : JVal → Bool
  | .undefined => true
  | .null => true
  | _ => false

/-- The value of `v[key]` when `v` is neither `undefined` nor `null`: an own
property of an object, `length` of an array or a string, `undefined`
otherwise (the listener reads no other inherited property as a value). -/
def JVal.field (v : JVal) (key : String) : JVal :=
  match v with
  | .obj fields => (fields.lookup key).getD .undefined
  | .arr xs => if key = "length" then .num xs.length else .undefined
  | .str s => if key = "length" then .num s.length else .undefined
  | _ => .undefined

/-- Element access `v[i]` on an array; `undefined` past the end and on a value
that is not an array. -/
def JVal.index (v : JVal) (i : Nat) : JVal :=
  match v with
  | .arr xs => xs.getD i .undefined
  | _ => .undefined

/-- Property access `v.key`: a `TypeError` on `undefined` and `null`. -/
def JVal.prop (v : JVal) (key : String) : Except JsError JVal :=
  if v.nullish then .error .typeError else .ok (v.field key)

/-- The call `get(data, 'a.b')` of lodash: the walk stops with `undefined` as
soon as a value on the path is `undefined` or `null`. -/
def get (data : JVal) (a b : String) : JVal :=
  if data.nullish then .undefined
  else if (data.field a).nullish then .undefined
  else (data.field a).field b

/-- Strict equality `a === b`.  Primitives compare by value.  Arrays and
objects compare by identity, and the two operands of every `===` in the
listener come from different `JSON.parse` calls, so they are never identical. -/
def strictEq : JVal → JVal → Bool
  | .undefined, .undefined => true
  | .null, .null => true
  | .bool a, .bool b => a == b
  | .num a, .num b => a == b
  | .str a, .str b => a == b
  | _, _ => false

/-- The test `!v`: the falsy values among `JVal`. -/
def JVal.falsy : JVal → Bool
  | .undefined => true
  | .null => true
  | .bool b => !b
  | .num n => n == 0
  | .str s => s == ""
  | _ => false

/-- The numeric coercion applied by the operator `-`; `none` is `NaN`.  The
operands of the one subtraction in the listener are a block number returned by
`hexToNumber` and the recorded `lastBlock` (read from an integer column, then
overwritten with block numbers), so among strings only the empty one occurs,
and arrays and objects do not occur. -/
def toNumber : JVal → Option Int
  | .undefined => none
  | .null => some 0
  | .bool b => some (if b then 1 else 0)
  | .num n => some n
  | .str s => if s = "" then some 0 else none
  | .arr _ => none
  | .obj _ => none

/-- The subtraction `a - b`; `none` is `NaN`. -/
def jsSub (a b : JVal) : Option Int :=
  match toNumber a, toNumber b with
  | some x, some y => some (x - y)
  | _, _ => none

/-- The comparison `d > k` for a possibly-`NaN` left operand: false on `NaN`. -/
def jsGt (d : Option Int) (k : Int) : Bool :=
  match d with
  | some x => decide (k < x)
  | none => false

/-! ## The `web3.utils` functions the listener calls

`web3` is a dependency of the repository; the functions below follow the
behaviour of `web3-utils` on the values the listener passes to them. -/

/-- The value of one hexadecimal digit. -/
def hexDigitVal (c : Char) : Option Nat :=
  if '0' ≤ c ∧ c ≤ '9' then some (c.toNat - '0'.toNat)
  else if 'a' ≤ c ∧ c ≤ 'f' then some (c.toNat - 'a'.toNat + 10)
  else if 'A' ≤ c ∧ c ≤ 'F' then some (c.toNat - 'A'.toNat + 10)
  else none

/-- The number written by a list of hexadecimal digits, most significant
first, continuing from `acc`; `none` when a character is not a digit. -/
def hexValueFrom : Nat → List Char → Option Nat
  | acc, [] => some acc
  | acc, c :: cs =>
    match hexDigitVal c with
    | some d => hexValueFrom (16 * acc + d) cs
    | none => none

/-- The number written by a list of hexadecimal digits. -/
def hexValue (cs : List Char) : Option Nat := hexValueFrom 0 cs

/-- The number written by a list of decimal digits, continuing from `acc`. -/
def decValueFrom : Nat → List Char → Option Nat
  | acc, [] => some acc
  | acc, c :: cs =>
    if '0' ≤ c ∧ c ≤ '9' then decValueFrom (10 * acc + (c.toNat - '0'.toNat)) cs
    else none

/-- The pattern `/^0x/i`: the text starts with `0x` or `0X`. -/
def has0x : List Char → Bool
  | '0' :: 'x' :: _ => true
  | '0' :: 'X' :: _ => true
  | _ => false

/-- The edit `.replace(/^0x/i, '')`: drop a leading `0x`/`0X`. -/
def strip0x : List Char → List Char
  | '0' :: 'x' :: cs => cs
  | '0' :: 'X' :: cs => cs
  | cs => cs

/-- The integer denoted by a strict hex string `(-)?0x[0-9a-f]*` (the test
`isHexStrict`, case-insensitive, and the value `toBN` gives it); `none` when
the text has another shape. -/
def parseHexStrict (s : String) : Option Int :=
  match s.data with
  | '-' :: cs =>
    if has0x cs then (hexValue (strip0x cs)).map (fun v => - (Int.ofNat v)) else none
  | cs => if has0x cs then (hexValue (strip0x cs)).map Int.ofNat else none

/-- The integer denoted by a decimal string `-?[0-9]+`; `none` otherwise. -/
def parseDecimal (s : String) : Option Int :=
  match s.data with
  | [] => none
  | ['-'] => none
  | '-' :: cs => (decValueFrom 0 cs).map (fun v => - (Int.ofNat v))
  | cs => (decValueFrom 0 cs).map Int.ofNat

/-- The text `n.toString(16)` of a natural number: lower-case hex digits. -/
def toString16 (n : Nat) : String := String.mk (Nat.toDigits 16 n)

/-- The result of `web3.utils.numberToHex` on an integer: `0x` and the hex
digits, with a leading `-` for a negative number. -/
def hexOfInt (n : Int) : String :=
  if n < 0 then "-0x" ++ toString16 n.natAbs else "0x" ++ toString16 n.natAbs

/-- The decimal text of an integer: the form in which an identifier reaches
the encoder when it is cut out of a listing id (`<network>-<version>-<id>`). -/
def decimalOf (id : Int) : String :=
  if id < 0 then String.mk ('-' :: Nat.toDigits 10 id.natAbs)
  else String.mk (Nat.toDigits 10 id.natAbs)

/-- The ten decimal digits. -/
def decimalDigits : List Char := ['0', '1', '2', '3', '4', '5', '6', '7', '8', '9']

/-- The test `[0-9]` on a character. -/
def isDecimalDigit (c : Char) : Bool := decimalDigits.contains c

/-- The white space and line terminators that `String.prototype.trim` removes
and that the grammar of numeric strings allows around a number. -/
def isJsSpace (c : Char) : Bool :=
  [9, 10, 11, 12, 13, 32, 160, 0x1680, 0x2028, 0x2029, 0x202F, 0x205F, 0x3000, 0xFEFF].contains
      c.toNat
    || (0x2000 ≤ c.toNat && c.toNat ≤ 0x200A)

/-- The text without the white space at its end. -/
def trimEnd : List Char → List Char
  | [] => []
  | c :: cs =>
    match trimEnd cs with
    | [] => if isJsSpace c then [] else [c]
    | rest => c :: rest

/-- The method `text.trim()`, on the list of characters. -/
def trimChars (cs : List Char) : List Char := trimEnd (cs.dropWhile isJsSpace)

/-- The least magnitude that `Number` rounds to `Infinity`: half-way between
the largest double, `2^1024 - 2^971`, and `2^1024`, that is
`2^1024 - 2^970`, written out. -/
def infinityFrom : Nat :=
  179769313486231580793728971405303415079934132710037826936173778980444968292764750946649017977587207096330286416692887910946555547851940402630657488671505820681908902000708383676273854845817711531764475730270069855571366959622842914819860834936475292719074168444365510704342711559699508093042880177904174497792

/-- The number written by digits of the base `base`, most significant first;
`none` when there is no digit or a character is not a digit of the base. -/
def radixValue (base : Nat) (cs : List Char) : Option Nat :=
  if cs = [] then none
  else cs.foldl (fun acc c =>
    match acc, hexDigitVal c with
    | some a, some d => if d < base then some (base * a + d) else none
    | _, _ => none) (some 0)

/-- The exponent part of a decimal literal, `[eE][+-]?[0-9]+`, or nothing:
the exponent, `none` when the text has another shape. -/
def exponentPart (cs : List Char) : Option Int :=
  match cs with
  | [] => some 0
  | e :: rest =>
    if e = 'e' ∨ e = 'E' then
      match rest with
      | [] => none
      | sign :: digits =>
        if sign = '+' then
          (if digits = [] then none else (decValueFrom 0 digits).map Int.ofNat)
        else if sign = '-' then
          (if digits = [] then none else (decValueFrom 0 digits).map fun v => - Int.ofNat v)
        else (decValueFrom 0 rest).map Int.ofNat
    else none

/-- An unsigned decimal literal of the numeric string grammar other than
`Infinity` (digits, an optional `.` with digits, an optional exponent, with a
digit before or after the point): the pair `(m, e)` with value `m * 10^e`;
`none` when the text is no such literal. -/
def decimalLiteral (cs : List Char) : Option (Nat × Int) :=
  let whole := cs.takeWhile isDecimalDigit
  let afterWhole := cs.dropWhile isDecimalDigit
  let fraction := match afterWhole with
    | [] => []
    | c :: rest => if c = '.' then rest.takeWhile isDecimalDigit else []
  let afterFraction := match afterWhole with
    | [] => []
    | c :: rest => if c = '.' then rest.dropWhile isDecimalDigit else afterWhole
  if whole = [] ∧ fraction = [] then none
  else
    match exponentPart afterFraction, decValueFrom 0 (whole ++ fraction) with
    | some e, some m => some (m, e - fraction.length)
    | _, _ => none

/-- The value `m * 10^e` is below the magnitude that rounds to `Infinity`. -/
def belowInfinity (m : Nat) (e : Int) : Bool :=
  decide (m * 10 ^ e.toNat < infinityFrom * 10 ^ (-e).toNat)

/-- The number denoted by an unsigned decimal literal is finite.  The text
`Infinity` and every text that is not a literal give `false`. -/
def decimalFinite (cs : List Char) : Bool :=
  match decimalLiteral cs with
  | some (m, e) => belowInfinity m e
  | none => false

/-- The number denoted by the digits after `0x`, `0o` or `0b` is finite. -/
def radixFinite (base : Nat) (cs : List Char) : Bool :=
  match radixValue base cs with
  | some v => decide (v < infinityFrom)
  | none => false

/-- The test `isFinite(text)` on a string: `Number(text)` is neither `NaN` nor
infinite.  The text is trimmed; the empty text is 0; `0x`, `0o` and `0b`
literals carry no sign; a decimal literal may carry one.  The value is rounded
to the nearest double, so it is finite exactly below `infinityFrom`. -/
def numberIsFinite (text : String) : Bool :=
  match trimChars text.data with
  | [] => true
  | c :: rest =>
    if c = '+' ∨ c = '-' then decimalFinite rest
    else if c = '0' then
      match rest with
      | [] => true
      | x :: digits =>
        if x = 'x' ∨ x = 'X' then radixFinite 16 digits
        else if x = 'o' ∨ x = 'O' then radixFinite 8 digits
        else if x = 'b' ∨ x = 'B' then radixFinite 2 digits
        else decimalFinite (c :: rest)
    else decimalFinite (c :: rest)

/-- The pattern `/^[a-fA-F]+$/`. -/
def isAlphaHex (cs : List Char) : Bool :=
  !cs.isEmpty && cs.all fun c => ('a' ≤ c ∧ c ≤ 'f') ∨ ('A' ≤ c ∧ c ≤ 'F')

/-- The pattern `/^[0-9A-Fa-f]+$/`. -/
def isHexText (cs : List Char) : Bool := !cs.isEmpty && (hexValue cs).isSome

/-- The function `toBN` of `web3-utils` (the package `number-to-bn`) on a
string: the text is lower-cased and trimmed, a leading `0x` and a `-` (with a
`0x` after it) are taken off, the empty rest counts as `0`; the rest is read
in base 16 when it is made of hex digits and is not a decimal number, or
follows a `0x`, and in base 10 when it is a decimal number without `0x`;
`none` when `toBN` throws. -/
def toBNText (text : String) : Option Int :=
  let formatted := trimChars (text.data.map Char.toLower)
  let isHexPrefixed := has0x formatted || (match formatted with
    | [] => false
    | c :: rest => decide (c = '-') && has0x rest)
  let stripped := strip0x formatted
  let negative := match stripped with
    | [] => false
    | c :: _ => decide (c = '-')
  let unsigned := match stripped with
    | [] => []
    | c :: rest => if c = '-' then strip0x rest else stripped
  let stringArg := if unsigned = [] then ['0'] else unsigned
  let multiplier : Int := if negative then -1 else 1
  if (!(parseDecimal (String.mk stringArg)).isSome && isHexText stringArg)
      || isAlphaHex stringArg || (isHexPrefixed && isHexText stringArg) then
    (hexValue stringArg).map fun v => Int.ofNat v * multiplier
  else if (parseDecimal (String.mk stringArg)).isSome && !isHexPrefixed then
    (parseDecimal (String.mk stringArg)).map fun v => v * multiplier
  else none

/-- The test `isFinite(array)`: the array is turned into text by joining its
elements with commas (`null` and `undefined` give the empty text), so only an
empty array or an array of one element can be a number. -/
def finiteArray : List JVal → Bool
  | [] => true
  | [.undefined] => true
  | [.null] => true
  | [.num _] => true
  | [.str s] => numberIsFinite s
  | [.arr inner] => finiteArray inner
  | _ => false

/-- The function `web3.utils.numberToHex`.  `null` and `undefined` are
returned unchanged.  A value for which neither `isFinite(value)` nor
`isHexStrict(value)` holds is rejected with an `Error`; the others are
converted with `toBN`, which throws an `Error` of its own on what it cannot
read.  `toBN` reads a number through `String(value)`, which is the decimal
text of an integer below `10^21` and exponent notation from there on, and the
latter is rejected; it rejects booleans, arrays and plain objects. -/
def numberToHex (value : JVal) : Except JsError JVal :=
  match value with
  | .undefined => .ok .undefined
  | .null => .ok .null
  | .num n =>
    if n.natAbs < 10 ^ 21 then .ok (.str (hexOfInt n))
    else .error (.error "[number-to-bn] invalid number value")
  | .str s =>
    if !numberIsFinite s && !(parseHexStrict s).isSome then
      .error (.error "Given input is not a number.")
    else
      match toBNText s with
      | some n => .ok (.str (hexOfInt n))
      | none => .error (.error "[number-to-bn] invalid number value")
  | .bool _ => .error (.error "[number-to-bn] invalid number value")
  | .arr items =>
    if finiteArray items then .error (.error "[number-to-bn] invalid number value")
    else .error (.error "Given input is not a number.")
  | .obj _ => .error (.error "Given input is not a number.")

/-- The function `web3.utils.hexToNumber`.  A falsy value is returned
unchanged (`if (!value) return value`); a strict hex string and a number are
converted with `toBN(value).toNumber()`, which throws beyond 53 bits; every
other value is rejected with an `Error`. -/
def hexToNumber (value : JVal) : Except JsError JVal :=
  if value.falsy then .ok value
  else match value with
    | .num n =>
      if n.natAbs < 2 ^ 53 then .ok (.num n)
      else .error (.error "Number can only safely store up to 53 bits")
    | .str s =>
      match parseHexStrict s with
      | some n =>
        if n.natAbs < 2 ^ 53 then .ok (.num n)
        else .error (.error "Number can only safely store up to 53 bits")
      | none => .error (.error "Given value is not a valid hex string.")
    | _ => .error (.error "Given value is not a valid hex string.")

/-- The function `web3.utils.padLeft(string, chars)` on a string: the text
without its `0x` is preceded by `chars - length` zeros (none when it is
already longer: `new Array(padding).join('0')` with
`padding = chars - length + 1`, or `0` when that is negative), and the `0x`
is put back when the input had one. -/
def padLeft (string : String) (chars : Nat) : String :=
  let hasPrefix := has0x string.data
  let body := strip0x string.data
  let padding := if body.length ≤ chars + 1 then chars + 1 - body.length else 0
  String.mk ((if hasPrefix then ['0', 'x'] else [])
    ++ List.replicate (padding - 1) '0' ++ body)

/-- The topic of one listing id,
`web3.utils.padLeft(web3.utils.numberToHex(listingId), 64)`.  When
`numberToHex` hands back `null` or `undefined`, `padLeft` calls `toString` on
it and raises a `TypeError`. -/
def listingTopic (listingId : JVal) : Except JsError JVal :=
  match numberToHex listingId with
  | .error e => .error e
  | .ok (.str h) => .ok (.str (padLeft h 64))
  | .ok _ => .error .typeError

/-- The array `listingIds.map(listingId => padLeft(numberToHex(listingId), 64))`:
the first id that cannot be encoded aborts the map. -/
def listingTopics : List JVal → Except JsError (List JVal)
  | [] => .ok []
  | listingId :: rest =>
    match listingTopic listingId with
    | .error e => .error e
    | .ok t =>
      match listingTopics rest with
      | .error e => .error e
      | .ok ts => .ok (t :: ts)

/-! ## Requests -/

/-- The `network` record the listener is started with (a row of the
`Network` table). -/
structure Network where
  networkId : JVal
  providerWs : JVal
  marketplaceVersion : JVal
  marketplaceContract : JVal
  deriving Repr, DecidableEq

/-- The object serialised by the constant `SubscribeToNewHeads`. -/
def SubscribeToNewHeads : JVal :=
  .obj [("jsonrpc", .str "2.0"), ("id", .num 2), ("method", .str "eth_subscribe"),
    ("params", .arr [.str "newHeads"])]

/-- The object serialised by `SubscribeToLogs({ address, listingIds })`. -/
def SubscribeToLogs (address : JVal) (listingIds : List JVal) : Except JsError JVal :=
  match listingTopics listingIds with
  | .error e => .error e
  | .ok topics =>
    .ok (.obj [("jsonrpc", .str "2.0"), ("id", .num 1), ("method", .str "eth_subscribe"),
      ("params", .arr [.str "logs",
        .obj [("address", address), ("topics", .arr [.null, .null, .arr topics])]])])

/-- The object `rpc` serialised by
`GetPastLogs({ address, fromBlock, toBlock, listingIds })`.  A property whose
value is `undefined` is left out by `JSON.stringify`. -/
def GetPastLogs (address fromBlock toBlock : JVal) (listingIds : List JVal) :
    Except JsError JVal :=
  match listingTopics listingIds with
  | .error e => .error e
  | .ok topics =>
    match numberToHex fromBlock with
    | .error e => .error e
    | .ok fromHex =>
      match numberToHex toBlock with
      | .error e => .error e
      | .ok toHex =>
        .ok (.obj [("jsonrpc", .str "2.0"), ("id", .num 3), ("method", .str "eth_getLogs"),
          ("params", .arr [.obj [("address", address),
            ("topics", .arr [.null, .null, .arr topics]),
            ("fromBlock", fromHex), ("toBlock", toHex)]])])

/-- The request `GetPastLogs` builds for the block range `(L, n]` over encoded
topics, with the `address` the caller passed. -/
def getLogsRpc (address : JVal) (topics : List JVal) (L n : Int) : JVal :=
  .obj [("jsonrpc", .str "2.0"), ("id", .num 3), ("method", .str "eth_getLogs"),
    ("params", .arr [.obj [("address", address),
      ("topics", .arr [.null, .null, .arr topics]),
      ("fromBlock", .str (hexOfInt L)), ("toBlock", .str (hexOfInt n))]])]

/-- The filter object of a logs subscription, `params[1]` of the request. -/
def subscribeFilter (rpc : JVal) : JVal := (rpc.field "params").index 1

/-- The filter object of a historical query, `params[0]` of the request. -/
def getLogsFilter (rpc : JVal) : JVal := (rpc.field "params").index 0

/-! ## Session state and effects -/

/-- The argument of one `handleLog` call,
`{ ...log, web3, address, networkId, contractVersion }`: the properties of
`log` spread first, then the context of the session. -/
structure HandleLogArgs where
  log : JVal
  address : JVal
  networkId : JVal
  contractVersion : JVal
  deriving Repr, DecidableEq

/-- How a call of the external `handleLog` ends, as seen by the caller, who
neither awaits nor catches: it returns, it returns a promise that is rejected
later, or it throws before returning. -/
inductive CallResult where
  | returned : CallResult
  | rejected : CallResult
  | threw (e : JsError) : CallResult
  deriving Repr, DecidableEq

/-- The lines written with `console.log`, with the values they interpolate. -/
inductive LogMsg where
  | lastRecordedBlock (lastBlock : JVal) : LogMsg
  | noRecordedBlock : LogMsg
  | connecting (providerWs networkId : JVal) : LogMsg
  | watching (listingIds : List JVal) (address : JVal) : LogMsg
  | ignoringRepeated : LogMsg
  | changeInListings : LogMsg
  | gotUnhandledLogs (length : JVal) : LogMsg
  | tooManyNewBlocks : LogMsg
  | fetchingPastLogs (blockDiff : Int) : LogMsg
  | newBlock (number timestamp : JVal) : LogMsg
  | unknownMessage : LogMsg
  | wsOpen : LogMsg
  | wsPing : LogMsg
  | wsPingTimeout : LogMsg
  | listenerDisabled : LogMsg
  | startingListener (networkId : JVal) : LogMsg
  deriving Repr, DecidableEq

/-- The observable actions of the listener, in the order they happen. -/
inductive Effect where
  /-- A `console.log` line. -/
  | log (msg : LogMsg) : Effect
  /-- The call `ws.send(JSON.stringify(rpc))`. -/
  | send (rpc : JVal) : Effect
  /-- The call `handleLog(args)`. -/
  | handleLog (args : HandleLogArgs) : Effect
  /-- The call `Network.upsert({ networkId, lastBlock })`. -/
  | upsert (networkId lastBlock : JVal) : Effect
  /-- The call `connectWS({ listingIds, network })` that restarts the listener. -/
  | connectWS (listingIds : List JVal) : Effect
  /-- The call `clearTimeout(pingTimeout)`. -/
  | clearTimeout (pingTimeout : Option Nat) : Effect
  /-- The call `ws.close()` on the socket with this handle. -/
  | wsClose (socket : Nat) : Effect
  /-- The construction `new ReconnectingWebSocket(providerWs)`. -/
  | wsNew (socket : Nat) (providerWs : JVal) : Effect
  /-- The call `setTimeout(callback, delay)`, returning the timer `timer`. -/
  | setTimeout (timer : Nat) (delay : Nat) : Effect
  /-- The call `ws.reconnect()` on the socket `ws` holds at that moment. -/
  | wsReconnect (socket : Option Nat) : Effect
  /-- The registration `ws._ws.on('ping', ...)` of the ping listener. -/
  | wsOnPing : Effect
  /-- The call `web3.setProvider(network.provider)`. -/
  | setProvider (provider : JVal) : Effect
  deriving Repr, DecidableEq

/-- The variables closed over by the `message` listener of one `connectWS`
call: its arguments `network` and `listingIds`, and the locals `lastBlock`,
`heads`, `logs` and `handled` (the keys set in it). -/
structure Session where
  network : Network
  listingIds : List JVal
  lastBlock : JVal
  heads : JVal
  logs : JVal
  handled : List String
  deriving Repr, DecidableEq

/-- One `message` event, given by the two things `incoming` computes from
`raw.data`: `sha3` is `web3.utils.sha3(raw.data)`, and `parsed` is the value of
`JSON.parse(raw.data)`, `none` when it throws a `SyntaxError`. -/
structure RawFrame where
  sha3 : String
  parsed : Option JVal
  deriving Repr, DecidableEq

/-- The outcome of one run of a listener: the session variables afterwards,
the effects in order, and the exception that ended the run, if any (for the
`async` listener, the rejection of the promise it returned). -/
structure Run where
  session : Session
  trace : List Effect
  raised : Option JsError
  deriving Repr, DecidableEq

/-- The requests sent during a run. -/
def sends (trace : List Effect) : List JVal :=
  trace.filterMap fun e => match e with
    | .send rpc => some rpc
    | _ => none

/-- The `eth_getLogs` requests sent during a run. -/
def getLogsRequests (trace : List Effect) : List JVal :=
  (sends trace).filter fun rpc => decide (rpc.field "method" = .str "eth_getLogs")

/-- The arguments of the `handleLog` calls of a run. -/
def handlerCalls (trace : List Effect) : List HandleLogArgs :=
  trace.filterMap fun e => match e with
    | .handleLog args => some args
    | _ => none

/-- The progress-store upserts of a run, as pairs `(networkId, lastBlock)`. -/
def upserts (trace : List Effect) : List (JVal × JVal) :=
  trace.filterMap fun e => match e with
    | .upsert networkId lastBlock => some (networkId, lastBlock)
    | _ => none

/-- The watch sets of the listener restarts requested during a run. -/
def restarts (trace : List Effect) : List (List JVal) :=
  trace.filterMap fun e => match e with
    | .connectWS listingIds => some listingIds
    | _ => none

/-! ## The dispatcher -/

/-- A `console.log` line, as opposed to an action on the outside world. -/
def Effect.isLog : Effect → Bool
  | .log _ => true
  | _ => false

/-- The effects of a run without the `console.log` lines. -/
def actions (trace : List Effect) : List Effect :=
  trace.filter fun e => !e.isLog

/-- The function `handleNewHead(head, networkId)`: decode `head.number` and
`head.timestamp`, upsert the progress record, log, and return the number. -/
def handleNewHead (head networkId : JVal) : Except JsError (JVal × List Effect) :=
  match head.prop "number" with
  | .error e => .error e
  | .ok rawNumber =>
    match hexToNumber rawNumber with
    | .error e => .error e
    | .ok number =>
      match hexToNumber (head.field "timestamp") with
      | .error e => .error e
      | .ok timestamp =>
        .ok (number, [.upsert networkId number, .log (.newBlock number timestamp)])

/-- The context a session adds to a log before handing it to `handleLog`. -/
def handleLogArgs (st : Session) (log : JVal) : HandleLogArgs :=
  { log := log
    address := st.network.marketplaceContract
    networkId := st.network.networkId
    contractVersion := st.network.marketplaceVersion }

/-- The loop `data.result.map(result => handleLog({ ...result, ... }))`: the
handler is called on the logs in order, and a call that throws ends the loop. -/
def forwardLogs (handleLog : HandleLogArgs → CallResult) (st : Session) :
    List JVal → List Effect × Option JsError
  | [] => ([], none)
  | result :: rest =>
    match handleLog (handleLogArgs st result) with
    | .threw e => ([.handleLog (handleLogArgs st result)], some e)
    | _ =>
      ((Effect.handleLog (handleLogArgs st result)) :: (forwardLogs handleLog st rest).1,
        (forwardLogs handleLog st rest).2)

/-- The branch of `incoming` for a push on the new-heads subscription
(lines 145-155). -/
def onNewHead (st : Session) (data : JVal) : Run :=
  match (data.field "params").prop "result" with
  | .error e => ⟨st, [], some e⟩
  | .ok head =>
    match handleNewHead head st.network.networkId with
    | .error e => ⟨st, [], some e⟩
    | .ok (number, t1) =>
      let blockDiff := jsSub number st.lastBlock
      if jsGt blockDiff 500 then
        ⟨{ st with lastBlock := number }, t1 ++ [.log .tooManyNewBlocks], none⟩
      else if jsGt blockDiff 1 then
        match GetPastLogs .undefined st.lastBlock number st.listingIds with
        | .error e => ⟨st, t1 ++ [.log (.fetchingPastLogs (blockDiff.getD 0))], some e⟩
        | .ok rpc =>
          ⟨{ st with lastBlock := number },
            t1 ++ [.log (.fetchingPastLogs (blockDiff.getD 0)), .send rpc], none⟩
      else
        ⟨{ st with lastBlock := number }, t1, none⟩

/-- The classification of a parsed frame (lines 125-158 of `incoming`). -/
def dispatch (handleLog : HandleLogArgs → CallResult) (st : Session) (data : JVal) : Run :=
  match data.prop "id" with
  | .error e => ⟨st, [], some e⟩
  | .ok id =>
    if strictEq id (.num 1) then
      ⟨{ st with logs := data.field "result" }, [], none⟩
    else if strictEq id (.num 2) then
      ⟨{ st with heads := data.field "result" }, [], none⟩
    else if strictEq id (.num 3) then
      match (data.field "result").prop "length" with
      | .error e => ⟨st, [], some e⟩
      | .ok length =>
        match data.field "result" with
        | .arr results =>
          ⟨st, .log (.gotUnhandledLogs length) :: (forwardLogs handleLog st results).1,
            (forwardLogs handleLog st results).2⟩
        | _ => ⟨st, [.log (.gotUnhandledLogs length)], some .typeError⟩
    else if strictEq (get data "params" "subscription") st.logs then
      match (data.field "params").prop "result" with
      | .error e => ⟨st, [], some e⟩
      | .ok result =>
        match handleLog (handleLogArgs st result) with
        | .threw e => ⟨st, [.handleLog (handleLogArgs st result)], some e⟩
        | _ => ⟨st, [.handleLog (handleLogArgs st result)], none⟩
    else if strictEq (get data "params" "subscription") st.heads then
      onNewHead st data
    else
      ⟨st, [.log .unknownMessage], none⟩

/-- The duplicate notice of lines 112-115: a line is logged when the hash of
the frame is already a key of `handled`; nothing else depends on the test. -/
def repeatNotice (st : Session) (raw : RawFrame) : List Effect :=
  if raw.sha3 ∈ st.handled then [.log .ignoringRepeated] else []

/-- The assignment `handled[hash] = true` of line 116. -/
def markHandled (st : Session) (raw : RawFrame) : Session :=
  { st with handled := raw.sha3 :: st.handled }

/-- The `message` listener `incoming(raw)` of a session.  `latestListings` is
the value the awaited `getListingIds({ network })` resolves to while this
frame is handled.  The comparison `isEqual(latestListings, listingIds)` of
lodash on two arrays is element by element, in order. -/
def incoming (handleLog : HandleLogArgs → CallResult) (st : Session) (raw : RawFrame)
    (latestListings : List JVal) : Run :=
  if latestListings ≠ st.listingIds then
    ⟨markHandled st raw,
      repeatNotice st raw ++ [.log .changeInListings, .connectWS latestListings], none⟩
  else
    match raw.parsed with
    | none => ⟨markHandled st raw, repeatNotice st raw, some .syntaxError⟩
    | some data =>
      ⟨(dispatch handleLog (markHandled st raw) data).session,
        repeatNotice st raw ++ (dispatch handleLog (markHandled st raw) data).trace,
        (dispatch handleLog (markHandled st raw) data).raised⟩

/-- The path condition under which `incoming` reaches the new-heads branch
(line 145): the frame is an object-like value whose `id` is none of 1, 2, 3,
whose `params.subscription` is not the recorded logs subscription id and is
the recorded heads subscription id. -/
def isHeadPush (st : Session) (data : JVal) : Bool :=
  !data.nullish
    && !strictEq (data.field "id") (.num 1)
    && !strictEq (data.field "id") (.num 2)
    && !strictEq (data.field "id") (.num 3)
    && !strictEq (get data "params" "subscription") st.logs
    && strictEq (get data "params" "subscription") st.heads

/-- The block header carried by a push frame, `data.params.result`. -/
def pushResult (data : JVal) : JVal := (data.field "params").field "result"

/-! ## Starting a session -/

/-- The function `connectWS({ network, listingIds })`.  `ws` is the
module-level socket variable before the call, `socket` the handle of the
socket the call constructs, and `res` the `lastBlock` of the progress record
found by `Network.findOne` (`none`: no record).  It returns the variables of
the new session, the new value of `ws`, and the effects in order.  The timer
passed to `clearTimeout` is the new call's own `pingTimeout`, still unset. -/
def connectWS (ws : Option Nat) (socket : Nat) (network : Network) (listingIds : List JVal)
    (res : Option JVal) : Session × Option Nat × List Effect :=
  let lastBlock : JVal := match res with
    | some recorded => recorded
    | none => .undefined
  let t1 : List Effect := match res with
    | some recorded => [.log (.lastRecordedBlock recorded)]
    | none => [.log .noRecordedBlock]
  let t2 : List Effect :=
    [.log (.connecting network.providerWs network.networkId),
     .log (.watching listingIds network.marketplaceContract)]
  let t3 : List Effect := match ws with
    | some old => [.clearTimeout none, .wsClose old]
    | none => []
  ({ network := network, listingIds := listingIds, lastBlock := lastBlock,
     heads := .undefined, logs := .undefined, handled := [] },
   some socket,
   t1 ++ t2 ++ t3 ++ [.wsNew socket network.providerWs])

/-! ## Liveness -/

/-- The function `heartbeat()` of a session.  `pingTimeout` is the session's
variable before the call and `timer` the handle `setTimeout` returns; the
result is the new value of `pingTimeout` and the effects: the previous timer
is cleared and a new one is set to fire after `30000 + 5000` ms. -/
def heartbeat (pingTimeout : Option Nat) (timer : Nat) : Option Nat × List Effect :=
  (some timer, [.clearTimeout pingTimeout, .setTimeout timer (30000 + 5000)])

/-- The callback of the liveness timer: a log line and `ws.reconnect()` on
the module-level socket.  It reads and writes no variable of the session. -/
def pingTimeoutFired (ws : Option Nat) : List Effect :=
  [.log .wsPingTimeout, .wsReconnect ws]

/-- The `ping` listener registered on open: a log line and a heartbeat. -/
def onPing (pingTimeout : Option Nat) (timer : Nat) : Option Nat × List Effect :=
  ((heartbeat pingTimeout timer).1, Effect.log .wsPing :: (heartbeat pingTimeout timer).2)

/-- The `open` listener of a session (lines 96-105): log, heartbeat, register
the ping listener, then send the logs subscription and the new-heads
subscription.  Building the first request can throw, which ends the listener
before anything is sent. -/
def onOpen (st : Session) (pingTimeout : Option Nat) (timer : Nat) :
    Option Nat × List Effect × Option JsError :=
  match SubscribeToLogs st.network.marketplaceContract st.listingIds with
  | .error e =>
    ((heartbeat pingTimeout timer).1,
      Effect.log .wsOpen :: (heartbeat pingTimeout timer).2 ++ [.wsOnPing], some e)
  | .ok rpc =>
    ((heartbeat pingTimeout timer).1,
      Effect.log .wsOpen :: (heartbeat pingTimeout timer).2
        ++ [.wsOnPing, .send rpc, .send SubscribeToNewHeads], none)

/-- The part of the runtime the liveness code acts on: the module-level
variable `ws`, the sockets that were closed, and the timers that are set and
have neither been cleared nor fired. -/
structure Runtime where
  ws : Option Nat
  closed : List Nat
  pending : List Nat
  deriving Repr, DecidableEq

/-- The change one effect makes to the runtime. -/
def Runtime.apply (rt : Runtime) : Effect → Runtime
  | .clearTimeout (some timer) => { rt with pending := rt.pending.filter (· ≠ timer) }
  | .setTimeout timer _ => { rt with pending := timer :: rt.pending }
  | .wsClose socket => { rt with closed := socket :: rt.closed }
  | .wsNew socket _ => { rt with ws := some socket }
  | _ => rt

/-- The runtime after the effects of a run, in order. -/
def Runtime.run (rt : Runtime) (trace : List Effect) : Runtime :=
  trace.foldl Runtime.apply rt

/-- The timer `timer` fires: it leaves the pending set and its callback runs. -/
def Runtime.fire (rt : Runtime) (timer : Nat) : Runtime × List Effect :=
  if timer ∈ rt.pending then
    ({ rt with pending := rt.pending.filter (· ≠ timer) }, pingTimeoutFired rt.ws)
  else (rt, [])

/-- The calls of `clearTimeout` and `setTimeout` among the effects of a run. -/
def timerCalls (trace : List Effect) : List Effect :=
  trace.filter fun e => match e with
    | .clearTimeout _ => true
    | .setTimeout _ _ => true
    | _ => false

/-- What happens to a session between its construction and its replacement,
as far as the liveness timer goes: the socket opens (again, after a
reconnect) and `setTimeout` answers `timer`; the transport pings and
`setTimeout` answers `timer`; the timer `timer` fires. -/
inductive LiveEvent where
  | opened (timer : Nat) : LiveEvent
  | ping (timer : Nat) : LiveEvent
  | fire (timer : Nat) : LiveEvent
  deriving Repr, DecidableEq

/-- A session with its variable `pingTimeout`, the runtime, and the effects
so far. -/
structure Live where
  session : Session
  pingTimeout : Option Nat
  runtime : Runtime
  trace : List Effect
  deriving Repr, DecidableEq

/-- One liveness event of a session: the `open` listener, the `ping`
listener, or the callback of a timer, each with its effects applied to the
runtime and appended to the trace.  None of the three assigns a variable of
the session other than `pingTimeout`. -/
def liveStep (s : Live) : LiveEvent → Live
  | .opened timer =>
    { s with pingTimeout := (onOpen s.session s.pingTimeout timer).1
             runtime := s.runtime.run (onOpen s.session s.pingTimeout timer).2.1
             trace := s.trace ++ (onOpen s.session s.pingTimeout timer).2.1 }
  | .ping timer =>
    { s with pingTimeout := (onPing s.pingTimeout timer).1
             runtime := s.runtime.run (onPing s.pingTimeout timer).2
             trace := s.trace ++ (onPing s.pingTimeout timer).2 }
  | .fire timer =>
    { s with runtime := (s.runtime.fire timer).1
             trace := s.trace ++ (s.runtime.fire timer).2 }

/-- A sequence of liveness events of a session. -/
def liveRun (s : Live) (events : List LiveEvent) : Live :=
  events.foldl liveStep s

/-! ## The watch-set tracker -/

/-- A row of the `Shop` table, with the two columns `getListingIds` reads;
`listingId` is `none` for `NULL`. -/
structure ShopRow where
  networkId : JVal
  listingId : Option String
  deriving Repr, DecidableEq

/-- The method `text.split(sep)` with a one-character separator, on the list
of characters. -/
def splitChars (sep : Char) : List Char → List (List Char)
  | [] => [[]]
  | c :: cs =>
    if c = sep then [] :: splitChars sep cs
    else match splitChars sep cs with
      | [] => [[c]]
      | segment :: rest => (c :: segment) :: rest

/-- The expression `shop.listingId.split('-')[2]`: the third part of the
listing id, `undefined` when there are fewer than three. -/
def thirdPart (listingId : String) : JVal :=
  match (splitChars '-' listingId.data).get? 2 with
  | some part => .str (String.mk part)
  | none => .undefined

/-- The rows `Shop.findAll` returns for
`group: ['listingId'], where: { networkId, listingId: { [Op.ne]: null } }`:
the distinct listing ids of the shops of the network that have one.  The
database is free in the order of the groups; the order of last occurrence
is taken here. -/
def listingIdGroups (shops : List ShopRow) (network : Network) : List String :=
  ((shops.filter fun shop => shop.networkId = network.networkId).filterMap
    fun shop => shop.listingId).dedup

/-- The function `getListingIds({ network })`. -/
def getListingIds (shops : List ShopRow) (network : Network) : List JVal :=
  (listingIdGroups shops network).map thirdPart

/-- A row of the `Network` table: the columns the listener reads through the
`network` record, and the columns `provider`, `active` and `lastBlock`
(`null` as long as no block was recorded). -/
structure NetworkRow where
  network : Network
  provider : JVal
  active : Bool
  lastBlock : JVal
  deriving Repr, DecidableEq

/-- The function `start()` on the tables `Network` and `Shop`.  The first
`findOne` looks for an active network; without one the listener is disabled.
Otherwise `connectWS` is called with that row and the watch set, and its own
`Network.findOne({ where: { networkId } })` reads the table again.  The result
is the session and the module-level socket (`none` when disabled) and the
effects in order. -/
def start (rows : List NetworkRow) (shops : List ShopRow) (ws : Option Nat) (socket : Nat) :
    Option (Session × Option Nat) × List Effect :=
  match rows.find? fun row => row.active with
  | none => (none, [.log .listenerDisabled])
  | some row =>
    let res := (rows.find? fun found => found.network.networkId = row.network.networkId).map
      fun found => found.lastBlock
    let connected := connectWS ws socket row.network (getListingIds shops row.network) res
    (some (connected.1, connected.2.1),
      [.log (.startingListener row.network.networkId), .setProvider row.provider]
        ++ connected.2.2)

/-- Handling a list of frames in arrival order, each with the watch set the
tracker resolves while it is handled.  A run that raises only rejects the
promise of that one `incoming` call; the listener stays registered and the
next frame is handled from the variables as the failed run left them. -/
def incomingAll (handleLog : HandleLogArgs → CallResult) :
    Session → List (RawFrame × List JVal) → Session
  | st, [] => st
  | st, (raw, latestListings) :: rest =>
    incomingAll handleLog (incoming handleLog st raw latestListings).session rest

/-- The frame `f` (with the watch set resolved while it is handled) is a
new-head push for the session `st` with block number `n`: the watch set is
unchanged, the text parses, the frame reaches the new-heads branch, and its
`number` and `timestamp` decode. -/
def IsHeadFrame (st : Session) (f : RawFrame × List JVal) (n : Int) : Prop :=
  f.2 = st.listingIds ∧ ∃ data ts, f.1.parsed = some data ∧ isHeadPush st data = true
    ∧ hexToNumber ((pushResult data).field "number") = .ok (.num n)
    ∧ hexToNumber ((pushResult data).field "timestamp") = .ok ts

/-! ## Sample data -/

/-- A network record. -/
def sampleNetwork : Network :=
  { networkId := .num 4, providerWs := .str "wss://node.example/ws",
    marketplaceVersion := .str "001", marketplaceContract := .str "0x698ff47b84837d3971118a369c570172ee7e54c2" }

/-- A session on the watch set `listingIds`, after both subscription
acknowledgments (`logs = "0xA"`, `heads = "0xB"`), with the given recorded
block. -/
def sampleSession (listingIds : List JVal) (lastBlock : JVal) : Session :=
  { network := sampleNetwork, listingIds := listingIds, lastBlock := lastBlock,
    heads := .str "0xB", logs := .str "0xA", handled := [] }

/-- The push
`{jsonrpc, method, params: {subscription, result: {number, timestamp}}}`. -/
def pushFrame (sha3 subscription number timestamp : String) : RawFrame :=
  { sha3 := sha3
    parsed := some (.obj [("jsonrpc", .str "2.0"), ("method", .str "eth_subscription"),
      ("params", .obj [("subscription", .str subscription),
        ("result", .obj [("number", .str number), ("timestamp", .str timestamp)])])]) }

/-- The response `{jsonrpc, id: 3, result: [...]}` to an `eth_getLogs` request. -/
def logsResponse (sha3 : String) (results : List JVal) : RawFrame :=
  { sha3 := sha3
    parsed := some (.obj [("jsonrpc", .str "2.0"), ("id", .num 3), ("result", .arr results)]) }

/-- A raw log, reduced to its `logIndex`. -/
def sampleLog (logIndex : String) : JVal :=
  .obj [("logIndex", .str logIndex), ("blockNumber", .str "0x64")]

/-- A handler that throws before returning on the log with index `bad`, and
returns on every other log. -/
def throwingHandler (bad : String) : HandleLogArgs → CallResult := fun args =>
  if args.log = sampleLog bad then .threw (.error "HandlerError") else .returned

/-- A handler whose promise is rejected on the log with index `bad`, and that
returns on every other log. -/
def rejectingHandler (bad : String) : HandleLogArgs → CallResult := fun args =>
  if args.log = sampleLog bad then .rejected else .returned

/-- A handler that always returns. -/
def quietHandler : HandleLogArgs → CallResult := fun _ => .returned

/-- A push on the logs subscription,
`{jsonrpc, method, params: {subscription, result}}`. -/
def logPushFrame (sha3 subscription : String) (result : JVal) : RawFrame :=
  { sha3 := sha3
    parsed := some (.obj [("jsonrpc", .str "2.0"), ("method", .str "eth_subscription"),
      ("params", .obj [("subscription", .str subscription), ("result", result)])]) }

/-- The acknowledgment `{jsonrpc, id, result}` of a subscription request, here
with a stray `params.subscription` as well. -/
def ackFrame (sha3 : String) (id : Int) (result : String) : RawFrame :=
  { sha3 := sha3
    parsed := some (.obj [("jsonrpc", .str "2.0"), ("id", .num id), ("result", .str result),
      ("params", .obj [("subscription", .str "0xA")])]) }

/-- The session as `connectWS` leaves it, before any acknowledgment: `logs`
and `heads` are still `undefined`. -/
def freshSession : Session :=
  (connectWS none 0 sampleNetwork [.num 1, .num 2] (some (.num 90))).1

/-- A notification that carries `params` without a `subscription`. -/
def strayNotification (sha3 : String) (result : JVal) : RawFrame :=
  { sha3 := sha3
    parsed := some (.obj [("jsonrpc", .str "2.0"), ("method", .str "eth_subscription"),
      ("params", .obj [("result", result)])]) }

/-- An error response without a correlation id,
`{jsonrpc, id: null, error: {code, message}}`. -/
def errorResponse (sha3 : String) : RawFrame :=
  { sha3 := sha3
    parsed := some (.obj [("jsonrpc", .str "2.0"), ("id", .null),
      ("error", .obj [("code", .num (-32600)), ("message", .str "invalid request")])]) }

/-- Shops of network 4: two listings that differ in the contract version
only, one listing id that is not of the form `network-version-id`, one shop
without a listing, and a shop of another network. -/
def sampleShops : List ShopRow :=
  [{ networkId := .num 4, listingId := some "4-000-5" },
   { networkId := .num 4, listingId := some "4-001-5" },
   { networkId := .num 4, listingId := some "legacy" },
   { networkId := .num 4, listingId := none },
   { networkId := .num 1, listingId := some "1-001-9" }]

/-- Shops of network 4 with well-formed listing ids of one contract version. -/
def tidyShops : List ShopRow :=
  [{ networkId := .num 4, listingId := some "4-001-5" },
   { networkId := .num 4, listingId := some "4-001-7" },
   { networkId := .num 4, listingId := some "4-001-5" },
   { networkId := .num 4, listingId := none }]

/-- The `Network` table with the one active network, before any block was
recorded for it. -/
def unrecordedRows : List NetworkRow :=
  [{ network := sampleNetwork, provider := .str "https://node.example", active := true,
     lastBlock := .null }]

/-- A frame whose text is not JSON. -/
def garbledFrame (sha3 : String) : RawFrame := { sha3 := sha3, parsed := none }

/-- The failure response `{jsonrpc, id: 3, error: {code, message}}` to an
`eth_getLogs` request. -/
def getLogsFailure (sha3 : String) : RawFrame :=
  { sha3 := sha3
    parsed := some (.obj [("jsonrpc", .str "2.0"), ("id", .num 3),
      ("error", .obj [("code", .num (-32005)), ("message", .str "query returned more than 10000 results")])]) }

end Listener

/-!
# Storefront: the suggested payment token (`src/shop/src/components/WithPrices.js`)
-/

namespace Storefront

/-- An entry of `listing.acceptedTokens`, by its `id`. -/
structure Token where
  id : String
  deriving Repr, DecidableEq

/-- The `listing` prop. -/
structure Listing where
  acceptedTokens : List Token
  deriving Repr, DecidableEq

/-- One entry of `tokenStatus`, as `tokenStatusFor` returns it, with the two
flags. -/
structure TokenStatus where
  hasBalance : Bool
  hasAllowance : Bool
  deriving Repr, DecidableEq

/-- The truth value of `listing.acceptedTokens.find(t => t.id === token)`. -/
def accepts (listing : Listing) (token : String) : Bool :=
  (listing.acceptedTokens.find? fun t => t.id == token).isSome

/-- The truth value of `get(tokenStatus, token + '.hasBalance')`, for the
object `tokenStatus` given by its entries: false when there is no entry. -/
def hasBalance (tokenStatus : List (String × TokenStatus)) (token : String) : Bool :=
  match tokenStatus.lookup token with
  | some status => status.hasBalance
  | none => false

/-- Lines 96-108: the token suggested for a listing; `none` is `undefined`. -/
def suggestedToken (listing : Option Listing) (tokenStatus : List (String × TokenStatus)) :
    Option String :=
  match listing with
  | none => none
  | some listing =>
    if accepts listing "token-ETH" && hasBalance tokenStatus "token-ETH" then
      some "token-ETH"
    else if accepts listing "token-DAI" then some "token-DAI"
    else some "token-ETH"

/-- What `WithPrices` hands to `children`: the `loading` flag of the early
returns, or the token status with the suggested token. -/
inductive Rendered where
  | loading (flag : Bool) : Rendered
  | ready (tokenStatus : List (String × TokenStatus)) (suggestedToken : Option String) :
      Rendered
  deriving Repr, DecidableEq

/-- The component `WithPrices`.  `isLoadingData`, `wallet` and `priced` are
the outcomes of the tests of lines 48-67 (`priced`: the price has a currency
that is among `currencies`, and `targets` is set); `tokenStatus` is the
object the reductions of lines 69-94 build from the balances. -/
def WithPrices (isLoadingData wallet priced : Bool) (listing : Option Listing)
    (tokenStatus : List (String × TokenStatus)) : Rendered :=
  if isLoadingData then .loading true
  else if !wallet then .loading false
  else if !priced then .loading true
  else .ready tokenStatus (suggestedToken listing tokenStatus)

end Storefront

/-!
# Storefront: the cart reducer (`src/shop/src/data/state.js`)

The amounts of the cart (quantities, prices in cents, shipping, discount
value) are JavaScript numbers with integer values, or the values `Infinity`,
`-Infinity` and `NaN` that arithmetic on them can give; `-0` is not told apart
from `0`.  The donation is such a number or a text, since the reducer stores
either.  The opaque parts of the state are `JVal`s.
-/

namespace CartState

open Listener (JVal infinityFrom)

/-- A JavaScript number: a double with an integer value, or a value that is
not finite. -/
inductive JNum where
  | fin (n : Int) : JNum
  | posInf : JNum
  | negInf : JNum
  | nan : JNum
  deriving Repr, DecidableEq

/-- The quotient `num / den` rounded to the nearest integer, a tie to the even
one. -/
def nearestEven (num den : Nat) : Nat :=
  if den < 2 * (num % den) ∨ (2 * (num % den) = den ∧ (num / den) % 2 = 1) then num / den + 1
  else num / den

/-- The exponent `e` of a positive natural number, `2^e ≤ a < 2^(e+1)`: one
less than the number of its binary digits. -/
def exponentOf (a : Nat) : Nat := (Nat.toDigits 2 a).length - 1

/-- The double nearest to a natural number (a tie to the even significand):
the number itself below `2^53`, and from there on the multiple of `2^e`
nearest to it, where `2^(52+e) ≤ a < 2^(53+e)`. -/
def roundNat (a : Nat) : Nat :=
  if a < 2 ^ 53 then a
  else nearestEven a (2 ^ (exponentOf a - 52)) * 2 ^ (exponentOf a - 52)

/-- The double nearest to an integer: the result of an arithmetic operation
whose exact value is that integer.  Magnitudes from `2^1024 - 2^970` on
overflow to an infinity. -/
def fl (n : Int) : JNum :=
  if n.natAbs < 2 ^ 53 then .fin n
  else if n.natAbs < infinityFrom then .fin (n.sign * roundNat n.natAbs)
  else if n < 0 then .negInf
  else .posInf

/-- The operation `-a`. -/
def JNum.neg : JNum → JNum
  | .fin n => .fin (-n)
  | .posInf => .negInf
  | .negInf => .posInf
  | .nan => .nan

/-- The operation `a + b` on two numbers. -/
def JNum.add : JNum → JNum → JNum
  | .fin a, .fin b => fl (a + b)
  | .nan, _ => .nan
  | _, .nan => .nan
  | .posInf, .negInf => .nan
  | .negInf, .posInf => .nan
  | .posInf, _ => .posInf
  | _, .posInf => .posInf
  | .negInf, _ => .negInf
  | _, .negInf => .negInf

/-- The operation `a - b` on two numbers. -/
def JNum.sub (a b : JNum) : JNum := a.add b.neg

/-- The sign of a number as `1`, `0`, `-1`; `NaN` has none. -/
def JNum.signum : JNum → Option Int
  | .fin n => some n.sign
  | .posInf => some 1
  | .negInf => some (-1)
  | .nan => none

/-- The operation `a * b` on two numbers. -/
def JNum.mul : JNum → JNum → JNum
  | .fin a, .fin b => fl (a * b)
  | a, b =>
    match a.signum, b.signum with
    | some s, some t =>
      if s * t = 0 then .nan else if 0 < s * t then .posInf else .negInf
    | _, _ => .nan

/-- The comparison `a > b`: false when either is `NaN`. -/
def JNum.gt : JNum → JNum → Bool
  | .fin a, .fin b => decide (b < a)
  | .nan, _ => false
  | _, .nan => false
  | .posInf, .posInf => false
  | .posInf, _ => true
  | _, .posInf => false
  | .negInf, _ => false
  | _, .negInf => true

/-- The truth value of a number: false for `0` and `NaN`. -/
def JNum.truthy : JNum → Bool
  | .fin n => decide (n ≠ 0)
  | .nan => false
  | _ => true

/-- The value `Math.round(n / 100)` for a double with the integer value `n`.
The quotient is the double nearest to `n / 100`: with `2^52 ≤ |n| * 2^j / 100
< 2^53` it is `m / 2^j` for the integer `m` nearest to `|n| * 2^j / 100`
(the case of `|n| < 2^59`), or else `m * 2^k` for the integer `m` nearest to
`|n| / (100 * 2^k)`.  `Math.round` then takes the nearest integer, a half
going up. -/
def roundHundredth (n : Int) : Int :=
  if n = 0 then 0
  else if exponentOf n.natAbs ≤ 58 then
    (2 * n.sign * (nearestEven
        (n.natAbs * 2 ^ (if 100 * 2 ^ 52 ≤ n.natAbs * 2 ^ (58 - exponentOf n.natAbs)
          then 58 - exponentOf n.natAbs else 58 - exponentOf n.natAbs + 1)) 100 : Nat)
      + 2 ^ (if 100 * 2 ^ 52 ≤ n.natAbs * 2 ^ (58 - exponentOf n.natAbs)
          then 58 - exponentOf n.natAbs else 58 - exponentOf n.natAbs + 1))
      / 2 ^ ((if 100 * 2 ^ 52 ≤ n.natAbs * 2 ^ (58 - exponentOf n.natAbs)
          then 58 - exponentOf n.natAbs else 58 - exponentOf n.natAbs + 1) + 1)
  else
    n.sign * (nearestEven n.natAbs
        (100 * 2 ^ (if 100 * 2 ^ (52 + (exponentOf n.natAbs - 58)) ≤ n.natAbs
          then exponentOf n.natAbs - 58 else exponentOf n.natAbs - 58 - 1))
      * 2 ^ (if 100 * 2 ^ (52 + (exponentOf n.natAbs - 58)) ≤ n.natAbs
          then exponentOf n.natAbs - 58 else exponentOf n.natAbs - 58 - 1) : Nat)

/-- The value `Math.round(x / 100)`. -/
def JNum.roundDiv100 : JNum → JNum
  | .fin n => .fin (roundHundredth n)
  | x => x

/-- The digits `s` of `Number::toString` for a double `a ≥ 10^21` with
`digits` decimal digits, when `k` of them are enough: the multiple of
`10^(digits - k)` below or above `a` that rounds to `a`, the nearer one if
both do. -/
def shortestWith (a digits k : Nat) : Option Nat :=
  if roundNat (a / 10 ^ (digits - k) * 10 ^ (digits - k)) = a then
    if roundNat ((a / 10 ^ (digits - k) + 1) * 10 ^ (digits - k)) = a
        ∧ (a / 10 ^ (digits - k) + 1) * 10 ^ (digits - k) - a
          < a - a / 10 ^ (digits - k) * 10 ^ (digits - k) then
      some ((a / 10 ^ (digits - k) + 1) * 10 ^ (digits - k))
    else some (a / 10 ^ (digits - k) * 10 ^ (digits - k))
  else if roundNat ((a / 10 ^ (digits - k) + 1) * 10 ^ (digits - k)) = a then
    some ((a / 10 ^ (digits - k) + 1) * 10 ^ (digits - k))
  else none

/-- The decimal digits without the zeros at the end. -/
def dropEndZeros : List Char → List Char
  | [] => []
  | c :: cs =>
    match dropEndZeros cs with
    | [] => if c = '0' then [] else [c]
    | rest => c :: rest

/-- The text of a double `a ≥ 10^21` in exponent notation: the shortest
digits that read back as `a`, as `d.ddd` followed by `e+` and the exponent. -/
def exponentText (a : Nat) : String :=
  let digits := (Nat.toDigits 10 a).length
  let value := ((List.range 17).findSome? fun i => shortestWith a digits (i + 1)).getD a
  let text := Nat.toDigits 10 value
  let exponent := text.length - 1
  match dropEndZeros text with
  | [] => "0"
  | [d] => String.mk ([d] ++ "e+".data ++ Nat.toDigits 10 exponent)
  | d :: rest => String.mk (d :: '.' :: rest ++ "e+".data ++ Nat.toDigits 10 exponent)

/-- The text `String(x)` of a number. -/
def JNum.toText : JNum → String
  | .nan => "NaN"
  | .posInf => "Infinity"
  | .negInf => "-Infinity"
  | .fin n =>
    (if n < 0 then "-" else "")
      ++ (if n.natAbs < 10 ^ 21 then String.mk (Nat.toDigits 10 n.natAbs)
          else exponentText n.natAbs)

/-- A donation: a number, or a text. -/
inductive Amount where
  | num (x : JNum) : Amount
  | text (s : String) : Amount
  deriving Repr, DecidableEq

/-- The text `String(amount)`. -/
def Amount.toText : Amount → String
  | .num x => x.toText
  | .text s => s

/-- The operation `x + amount` for a number `x`: the sum when `amount` is a
number, and the text of `x` followed by `amount` when it is a text. -/
def jsPlus (x : JNum) : Amount → Amount
  | .num y => .num (x.add y)
  | .text s => .text (x.toText ++ s)

/-- The pattern `/^[0-9]+$/`. -/
def digitsOnly (text : String) : Bool :=
  !text.data.isEmpty && text.data.all fun c => decide ('0' ≤ c ∧ c ≤ '9')

/-- An item of the cart. -/
structure Item where
  product : String
  variant : Int
  quantity : JNum
  price : JNum
  maxQuantity : Option JNum
  deriving Repr, DecidableEq

/-- The shipping zone kept in the cart, `pick(zone, 'id', 'label', 'amount')`. -/
structure Zone where
  id : Option String
  label : Option String
  amount : Option JNum
  deriving Repr, DecidableEq

/-- The discount kept in the cart; the empty object has no field, and then
`value` is not read. -/
structure Discount where
  code : Option String
  discountType : Option String
  value : JNum
  deriving Repr, DecidableEq

/-- The object `cart` of the state. -/
structure Cart where
  items : List Item
  instructions : String
  subTotal : JNum
  discount : JNum
  donation : Amount
  total : Amount
  paymentMethod : JVal
  discountObj : Discount
  shipping : Option Zone
  userInfo : JVal
  deriving Repr, DecidableEq

/-- The state of the storefront. -/
structure State where
  products : JVal
  productIndex : JVal
  collections : JVal
  shippingZones : JVal
  orders : JVal
  discounts : JVal
  reload : List (String × JNum)
  cart : Cart
  admin : JVal
  passwordAuthed : JVal
  affiliate : JVal
  referrer : JVal
  deriving Repr, DecidableEq

/-- The actions the reducer knows, and `other` for any other `type`. -/
inductive Action where
  | addToCart (item : Item) : Action
  | removeFromCart (item : Item) : Action
  | updateCartQuantity (item : Item) (quantity : JNum) : Action
  | setProducts (products : JVal) : Action
  | setCollections (collections : JVal) : Action
  | setShippingZones (zones : JVal) : Action
  | setOrders (orders : JVal) : Action
  | setDiscounts (discounts : JVal) : Action
  /-- The payload is the object built on lines 145-171 from `action.info`. -/
  | updateUserInfo (data : JVal) : Action
  | updateShipping (zone : Zone) : Action
  | updatePaymentMethod (method : JVal) : Action
  | orderComplete : Action
  | setAuth (auth : JVal) : Action
  | setPasswordAuthed (authed : JVal) : Action
  | logout : Action
  | updateInstructions (value : String) : Action
  | setDiscount (discount : Discount) : Action
  /-- The amount is a number or a text, as the caller passes it. -/
  | setDonation (amount : Amount) : Action
  | removeDiscount : Action
  | setAffiliate (affiliate : JVal) : Action
  | setReferrer (referrer : JVal) : Action
  | setNetwork (network : JVal) : Action
  | reload (target : String) : Action
  | other : Action
  deriving Repr, DecidableEq

/-- The empty discount object. -/
def noDiscount : Discount := { code := none, discountType := none, value := .nan }

/-- The constant `defaultState.cart`. -/
def defaultCart : Cart :=
  { items := [], instructions := "", subTotal := .fin 0, discount := .fin 0,
    donation := .num (.fin 0), total := .num (.fin 0), paymentMethod := .obj [],
    discountObj := noDiscount, shipping := none, userInfo := .undefined }

/-- The update `set(array, index + '.quantity', quantity)` of one item. -/
def setQuantity : List Item → Nat → JNum → List Item
  | [], _, _ => []
  | item :: rest, 0, quantity => { item with quantity := quantity } :: rest
  | item :: rest, index + 1, quantity => item :: setQuantity rest index quantity

/-- The index `items.findIndex(test)`, `none` for `-1`. -/
def findIndex (test : Item → Bool) : List Item → Option Nat
  | [] => none
  | item :: rest =>
    if test item then some 0
    else match findIndex test rest with
      | some index => some (index + 1)
      | none => none

/-- The update `set(admin, 'network', network)`: the property is replaced or
added; a value that is not an object gives way to a new object. -/
def setNetworkOf (admin network : JVal) : JVal :=
  match admin with
  | .obj fields => .obj ((fields.filter fun kv => kv.1 ≠ "network") ++ [("network", network)])
  | _ => .obj [("network", network)]

/-- The branch of the reducer for the action (lines 88-208).  In
`setDonation` the amount is stored as it was given, number or text, when its
text is made of digits (line 192). -/
def applyAction (state : State) (action : Action) : State :=
  match action with
  | .addToCart item =>
    let items :=
      match findIndex (fun i => i.product == item.product && i.variant == item.variant)
          state.cart.items with
      | some existingIdx =>
        let quantity := ((state.cart.items.get? existingIdx).map (·.quantity)).getD .nan
        let newQuantity :=
          match item.maxQuantity with
          | some maxQuantity =>
            if maxQuantity.truthy && (quantity.add (.fin 1)).gt maxQuantity then maxQuantity
            else quantity.add (.fin 1)
          | none => quantity.add (.fin 1)
        setQuantity state.cart.items existingIdx newQuantity
      | none => state.cart.items ++ [item]
    { state with shippingZones := .arr [],
                 cart := { state.cart with items := items, shipping := none } }
  | .removeFromCart item =>
    { state with shippingZones := .arr [],
                 cart := { state.cart with
                   items := state.cart.items.filter (fun i => !(i == item)),
                   shipping := none } }
  | .updateCartQuantity item quantity =>
    let items :=
      match findIndex (fun i => i == item) state.cart.items with
      | some idx => setQuantity state.cart.items idx quantity
      | none => state.cart.items
    { state with shippingZones := .arr [],
                 cart := { state.cart with items := items, shipping := none } }
  | .setProducts products => { state with products := products, productIndex := products }
  | .setCollections collections => { state with collections := collections }
  | .setShippingZones zones => { state with shippingZones := zones }
  | .setOrders orders => { state with orders := orders }
  | .setDiscounts discounts => { state with discounts := discounts }
  | .updateUserInfo data =>
    { state with shippingZones := .arr [], cart := { state.cart with userInfo := data } }
  | .updateShipping zone => { state with cart := { state.cart with shipping := some zone } }
  | .updatePaymentMethod method =>
    { state with cart := { state.cart with paymentMethod := method } }
  | .orderComplete => { state with cart := defaultCart }
  | .setAuth auth => { state with admin := auth }
  | .setPasswordAuthed authed => { state with passwordAuthed := authed }
  | .logout => { state with admin := .null }
  | .updateInstructions value =>
    { state with cart := { state.cart with instructions := value } }
  | .setDiscount discount => { state with cart := { state.cart with discountObj := discount } }
  | .setDonation amount =>
    if digitsOnly amount.toText then
      { state with cart := { state.cart with donation := amount } }
    else state
  | .removeDiscount =>
    { state with cart := { state.cart with discountObj := noDiscount, discount := .fin 0 } }
  | .setAffiliate affiliate => { state with affiliate := affiliate }
  | .setReferrer referrer => { state with referrer := referrer }
  | .setNetwork network => { state with admin := setNetworkOf state.admin network }
  | .reload target =>
    { state with reload :=
        (state.reload.filter fun kv => kv.1 ≠ target)
          ++ [(target, ((state.reload.lookup target).getD (.fin 0)).add (.fin 1))] }
  | .other => state

/-- The sum `items.reduce((total, item) => total + item.quantity * item.price, 0)`,
in the arithmetic of doubles. -/
def subTotalOf (items : List Item) : JNum :=
  items.foldl (fun total item => total.add (item.quantity.mul item.price)) (.fin 0)

/-- The value `get(newState, 'cart.shipping.amount', 0)`. -/
def shippingOf (cart : Cart) : JNum :=
  match cart.shipping with
  | some zone => zone.amount.getD (.fin 0)
  | none => .fin 0

/-- The integer nearest to `x / 100`, a half going up. -/
def roundPercent (x : Int) : Int := (2 * x + 100) / 200

/-- The discount of lines 216-226, for the sub-total and shipping given:
`Math.round((subTotal + shipping) * value / 100)` for the type `percentage`
and `value * 100` for the type `fixed`, when a code is set. -/
def discountOf (discountObj : Discount) (subTotal shipping : JNum) : JNum :=
  match discountObj.code with
  | none => .fin 0
  | some code =>
    if code = "" then .fin 0
    else if discountObj.discountType = some "percentage" then
      (((subTotal.add shipping).mul discountObj.value)).roundDiv100
    else if discountObj.discountType = some "fixed" then discountObj.value.mul (.fin 100)
    else .fin 0

/-- The end of the reducer (lines 210-232): the totals are computed again.
The total is `subTotal + shipping - discount + donation`, from left to right,
so a donation that is a text is appended to the text of the number before
it. -/
def retotal (state : State) : State :=
  { state with cart := { state.cart with
      subTotal := subTotalOf state.cart.items
      discount := discountOf state.cart.discountObj (subTotalOf state.cart.items)
        (shippingOf state.cart)
      total := jsPlus
        (((subTotalOf state.cart.items).add (shippingOf state.cart)).sub
          (discountOf state.cart.discountObj (subTotalOf state.cart.items)
            (shippingOf state.cart)))
        state.cart.donation } }

/-- The function `reducer(state, action)`, as a function of the state: the
calls of `fbTrack` and the copy written to `localStorage` are left out. -/
def reducer (state : State) (action : Action) : State :=
  retotal (applyAction state action)

/-- A state with two items in the cart. -/
def sampleState : State :=
  { products := .arr [], productIndex := .undefined, collections := .arr [],
    shippingZones := .arr [], orders := .arr [], discounts := .arr [], reload := [],
    cart := { defaultCart with
      items := [{ product := "shirt", variant := 0, quantity := .fin 2, price := .fin 1500,
                  maxQuantity := none },
                { product := "mug", variant := 1, quantity := .fin 1, price := .fin 995,
                  maxQuantity := some (.fin 3) }],
      shipping := some { id := some "zone-1", label := some "Standard",
                         amount := some (.fin 500) },
      donation := .num (.fin 200) },
    admin := .undefined, passwordAuthed := .undefined, affiliate := .undefined,
    referrer := .undefined }

/-- The action that sets a discount of ten percent with the code `TEN`. -/
def tenPercent : Action :=
  .setDiscount { code := some "TEN", discountType := some "percentage", value := .fin 10 }

/-- A state whose cart holds 94906267 pieces of an item priced 94906267. -/
def largeState : State :=
  { sampleState with cart := { defaultCart with
      items := [{ product := "bolt", variant := 0, quantity := .fin 94906267,
                  price := .fin 94906267, maxQuantity := none }] } }

end CartState

/-!
# Backend: seller registration (`src/backend/utils/sellers.js`)
-/

namespace Sellers

/-- A row of the `Seller` table. -/
structure Seller where
  name : String
  email : String
  password : String
  superuser : Option Bool
  deriving Repr, DecidableEq

/-- The first argument of `createSeller`; `none` is a missing property. -/
structure Registration where
  name : Option String
  email : Option String
  password : Option String
  deriving Repr, DecidableEq

/-- The object `createSeller` resolves to. -/
structure Outcome where
  status : Option Nat
  error : Option String
  seller : Option Seller
  deriving Repr, DecidableEq

/-- The test `!value` on a property that is a string or missing. -/
def missing (value : Option String) : Bool :=
  match value with
  | none => true
  | some text => text == ""

/-- The method `text.toLowerCase()`, on the letters `A` to `Z`. -/
def toLowerCase (text : String) : String := String.mk (text.data.map Char.toLower)

/-- The function `createSeller({ name, email, password }, opts)` on the
`Seller` table given as the list of its rows.  The model `Seller` is used
through two calls: `Seller.findOne` with `where: { email }` returns the first
row whose `email` is that text, and `Seller.create` adds a row with the
values it is given; `salt` and `hashPassword` stand for `createSalt` and
`hashPassword` of `routes/_auth`.  The result is the resolved object and the
table afterwards. -/
def createSeller (store : List Seller) (registration : Registration)
    (superuser : Option Bool) (salt : String) (hashPassword : String → String → String) :
    Outcome × List Seller :=
  match registration.name, registration.email, registration.password with
  | some name, some email, some password =>
    if name = "" ∨ email = "" ∨ password = "" then
      ({ status := some 400, error := some "Invalid registration", seller := none }, store)
    else
      match store.find? fun seller => seller.email == toLowerCase email with
      | some _ =>
        ({ status := some 409, error := some "Registration exists", seller := none }, store)
      | none =>
        ({ status := none, error := none,
           seller := some { name := name, email := email,
                            password := hashPassword salt password,
                            superuser := superuser } },
         store ++ [{ name := name, email := email, password := hashPassword salt password,
                     superuser := superuser }])
  | _, _, _ =>
    ({ status := some 400, error := some "Invalid registration", seller := none }, store)

/-- A stand-in for the password hash. -/
def sampleHash (salt password : String) : String := salt ++ ":" ++ password

end Sellers

namespace Listener

/-! ## Evaluation checks -/

theorem hexOfInt_100 : hexOfInt 100 = "0x64" := by decide

/-- Texts that are numbers for `isFinite` are read by `toBN` after trimming,
in base 16 when they are made of hex digits without being decimal; a text
that is no number for `Number`, or an infinite one, is rejected. -/
theorem numberToHex_texts :
    numberToHex (.str " 12") = .ok (.str "0xc")
      ∧ numberToHex (.str "1e3") = .ok (.str "0x1e3")
      ∧ numberToHex (.str "0b11") = .ok (.str "0xb11")
      ∧ numberToHex (.str "-0x1f") = .ok (.str "-0x1f")
      ∧ numberToHex (.str "1.5") = .error (.error "[number-to-bn] invalid number value")
      ∧ numberToHex (.str "Infinity") = .error (.error "Given input is not a number.")
      ∧ numberToHex (.str "abc") = .error (.error "Given input is not a number.") := by
  decide

theorem hexOfInt_90 : hexOfInt 90 = "0x5a" := by decide

theorem hexToNumber_0x64 : hexToNumber (.str "0x64") = .ok (.num 100) := by decide

theorem listingTopic_5 : listingTopic (.num 5) = .ok (.str
    "0x0000000000000000000000000000000000000000000000000000000000000005") := by decide

theorem listingTopic_decimal_12 : listingTopic (.str "12") = .ok (.str
    "0x000000000000000000000000000000000000000000000000000000000000000c") := by decide

theorem sampleSession_headPush :
    isHeadPush (sampleSession [.num 1, .num 2] (.num 90))
      (.obj [("jsonrpc", .str "2.0"), ("method", .str "eth_subscription"),
        ("params", .obj [("subscription", .str "0xB"),
          ("result", .obj [("number", .str "0x64"), ("timestamp", .str "0x5f00")])])])
      = true := by decide

/-! ## Auxiliary facts about the dispatcher -/

theorem sends_append (a b : List Effect) : sends (a ++ b) = sends a ++ sends b := by
  simp [sends, List.filterMap_append]

theorem upserts_append (a b : List Effect) : upserts (a ++ b) = upserts a ++ upserts b := by
  simp [upserts, List.filterMap_append]

theorem handlerCalls_append (a b : List Effect) :
    handlerCalls (a ++ b) = handlerCalls a ++ handlerCalls b := by
  simp [handlerCalls, List.filterMap_append]

theorem restarts_append (a b : List Effect) :
    restarts (a ++ b) = restarts a ++ restarts b := by
  simp [restarts, List.filterMap_append]

theorem sends_repeatNotice (st : Session) (raw : RawFrame) :
    sends (repeatNotice st raw) = [] := by
  unfold repeatNotice; split <;> simp [sends]

theorem upserts_repeatNotice (st : Session) (raw : RawFrame) :
    upserts (repeatNotice st raw) = [] := by
  unfold repeatNotice; split <;> simp [upserts]

theorem handlerCalls_repeatNotice (st : Session) (raw : RawFrame) :
    handlerCalls (repeatNotice st raw) = [] := by
  unfold repeatNotice; split <;> simp [handlerCalls]

theorem restarts_repeatNotice (st : Session) (raw : RawFrame) :
    restarts (repeatNotice st raw) = [] := by
  unfold repeatNotice; split <;> simp [restarts]

theorem isHeadPush_markHandled (st : Session) (raw : RawFrame) (data : JVal) :
    isHeadPush (markHandled st raw) data = isHeadPush st data := rfl

/-- A frame that satisfies the path condition is handled by the new-heads
branch. -/
theorem dispatch_headPush (handleLog : HandleLogArgs → CallResult) (st : Session)
    (data : JVal) (hh : isHeadPush st data = true) :
    dispatch handleLog st data = onNewHead st data := by
  unfold isHeadPush at hh
  simp only [Bool.and_eq_true, Bool.not_eq_true', Bool.not_eq_eq_eq_not, Bool.not_true] at hh
  obtain ⟨⟨⟨⟨⟨h0, h1⟩, h2⟩, h3⟩, h4⟩, h5⟩ := hh
  simp [dispatch, JVal.prop, h0, h1, h2, h3, h4, h5]

/-- With the watch set unchanged, a new-head push runs the new-heads branch
after the duplicate notice. -/
theorem incoming_headPush (handleLog : HandleLogArgs → CallResult) (st : Session)
    (raw : RawFrame) (latest : List JVal) (data : JVal)
    (hl : latest = st.listingIds) (hp : raw.parsed = some data)
    (hh : isHeadPush st data = true) :
    incoming handleLog st raw latest =
      ⟨(onNewHead (markHandled st raw) data).session,
        repeatNotice st raw ++ (onNewHead (markHandled st raw) data).trace,
        (onNewHead (markHandled st raw) data).raised⟩ := by
  have hd := dispatch_headPush handleLog (markHandled st raw) data
    (by rw [isHeadPush_markHandled]; exact hh)
  simp [incoming, hl, hp, hd]

theorem field_of_nullish (v : JVal) (key : String) (h : v.nullish = true) :
    v.field key = .undefined := by
  cases v <;> simp_all [JVal.nullish, JVal.field]

theorem hexToNumber_undefined : hexToNumber .undefined = .ok .undefined := by
  simp [hexToNumber, JVal.falsy]

/-- A header whose `number` decodes to an integer is neither `undefined` nor
`null`, and neither is the `params` that carries it. -/
theorem pushResult_not_nullish (data : JVal) (n : Int)
    (hn : hexToNumber ((pushResult data).field "number") = .ok (.num n)) :
    (data.field "params").nullish = false ∧ (pushResult data).nullish = false := by
  have h2 : (pushResult data).nullish = false := by
    by_contra hc
    rw [Bool.not_eq_false] at hc
    rw [field_of_nullish _ _ hc, hexToNumber_undefined] at hn
    cases hn
  refine ⟨?_, h2⟩
  by_contra hc
  rw [Bool.not_eq_false] at hc
  have : pushResult data = .undefined := field_of_nullish _ _ hc
  rw [this] at h2
  simp [JVal.nullish] at h2

theorem handleNewHead_decoded (head networkId number ts : JVal)
    (h0 : head.nullish = false)
    (hn : hexToNumber (head.field "number") = .ok number)
    (ht : hexToNumber (head.field "timestamp") = .ok ts) :
    handleNewHead head networkId =
      .ok (number, [.upsert networkId number, .log (.newBlock number ts)]) := by
  simp [handleNewHead, JVal.prop, h0, hn, ht]

/-- The new-heads branch on a header whose number and timestamp decode. -/
theorem onNewHead_decoded (st : Session) (data : JVal) (n : Int) (ts : JVal)
    (hn : hexToNumber ((pushResult data).field "number") = .ok (.num n))
    (ht : hexToNumber ((pushResult data).field "timestamp") = .ok ts) :
    onNewHead st data =
      if jsGt (jsSub (.num n) st.lastBlock) 500 then
        ⟨{ st with lastBlock := .num n },
          [.upsert st.network.networkId (.num n), .log (.newBlock (.num n) ts),
            .log .tooManyNewBlocks], none⟩
      else if jsGt (jsSub (.num n) st.lastBlock) 1 then
        match GetPastLogs .undefined st.lastBlock (.num n) st.listingIds with
        | .error e =>
          ⟨st, [.upsert st.network.networkId (.num n), .log (.newBlock (.num n) ts),
            .log (.fetchingPastLogs ((jsSub (.num n) st.lastBlock).getD 0))], some e⟩
        | .ok rpc =>
          ⟨{ st with lastBlock := .num n },
            [.upsert st.network.networkId (.num n), .log (.newBlock (.num n) ts),
              .log (.fetchingPastLogs ((jsSub (.num n) st.lastBlock).getD 0)), .send rpc],
            none⟩
      else
        ⟨{ st with lastBlock := .num n },
          [.upsert st.network.networkId (.num n), .log (.newBlock (.num n) ts)], none⟩ := by
  obtain ⟨h1, h2⟩ := pushResult_not_nullish data n hn
  have hh := handleNewHead_decoded (pushResult data) st.network.networkId (.num n) ts h2 hn ht
  unfold pushResult at hh
  unfold onNewHead
  simp only [JVal.prop, h1, Bool.false_eq_true, if_false, hh]
  split
  · rfl
  · split
    · split <;> simp
    · rfl

theorem numberToHex_num (n : Int) (h : n.natAbs < 10 ^ 21) :
    numberToHex (.num n) = .ok (.str (hexOfInt n)) := by
  simp only [numberToHex, h, if_true]

/-- A block number returned by `hexToNumber` fits in 53 bits. -/
theorem hexToNumber_num_bound (v : JVal) (n : Int) (h : hexToNumber v = .ok (.num n)) :
    n.natAbs < 2 ^ 53 := by
  unfold hexToNumber at h
  split at h
  · rename_i hf
    cases h
    simp only [JVal.falsy, beq_iff_eq] at hf
    subst hf
    decide
  · split at h
    · split at h
      · cases h; assumption
      · cases h
    · split at h
      · split at h
        · cases h; assumption
        · cases h
      · cases h
    · cases h

theorem GetPastLogs_numbers (address : JVal) (L n : Int) (listingIds topics : List JVal)
    (hw : listingTopics listingIds = .ok topics)
    (hL : L.natAbs < 10 ^ 21) (hn : n.natAbs < 10 ^ 21) :
    GetPastLogs address (.num L) (.num n) listingIds =
      .ok (.obj [("jsonrpc", .str "2.0"), ("id", .num 3), ("method", .str "eth_getLogs"),
        ("params", .arr [.obj [("address", address),
          ("topics", .arr [.null, .null, .arr topics]),
          ("fromBlock", .str (hexOfInt L)), ("toBlock", .str (hexOfInt n))]])]) := by
  simp only [GetPastLogs, hw, numberToHex_num L hL, numberToHex_num n hn]

theorem jsSub_num (n L : Int) : jsSub (.num n) (.num L) = some (n - L) := rfl

theorem jsSub_undefined (n : Int) : jsSub (.num n) .undefined = none := rfl

theorem onNewHead_gap (st : Session) (data : JVal) (L n : Int) (ts : JVal)
    (topics : List JVal)
    (hL : st.lastBlock = .num L)
    (hw : listingTopics st.listingIds = .ok topics)
    (hn : hexToNumber ((pushResult data).field "number") = .ok (.num n))
    (ht : hexToNumber ((pushResult data).field "timestamp") = .ok ts)
    (hd1 : 1 < n - L) (hd2 : n - L ≤ 500) :
    onNewHead st data =
      ⟨{ st with lastBlock := .num n },
        [.upsert st.network.networkId (.num n), .log (.newBlock (.num n) ts),
          .log (.fetchingPastLogs (n - L)), .send (getLogsRpc .undefined topics L n)],
        none⟩ := by
  have h500 : jsGt (jsSub (.num n) st.lastBlock) 500 = false := by
    simp [hL, jsSub_num, jsGt]; omega
  have h1 : jsGt (jsSub (.num n) st.lastBlock) 1 = true := by
    simp [hL, jsSub_num, jsGt]; omega
  have hb := hexToNumber_num_bound _ n hn
  have hnb : n.natAbs < 10 ^ 21 := by omega
  have hLb : L.natAbs < 10 ^ 21 := by omega
  rw [onNewHead_decoded st data n ts hn ht, h500, h1, hL,
    GetPastLogs_numbers .undefined L n st.listingIds topics hw hLb hnb]
  simp [jsSub_num, getLogsRpc]

theorem onNewHead_far (st : Session) (data : JVal) (L n : Int) (ts : JVal)
    (hL : st.lastBlock = .num L)
    (hn : hexToNumber ((pushResult data).field "number") = .ok (.num n))
    (ht : hexToNumber ((pushResult data).field "timestamp") = .ok ts)
    (hd : 500 < n - L) :
    onNewHead st data =
      ⟨{ st with lastBlock := .num n },
        [.upsert st.network.networkId (.num n), .log (.newBlock (.num n) ts),
          .log .tooManyNewBlocks], none⟩ := by
  have h500 : jsGt (jsSub (.num n) st.lastBlock) 500 = true := by
    simp [hL, jsSub_num, jsGt]; omega
  rw [onNewHead_decoded st data n ts hn ht, h500]
  simp

theorem onNewHead_near (st : Session) (data : JVal) (n : Int) (ts : JVal)
    (hL : st.lastBlock = .undefined ∨ ∃ L, st.lastBlock = .num L ∧ n - L ≤ 1)
    (hn : hexToNumber ((pushResult data).field "number") = .ok (.num n))
    (ht : hexToNumber ((pushResult data).field "timestamp") = .ok ts) :
    onNewHead st data =
      ⟨{ st with lastBlock := .num n },
        [.upsert st.network.networkId (.num n), .log (.newBlock (.num n) ts)], none⟩ := by
  have h500 : jsGt (jsSub (.num n) st.lastBlock) 500 = false := by
    rcases hL with hL | ⟨L, hL, hd⟩
    · simp [hL, jsSub_undefined, jsGt]
    · simp [hL, jsSub_num, jsGt]; omega
  have h1 : jsGt (jsSub (.num n) st.lastBlock) 1 = false := by
    rcases hL with hL | ⟨L, hL, hd⟩
    · simp [hL, jsSub_undefined, jsGt]
    · simp [hL, jsSub_num, jsGt]; omega
  rw [onNewHead_decoded st data n ts hn ht, h500, h1]
  simp

theorem getLogsRequests_single (address : JVal) (topics : List JVal) (L n : Int) :
    getLogsRequests [Effect.send (getLogsRpc address topics L n)] =
      [getLogsRpc address topics L n] := by
  simp [getLogsRequests, sends, getLogsRpc, JVal.field, List.lookup]

/-! ## New-head frames and the backfill policy -/

/-- C1: with recorded block `L`, a push on the heads subscription whose block
number `n` satisfies `1 < n - L ≤ 500` (watch set unchanged) sends exactly one
request, the `eth_getLogs` request with `fromBlock` the hex of `L`, `toBlock`
the hex of `n` and the topics of the session's watch set; the recorded block
becomes `n`. -/
theorem newHead_gap_sends_one_getLogs (handleLog : HandleLogArgs → CallResult)
    (st : Session) (raw : RawFrame) (latest : List JVal) (data : JVal) (L n : Int)
    (ts : JVal) (topics : List JVal)
    (hL : st.lastBlock = .num L)
    (hw : listingTopics st.listingIds = .ok topics)
    (hl : latest = st.listingIds)
    (hp : raw.parsed = some data)
    (hh : isHeadPush st data = true)
    (hn : hexToNumber ((pushResult data).field "number") = .ok (.num n))
    (ht : hexToNumber ((pushResult data).field "timestamp") = .ok ts)
    (hd1 : 1 < n - L) (hd2 : n - L ≤ 500) :
    sends (incoming handleLog st raw latest).trace = [getLogsRpc .undefined topics L n]
      ∧ getLogsRequests (incoming handleLog st raw latest).trace
          = [getLogsRpc .undefined topics L n]
      ∧ (getLogsRpc .undefined topics L n).field "method" = .str "eth_getLogs"
      ∧ (incoming handleLog st raw latest).session.lastBlock = .num n := by
  rw [incoming_headPush handleLog st raw latest data hl hp hh,
    onNewHead_gap (markHandled st raw) data L n ts topics hL hw hn ht hd1 hd2]
  refine ⟨?_, ?_, ?_, rfl⟩
  · simp only [sends_append, sends_repeatNotice, List.nil_append]
    simp [sends]
  · simp only [getLogsRequests, sends_append, sends_repeatNotice, List.nil_append]
    exact getLogsRequests_single .undefined topics L n
  · simp [getLogsRpc, JVal.field, List.lookup]

/-- Witness for C1: the scenario of the specification, `L = 90` and a head
with number `0x64`, gives one request with `fromBlock` `0x5a` and `toBlock`
`0x64`. -/
theorem newHead_gap_sends_one_getLogs_witness :
    sends (incoming quietHandler (sampleSession [.num 1, .num 2] (.num 90))
        (pushFrame "f1" "0xB" "0x64" "0x5f00") [.num 1, .num 2]).trace
      = [getLogsRpc .undefined
          [.str "0x0000000000000000000000000000000000000000000000000000000000000001",
           .str "0x0000000000000000000000000000000000000000000000000000000000000002"]
          90 100]
    ∧ hexOfInt 90 = "0x5a" ∧ hexOfInt 100 = "0x64" :=
  ⟨(newHead_gap_sends_one_getLogs quietHandler (sampleSession [.num 1, .num 2] (.num 90))
      (pushFrame "f1" "0xB" "0x64" "0x5f00") [.num 1, .num 2] _ 90 100 (.num 24320)
      [.str "0x0000000000000000000000000000000000000000000000000000000000000001",
       .str "0x0000000000000000000000000000000000000000000000000000000000000002"]
      rfl (by decide) rfl rfl (by decide) (by decide) (by decide) (by decide) (by decide)).1,
    by decide, by decide⟩

/-- C2: with recorded block `L`, a push on the heads subscription whose block
number `n` has `n - L > 500` sends no request at all, in particular no
`eth_getLogs`, and the recorded block becomes `n`. -/
theorem newHead_far_skips_backfill (handleLog : HandleLogArgs → CallResult)
    (st : Session) (raw : RawFrame) (latest : List JVal) (data : JVal) (L n : Int)
    (ts : JVal)
    (hL : st.lastBlock = .num L)
    (hl : latest = st.listingIds)
    (hp : raw.parsed = some data)
    (hh : isHeadPush st data = true)
    (hn : hexToNumber ((pushResult data).field "number") = .ok (.num n))
    (ht : hexToNumber ((pushResult data).field "timestamp") = .ok ts)
    (hd : 500 < n - L) :
    sends (incoming handleLog st raw latest).trace = []
      ∧ getLogsRequests (incoming handleLog st raw latest).trace = []
      ∧ (incoming handleLog st raw latest).session.lastBlock = .num n := by
  rw [incoming_headPush handleLog st raw latest data hl hp hh,
    onNewHead_far (markHandled st raw) data L n ts hL hn ht hd]
  refine ⟨?_, ?_, rfl⟩
  · simp only [sends_append, sends_repeatNotice, List.nil_append]
    simp [sends]
  · simp only [getLogsRequests, sends_append, sends_repeatNotice, List.nil_append]
    simp [sends]

/-- Witness for C2: recorded block 90 and a head with number `0x400` (1024). -/
theorem newHead_far_skips_backfill_witness :
    sends (incoming quietHandler (sampleSession [.num 1, .num 2] (.num 90))
        (pushFrame "f2" "0xB" "0x400" "0x5f00") [.num 1, .num 2]).trace = []
      ∧ getLogsRequests (incoming quietHandler (sampleSession [.num 1, .num 2] (.num 90))
        (pushFrame "f2" "0xB" "0x400" "0x5f00") [.num 1, .num 2]).trace = []
      ∧ (incoming quietHandler (sampleSession [.num 1, .num 2] (.num 90))
        (pushFrame "f2" "0xB" "0x400" "0x5f00") [.num 1, .num 2]).session.lastBlock
          = .num 1024 :=
  newHead_far_skips_backfill quietHandler (sampleSession [.num 1, .num 2] (.num 90))
    (pushFrame "f2" "0xB" "0x400" "0x5f00") [.num 1, .num 2] _ 90 1024 (.num 24320)
    rfl rfl rfl (by decide) (by decide) (by decide) (by decide)

/-- C5: a push on the heads subscription with block number `n` (the value of
its hex `number` field), whatever the distance to the recorded block, makes
exactly one progress upsert, keyed by the session's `networkId` with
`lastBlock = n`, and sets the in-memory `lastBlock` to `n`.  The recorded
block is an integer or absent, and the watch set is one that encodes. -/
theorem newHead_upserts_once (handleLog : HandleLogArgs → CallResult)
    (st : Session) (raw : RawFrame) (latest : List JVal) (data : JVal) (n : Int)
    (ts : JVal) (topics : List JVal)
    (hL : st.lastBlock = .undefined ∨ ∃ L, st.lastBlock = .num L)
    (hw : listingTopics st.listingIds = .ok topics)
    (hl : latest = st.listingIds)
    (hp : raw.parsed = some data)
    (hh : isHeadPush st data = true)
    (hn : hexToNumber ((pushResult data).field "number") = .ok (.num n))
    (ht : hexToNumber ((pushResult data).field "timestamp") = .ok ts) :
    upserts (incoming handleLog st raw latest).trace = [(st.network.networkId, .num n)]
      ∧ (incoming handleLog st raw latest).session.lastBlock = .num n := by
  rw [incoming_headPush handleLog st raw latest data hl hp hh]
  simp only [upserts_append, upserts_repeatNotice, List.nil_append]
  have key : upserts (onNewHead (markHandled st raw) data).trace
        = [(st.network.networkId, .num n)]
      ∧ (onNewHead (markHandled st raw) data).session.lastBlock = .num n := by
    rcases hL with hU | ⟨L, hL⟩
    · rw [onNewHead_near (markHandled st raw) data n ts (Or.inl hU) hn ht]
      exact ⟨by simp [upserts, markHandled], rfl⟩
    · by_cases h1 : n - L ≤ 1
      · rw [onNewHead_near (markHandled st raw) data n ts (Or.inr ⟨L, hL, h1⟩) hn ht]
        exact ⟨by simp [upserts, markHandled], rfl⟩
      · by_cases h2 : n - L ≤ 500
        · rw [onNewHead_gap (markHandled st raw) data L n ts topics hL hw hn ht
            (by omega) h2]
          exact ⟨by simp [upserts, markHandled], rfl⟩
        · rw [onNewHead_far (markHandled st raw) data L n ts hL hn ht (by omega)]
          exact ⟨by simp [upserts, markHandled], rfl⟩
  exact key

/-- Witness for C5: recorded block 90 and a head with number `0x64`. -/
theorem newHead_upserts_once_witness :
    upserts (incoming quietHandler (sampleSession [.num 1, .num 2] (.num 90))
        (pushFrame "f1" "0xB" "0x64" "0x5f00") [.num 1, .num 2]).trace
        = [(.num 4, .num 100)]
      ∧ (incoming quietHandler (sampleSession [.num 1, .num 2] (.num 90))
        (pushFrame "f1" "0xB" "0x64" "0x5f00") [.num 1, .num 2]).session.lastBlock
          = .num 100 :=
  newHead_upserts_once quietHandler (sampleSession [.num 1, .num 2] (.num 90))
    (pushFrame "f1" "0xB" "0x64" "0x5f00") [.num 1, .num 2] _ 100 (.num 24320)
    [.str "0x0000000000000000000000000000000000000000000000000000000000000001",
     .str "0x0000000000000000000000000000000000000000000000000000000000000002"]
    (Or.inr ⟨90, rfl⟩) (by decide) rfl rfl (by decide) (by decide) (by decide)

/-- C6: with recorded block `L`, a push on the heads subscription whose block
number `n` has `n - L ≤ 1` (also `n = L` and `n < L`) sends no request, in
particular no `eth_getLogs`. -/
theorem newHead_near_sends_nothing (handleLog : HandleLogArgs → CallResult)
    (st : Session) (raw : RawFrame) (latest : List JVal) (data : JVal) (L n : Int)
    (ts : JVal)
    (hL : st.lastBlock = .num L)
    (hl : latest = st.listingIds)
    (hp : raw.parsed = some data)
    (hh : isHeadPush st data = true)
    (hn : hexToNumber ((pushResult data).field "number") = .ok (.num n))
    (ht : hexToNumber ((pushResult data).field "timestamp") = .ok ts)
    (hd : n - L ≤ 1) :
    sends (incoming handleLog st raw latest).trace = []
      ∧ getLogsRequests (incoming handleLog st raw latest).trace = [] := by
  rw [incoming_headPush handleLog st raw latest data hl hp hh,
    onNewHead_near (markHandled st raw) data n ts (Or.inr ⟨L, hL, hd⟩) hn ht]
  refine ⟨?_, ?_⟩
  · simp only [sends_append, sends_repeatNotice, List.nil_append]
    simp [sends]
  · simp only [getLogsRequests, sends_append, sends_repeatNotice, List.nil_append]
    simp [sends]

/-- Witness for C6: recorded block 100 and a head with number `0x65` (101). -/
theorem newHead_near_sends_nothing_witness :
    sends (incoming quietHandler (sampleSession [.num 1, .num 2] (.num 100))
        (pushFrame "f3" "0xB" "0x65" "0x5f00") [.num 1, .num 2]).trace = []
      ∧ getLogsRequests (incoming quietHandler (sampleSession [.num 1, .num 2] (.num 100))
        (pushFrame "f3" "0xB" "0x65" "0x5f00") [.num 1, .num 2]).trace = [] :=
  newHead_near_sends_nothing quietHandler (sampleSession [.num 1, .num 2] (.num 100))
    (pushFrame "f3" "0xB" "0x65" "0x5f00") [.num 1, .num 2] _ 100 101 (.num 24320)
    rfl rfl rfl (by decide) (by decide) (by decide) (by decide)

theorem forwardLogs_upserts (handleLog : HandleLogArgs → CallResult) (st : Session)
    (results : List JVal) : upserts (forwardLogs handleLog st results).1 = [] := by
  induction results with
  | nil => rfl
  | cons r rest ih =>
    unfold forwardLogs
    split
    · rfl
    · simpa [upserts] using ih

theorem forwardLogs_sends (handleLog : HandleLogArgs → CallResult) (st : Session)
    (results : List JVal) : sends (forwardLogs handleLog st results).1 = [] := by
  induction results with
  | nil => rfl
  | cons r rest ih =>
    unfold forwardLogs
    split
    · rfl
    · simpa [sends] using ih

theorem forwardLogs_restarts (handleLog : HandleLogArgs → CallResult) (st : Session)
    (results : List JVal) : restarts (forwardLogs handleLog st results).1 = [] := by
  induction results with
  | nil => rfl
  | cons r rest ih =>
    unfold forwardLogs
    split
    · rfl
    · simpa [restarts] using ih

/-- The classification of a frame that is not `null`, with the `id` read. -/
theorem dispatch_eq (handleLog : HandleLogArgs → CallResult) (st : Session)
    (data : JVal) (h0 : data.nullish = false) :
    dispatch handleLog st data =
      if strictEq (data.field "id") (.num 1) then
        ⟨{ st with logs := data.field "result" }, [], none⟩
      else if strictEq (data.field "id") (.num 2) then
        ⟨{ st with heads := data.field "result" }, [], none⟩
      else if strictEq (data.field "id") (.num 3) then
        match (data.field "result").prop "length" with
        | .error e => ⟨st, [], some e⟩
        | .ok length =>
          match data.field "result" with
          | .arr results =>
            ⟨st, .log (.gotUnhandledLogs length) :: (forwardLogs handleLog st results).1,
              (forwardLogs handleLog st results).2⟩
          | _ => ⟨st, [.log (.gotUnhandledLogs length)], some .typeError⟩
      else if strictEq (get data "params" "subscription") st.logs then
        match (data.field "params").prop "result" with
        | .error e => ⟨st, [], some e⟩
        | .ok result =>
          match handleLog (handleLogArgs st result) with
          | .threw e => ⟨st, [.handleLog (handleLogArgs st result)], some e⟩
          | _ => ⟨st, [.handleLog (handleLogArgs st result)], none⟩
      else if strictEq (get data "params" "subscription") st.heads then
        onNewHead st data
      else
        ⟨st, [.log .unknownMessage], none⟩ := by
  simp only [dispatch, JVal.prop, h0, Bool.false_eq_true, if_false]

/-- A frame that is not a new-head push leaves `lastBlock` alone and makes no
progress upsert. -/
theorem dispatch_not_headPush (handleLog : HandleLogArgs → CallResult) (st : Session)
    (data : JVal) (hh : isHeadPush st data = false) :
    (dispatch handleLog st data).session.lastBlock = st.lastBlock
      ∧ upserts (dispatch handleLog st data).trace = [] := by
  cases h0 : data.nullish
  swap
  · simp [dispatch, JVal.prop, h0, upserts]
  rw [dispatch_eq handleLog st data h0]
  cases h1 : strictEq (data.field "id") (.num 1)
  swap
  · simp [upserts]
  cases h2 : strictEq (data.field "id") (.num 2)
  swap
  · simp [upserts]
  cases h3 : strictEq (data.field "id") (.num 3)
  swap
  · simp only [Bool.false_eq_true, if_false, if_true]
    split
    · simp [upserts]
    · split
      · refine ⟨rfl, ?_⟩
        simp only [upserts, List.filterMap_cons]
        exact forwardLogs_upserts handleLog st _
      · simp [upserts]
  cases h4 : strictEq (get data "params" "subscription") st.logs
  swap
  · simp only [Bool.false_eq_true, if_false, if_true]
    split
    · simp [upserts]
    · split <;> simp [upserts]
  cases h5 : strictEq (get data "params" "subscription") st.heads
  · simp [upserts]
  · exfalso
    simp [isHeadPush, h0, h1, h2, h3, h4, h5] at hh

/-- What the new-heads branch can do to the recorded block: nothing (the run
failed before the upsert), or one upsert of the decoded block value, which
also becomes the recorded block unless building the backfill request failed. -/
theorem onNewHead_lastBlock (st : Session) (data : JVal) :
    ((onNewHead st data).session.lastBlock = st.lastBlock
        ∧ upserts (onNewHead st data).trace = [])
      ∨ ∃ number, hexToNumber ((pushResult data).field "number") = .ok number
          ∧ upserts (onNewHead st data).trace = [(st.network.networkId, number)]
          ∧ ((onNewHead st data).session.lastBlock = number
              ∨ (onNewHead st data).session.lastBlock = st.lastBlock) := by
  unfold onNewHead JVal.prop pushResult
  cases h1 : (data.field "params").nullish
  swap
  · left; simp [upserts]
  simp only [Bool.false_eq_true, if_false]
  unfold handleNewHead JVal.prop
  cases h2 : ((data.field "params").field "result").nullish
  swap
  · left; simp [upserts]
  simp only [Bool.false_eq_true, if_false]
  cases hn : hexToNumber (((data.field "params").field "result").field "number") with
  | error e => left; simp [upserts]
  | ok number =>
    cases ht : hexToNumber (((data.field "params").field "result").field "timestamp") with
    | error e => left; simp [upserts]
    | ok ts =>
      right
      refine ⟨number, rfl, ?_⟩
      simp only
      split
      · exact ⟨by simp [upserts], Or.inl rfl⟩
      · split
        · split
          · exact ⟨by simp [upserts], Or.inr rfl⟩
          · exact ⟨by simp [upserts], Or.inl rfl⟩
        · exact ⟨by simp [upserts], Or.inl rfl⟩

/-! ## Monotonicity of the recorded block -/

/-- C3, as stated, fails: with recorded block 100, a new-head push carrying
block number `0x32` (50) rewinds the in-memory `lastBlock` to 50 and upserts
50 to the progress store, both below 100. -/
theorem lastBlock_rewound_by_older_head :
    (sampleSession [.num 1, .num 2] (.num 100)).lastBlock = .num 100
      ∧ (incoming quietHandler (sampleSession [.num 1, .num 2] (.num 100))
        (pushFrame "f4" "0xB" "0x32" "0x5f00") [.num 1, .num 2]).session.lastBlock
        = .num 50
      ∧ upserts (incoming quietHandler (sampleSession [.num 1, .num 2] (.num 100))
        (pushFrame "f4" "0xB" "0x32" "0x5f00") [.num 1, .num 2]).trace
        = [(.num 4, .num 50)]
      ∧ ¬ ∃ m, (incoming quietHandler (sampleSession [.num 1, .num 2] (.num 100))
        (pushFrame "f4" "0xB" "0x32" "0x5f00") [.num 1, .num 2]).session.lastBlock
          = .num m ∧ (100 : Int) ≤ m := by
  refine ⟨rfl, by decide, by decide, ?_⟩
  rintro ⟨m, hm, hle⟩
  have h50 : (incoming quietHandler (sampleSession [.num 1, .num 2] (.num 100))
      (pushFrame "f4" "0xB" "0x32" "0x5f00") [.num 1, .num 2]).session.lastBlock
      = .num 50 := by decide
  rw [h50] at hm
  cases hm
  omega

/-- C3, amended: with recorded block `L`, handling a frame leaves the
in-memory `lastBlock` and every value upserted to the progress store at an
integer `≥ L`, provided that the frame, if it is a new-head push, carries a
block number that is an integer `≥ L`.  (A frame that is not a new-head push
never changes `lastBlock`; a new-head push overwrites it unconditionally.) -/
theorem lastBlock_ge_of_head_ge (handleLog : HandleLogArgs → CallResult)
    (st : Session) (raw : RawFrame) (latest : List JVal) (L : Int)
    (hL : st.lastBlock = .num L)
    (hge : ∀ data number, raw.parsed = some data → isHeadPush st data = true →
      hexToNumber ((pushResult data).field "number") = .ok number →
      ∃ n, number = .num n ∧ L ≤ n) :
    (∃ m, (incoming handleLog st raw latest).session.lastBlock = .num m ∧ L ≤ m)
      ∧ ∀ u ∈ upserts (incoming handleLog st raw latest).trace,
          ∃ m, u.2 = .num m ∧ L ≤ m := by
  unfold incoming
  split
  · refine ⟨⟨L, hL, le_refl L⟩, ?_⟩
    simp only [upserts_append, upserts_repeatNotice, List.nil_append]
    simp [upserts]
  · split
    · refine ⟨⟨L, hL, le_refl L⟩, ?_⟩
      simp [upserts_repeatNotice]
    · rename_i data hp
      simp only [upserts_append, upserts_repeatNotice, List.nil_append]
      cases hh : isHeadPush st data
      · obtain ⟨h1, h2⟩ := dispatch_not_headPush handleLog (markHandled st raw) data
          (by rw [isHeadPush_markHandled]; exact hh)
        rw [h1, h2]
        exact ⟨⟨L, hL, le_refl L⟩, by simp⟩
      · rw [dispatch_headPush handleLog (markHandled st raw) data
          (by rw [isHeadPush_markHandled]; exact hh)]
        rcases onNewHead_lastBlock (markHandled st raw) data with ⟨h1, h2⟩ | ⟨number, hn, h2, h3⟩
        · rw [h1, h2]
          exact ⟨⟨L, hL, le_refl L⟩, by simp⟩
        · obtain ⟨n, hnum, hle⟩ := hge data number hp hh hn
          rw [h2]
          refine ⟨?_, ?_⟩
          · rcases h3 with h3 | h3
            · exact ⟨n, by rw [h3, hnum], hle⟩
            · exact ⟨L, by rw [h3]; exact hL, le_refl L⟩
          · intro u hu
            simp only [List.mem_singleton] at hu
            exact ⟨n, by rw [hu]; exact hnum, hle⟩

/-- Witness for the amended C3: recorded block 90 and a head with number
`0x64`; afterwards the recorded block is `100 ≥ 90`. -/
theorem lastBlock_ge_of_head_ge_witness :
    (∃ m, (incoming quietHandler (sampleSession [.num 1, .num 2] (.num 90))
        (pushFrame "f1" "0xB" "0x64" "0x5f00") [.num 1, .num 2]).session.lastBlock
          = .num m ∧ (90 : Int) ≤ m)
      ∧ ∀ u ∈ upserts (incoming quietHandler (sampleSession [.num 1, .num 2] (.num 90))
          (pushFrame "f1" "0xB" "0x64" "0x5f00") [.num 1, .num 2]).trace,
          ∃ m, u.2 = .num m ∧ (90 : Int) ≤ m :=
  lastBlock_ge_of_head_ge quietHandler (sampleSession [.num 1, .num 2] (.num 90))
    (pushFrame "f1" "0xB" "0x64" "0x5f00") [.num 1, .num 2] 90 rfl
    (by
      intro data number hp _ hn
      have hd : data = .obj [("jsonrpc", .str "2.0"), ("method", .str "eth_subscription"),
          ("params", .obj [("subscription", .str "0xB"),
            ("result", .obj [("number", .str "0x64"), ("timestamp", .str "0x5f00")])])] := by
        simpa [pushFrame] using hp.symm
      subst hd
      have h100 : hexToNumber ((pushResult (.obj [("jsonrpc", .str "2.0"),
          ("method", .str "eth_subscription"),
          ("params", .obj [("subscription", .str "0xB"),
            ("result", .obj [("number", .str "0x64"), ("timestamp", .str "0x5f00")])])])).field
          "number") = .ok (.num 100) := by decide
      rw [h100] at hn
      cases hn
      exact ⟨100, rfl, by decide⟩)

/-- The session after a new-head push that decodes to block `n`: only
`lastBlock` changes (besides the key added to `handled`), and one upsert of
`n` is made. -/
theorem onNewHead_session (st : Session) (data : JVal) (n : Int) (ts : JVal)
    (topics : List JVal)
    (hL : st.lastBlock = .undefined ∨ ∃ L, st.lastBlock = .num L)
    (hw : listingTopics st.listingIds = .ok topics)
    (hn : hexToNumber ((pushResult data).field "number") = .ok (.num n))
    (ht : hexToNumber ((pushResult data).field "timestamp") = .ok ts) :
    (onNewHead st data).session = { st with lastBlock := .num n }
      ∧ upserts (onNewHead st data).trace = [(st.network.networkId, .num n)] := by
  rcases hL with hU | ⟨L, hL⟩
  · rw [onNewHead_near st data n ts (Or.inl hU) hn ht]
    exact ⟨rfl, by simp [upserts]⟩
  · by_cases h1 : n - L ≤ 1
    · rw [onNewHead_near st data n ts (Or.inr ⟨L, hL, h1⟩) hn ht]
      exact ⟨rfl, by simp [upserts]⟩
    · by_cases h2 : n - L ≤ 500
      · rw [onNewHead_gap st data L n ts topics hL hw hn ht (by omega) h2]
        exact ⟨rfl, by simp [upserts]⟩
      · rw [onNewHead_far st data L n ts hL hn ht (by omega)]
        exact ⟨rfl, by simp [upserts]⟩

theorem isHeadPush_congr (st st2 : Session) (data : JVal)
    (hlogs : st2.logs = st.logs) (hheads : st2.heads = st.heads) :
    isHeadPush st2 data = isHeadPush st data := by
  unfold isHeadPush
  rw [hlogs, hheads]

theorem IsHeadFrame_congr (st st2 : Session) (f : RawFrame × List JVal) (n : Int)
    (hids : st2.listingIds = st.listingIds)
    (hlogs : st2.logs = st.logs) (hheads : st2.heads = st.heads)
    (h : IsHeadFrame st f n) : IsHeadFrame st2 f n := by
  obtain ⟨h1, data, ts, hp, hh, hn, ht⟩ := h
  exact ⟨by rw [hids]; exact h1, data, ts, hp,
    by rw [isHeadPush_congr st st2 data hlogs hheads]; exact hh, hn, ht⟩

/-- One new-head frame sets the recorded block to its number and keeps the
watch set and both subscription ids. -/
theorem incoming_headFrame (handleLog : HandleLogArgs → CallResult) (st : Session)
    (f : RawFrame × List JVal) (n : Int) (topics : List JVal)
    (hL : st.lastBlock = .undefined ∨ ∃ L, st.lastBlock = .num L)
    (hw : listingTopics st.listingIds = .ok topics)
    (h : IsHeadFrame st f n) :
    (incoming handleLog st f.1 f.2).session
      = { markHandled st f.1 with lastBlock := .num n } := by
  obtain ⟨h1, data, ts, hp, hh, hn, ht⟩ := h
  rw [incoming_headPush handleLog st f.1 f.2 data h1 hp hh]
  exact (onNewHead_session (markHandled st f.1) data n ts topics hL hw hn ht).1

theorem incomingAll_heads (handleLog : HandleLogArgs → CallResult)
    (frames : List (RawFrame × List JVal)) :
    ∀ (ns : List Int) (st : Session) (topics : List JVal) (m : Int),
      (st.lastBlock = .undefined ∨ ∃ L, st.lastBlock = .num L) →
      listingTopics st.listingIds = .ok topics →
      List.Forall₂ (IsHeadFrame st) frames ns →
      ns.getLast? = some m →
      (incomingAll handleLog st frames).lastBlock = .num m := by
  induction frames with
  | nil =>
    intro ns st topics m _ _ hf hm
    cases hf
    simp at hm
  | cons f fs ih =>
    intro ns st topics m hL hw hf hm
    cases hf with
    | cons hfn hrest =>
      rename_i n ns2
      have hs := incoming_headFrame handleLog st f n topics hL hw hfn
      unfold incomingAll
      cases hrest with
      | nil =>
        simp at hm
        subst hm
        simp [incomingAll, hs]
      | cons hfn2 hrest2 =>
        rename_i f2 n2 fs2 ns3
        apply ih (n2 :: ns3) _ topics m
        · right; exact ⟨n, by rw [hs]⟩
        · rw [hs]; exact hw
        · refine List.Forall₂.imp ?_ (List.Forall₂.cons hfn2 hrest2)
          intro g k hg
          exact IsHeadFrame_congr st _ g k (by rw [hs]; rfl) (by rw [hs]; rfl)
            (by rw [hs]; rfl) hg
        · simpa [List.getLast?_cons_cons] using hm

theorem le_getLast_of_chain (ns : List Int) (m : Int) (hinc : List.Chain' (· < ·) ns)
    (hm : ns.getLast? = some m) : ∀ k ∈ ns, k ≤ m := by
  intro k hk
  have hp : List.Pairwise (· < ·) ns := List.chain'_iff_pairwise.mp hinc
  have hne : ns ≠ [] := by
    intro h; rw [h] at hm; simp at hm
  have hlast : ns.getLast hne = m := by
    rw [List.getLast?_eq_getLast ns hne] at hm
    exact Option.some.inj hm
  rw [← List.dropLast_append_getLast hne, hlast] at hp hk
  rw [List.pairwise_append] at hp
  rcases List.mem_append.mp hk with h1 | h1
  · exact le_of_lt (hp.2.2 k h1 m (List.mem_singleton.mpr rfl))
  · rw [List.mem_singleton.mp h1]

/-! ## Sequences of new heads -/

/-- C4: after a non-empty sequence of new-head frames with strictly
increasing block numbers `ns`, handled in order by one session with the watch
set unchanged, the recorded block is the maximum of `ns`. -/
theorem lastBlock_after_increasing_heads (handleLog : HandleLogArgs → CallResult)
    (st : Session) (frames : List (RawFrame × List JVal)) (ns : List Int)
    (topics : List JVal)
    (hL : st.lastBlock = .undefined ∨ ∃ L, st.lastBlock = .num L)
    (hw : listingTopics st.listingIds = .ok topics)
    (hf : List.Forall₂ (IsHeadFrame st) frames ns)
    (hne : ns ≠ [])
    (hinc : List.Chain' (· < ·) ns) :
    ∃ m, m ∈ ns ∧ (∀ k ∈ ns, k ≤ m)
      ∧ (incomingAll handleLog st frames).lastBlock = .num m := by
  refine ⟨ns.getLast hne, List.getLast_mem hne, ?_, ?_⟩
  · exact le_getLast_of_chain ns _ hinc (List.getLast?_eq_getLast ns hne)
  · exact incomingAll_heads handleLog frames ns st topics _ hL hw hf
      (List.getLast?_eq_getLast ns hne)

/-- Witness for C4: recorded block 90, then heads 100, 101 and 106; the
recorded block ends at 106. -/
theorem lastBlock_after_increasing_heads_witness :
    ∃ m, m ∈ [(100 : Int), 101, 106] ∧ (∀ k ∈ [(100 : Int), 101, 106], k ≤ m)
      ∧ (incomingAll quietHandler (sampleSession [.num 1, .num 2] (.num 90))
          [(pushFrame "f1" "0xB" "0x64" "0x5f00", [.num 1, .num 2]),
           (pushFrame "f3" "0xB" "0x65" "0x5f0f", [.num 1, .num 2]),
           (pushFrame "f5" "0xB" "0x6a" "0x5f4b", [.num 1, .num 2])]).lastBlock = .num m :=
  lastBlock_after_increasing_heads quietHandler (sampleSession [.num 1, .num 2] (.num 90))
    [(pushFrame "f1" "0xB" "0x64" "0x5f00", [.num 1, .num 2]),
     (pushFrame "f3" "0xB" "0x65" "0x5f0f", [.num 1, .num 2]),
     (pushFrame "f5" "0xB" "0x6a" "0x5f4b", [.num 1, .num 2])]
    [100, 101, 106]
    [.str "0x0000000000000000000000000000000000000000000000000000000000000001",
     .str "0x0000000000000000000000000000000000000000000000000000000000000002"]
    (Or.inr ⟨90, rfl⟩) (by decide)
    (List.Forall₂.cons ⟨rfl, _, .num 24320, rfl, by decide, by decide, by decide⟩
      (List.Forall₂.cons ⟨rfl, _, .num 24335, rfl, by decide, by decide, by decide⟩
        (List.Forall₂.cons ⟨rfl, _, .num 24395, rfl, by decide, by decide, by decide⟩
          List.Forall₂.nil)))
    (by decide) (by simp)

/-! ## Watch-set drift -/

theorem onNewHead_restarts (st : Session) (data : JVal) :
    restarts (onNewHead st data).trace = [] := by
  unfold onNewHead
  split
  · rfl
  · split
    · rfl
    · rename_i number t1 hh
      have ht1 : restarts t1 = [] := by
        unfold handleNewHead at hh
        split at hh
        · cases hh
        · split at hh
          · cases hh
          · split at hh
            · cases hh
            · cases hh; rfl
      simp only
      split
      · rw [restarts_append, ht1]; rfl
      · split
        · split <;> (rw [restarts_append, ht1]; rfl)
        · exact ht1

/-- The classification of a frame never asks for a restart. -/
theorem dispatch_restarts (handleLog : HandleLogArgs → CallResult) (st : Session)
    (data : JVal) : restarts (dispatch handleLog st data).trace = [] := by
  cases h0 : data.nullish
  swap
  · simp [dispatch, JVal.prop, h0, restarts]
  rw [dispatch_eq handleLog st data h0]
  split
  · rfl
  · split
    · rfl
    · split
      · split
        · rfl
        · split
          · simp only [restarts, List.filterMap_cons]
            exact forwardLogs_restarts handleLog st _
          · rfl
      · split
        · split
          · rfl
          · split <;> rfl
        · split
          · exact onNewHead_restarts st data
          · rfl

/-- C7: when the freshly resolved watch set differs from the session's,
handling a frame asks for exactly one restart, with the fresh watch set, and
does nothing else with the frame: no handler call, no request, no upsert, no
exception, and `logs`, `heads` and `lastBlock` keep their values.  The restart
itself, `connectWS` entered with the old socket in `ws`, closes that socket,
constructs exactly one new one, and yields a session on the fresh watch set. -/
theorem drift_restarts_once (handleLog : HandleLogArgs → CallResult) (st : Session)
    (raw : RawFrame) (latest : List JVal) (hd : latest ≠ st.listingIds) :
    restarts (incoming handleLog st raw latest).trace = [latest]
      ∧ handlerCalls (incoming handleLog st raw latest).trace = []
      ∧ sends (incoming handleLog st raw latest).trace = []
      ∧ upserts (incoming handleLog st raw latest).trace = []
      ∧ (incoming handleLog st raw latest).raised = none
      ∧ (incoming handleLog st raw latest).session.logs = st.logs
      ∧ (incoming handleLog st raw latest).session.heads = st.heads
      ∧ (incoming handleLog st raw latest).session.lastBlock = st.lastBlock
      ∧ ∀ (old socket : Nat) (res : Option JVal),
          (connectWS (some old) socket st.network latest res).1.listingIds = latest
          ∧ (connectWS (some old) socket st.network latest res).2.1 = some socket
          ∧ actions (connectWS (some old) socket st.network latest res).2.2
              = [.clearTimeout none, .wsClose old, .wsNew socket st.network.providerWs] := by
  have hi : incoming handleLog st raw latest =
      ⟨markHandled st raw,
        repeatNotice st raw ++ [.log .changeInListings, .connectWS latest], none⟩ := by
    simp [incoming, hd]
  rw [hi]
  refine ⟨?_, ?_, ?_, ?_, rfl, rfl, rfl, rfl, ?_⟩
  · simp only [restarts_append, restarts_repeatNotice, List.nil_append]
    simp [restarts]
  · simp only [handlerCalls_append, handlerCalls_repeatNotice, List.nil_append]
    simp [handlerCalls]
  · simp only [sends_append, sends_repeatNotice, List.nil_append]
    simp [sends]
  · simp only [upserts_append, upserts_repeatNotice, List.nil_append]
    simp [upserts]
  · intro old socket res
    refine ⟨rfl, rfl, ?_⟩
    cases res <;> simp [connectWS, actions, Effect.isLog]

/-- Witness for C7: a session on `{1, 2}` while the tracker returns
`{1, 2, 3}`. -/
theorem drift_restarts_once_witness :
    restarts (incoming quietHandler (sampleSession [.num 1, .num 2] (.num 90))
        (pushFrame "f1" "0xB" "0x64" "0x5f00") [.num 1, .num 2, .num 3]).trace
      = [[.num 1, .num 2, .num 3]]
    ∧ (connectWS (some 0) 1 sampleNetwork [.num 1, .num 2, .num 3] (some (.num 90))).1.listingIds
      = [.num 1, .num 2, .num 3]
    ∧ actions (connectWS (some 0) 1 sampleNetwork [.num 1, .num 2, .num 3]
        (some (.num 90))).2.2
      = [.clearTimeout none, .wsClose 0, .wsNew 1 (.str "wss://node.example/ws")] :=
  ⟨(drift_restarts_once quietHandler (sampleSession [.num 1, .num 2] (.num 90))
      (pushFrame "f1" "0xB" "0x64" "0x5f00") [.num 1, .num 2, .num 3] (by decide)).1,
    by decide, by decide⟩

/-- C8, as stated, fails: the tracker returning `[2, 1]` for a session on
`[1, 2]`, a permutation of the same identifiers, restarts the listener, and
the new-head frame is not processed (no upsert, recorded block kept). -/
theorem reordered_watch_set_restarts :
    List.Perm [JVal.num 2, JVal.num 1] [JVal.num 1, JVal.num 2]
      ∧ restarts (incoming quietHandler (sampleSession [.num 1, .num 2] (.num 90))
          (pushFrame "f1" "0xB" "0x64" "0x5f00") [.num 2, .num 1]).trace
        = [[.num 2, .num 1]]
      ∧ upserts (incoming quietHandler (sampleSession [.num 1, .num 2] (.num 90))
          (pushFrame "f1" "0xB" "0x64" "0x5f00") [.num 2, .num 1]).trace = []
      ∧ (incoming quietHandler (sampleSession [.num 1, .num 2] (.num 90))
          (pushFrame "f1" "0xB" "0x64" "0x5f00") [.num 2, .num 1]).session.lastBlock
        = .num 90 :=
  ⟨List.Perm.swap _ _ _, by decide, by decide, by decide⟩

/-- C8, amended: drift detection compares the watch sets as sequences.  When
the freshly resolved sequence equals the session's watch set, element by
element in the same order, handling a frame asks for no restart and the frame
is classified and processed normally; when it differs in any way, a
reordering of the same identifiers included, a restart is requested and the
frame is not classified. -/
theorem restart_iff_sequence_differs (handleLog : HandleLogArgs → CallResult)
    (st : Session) (raw : RawFrame) (latest : List JVal) :
    (latest = st.listingIds →
        restarts (incoming handleLog st raw latest).trace = []
        ∧ ∀ data, raw.parsed = some data →
            incoming handleLog st raw latest =
              ⟨(dispatch handleLog (markHandled st raw) data).session,
                repeatNotice st raw ++ (dispatch handleLog (markHandled st raw) data).trace,
                (dispatch handleLog (markHandled st raw) data).raised⟩)
      ∧ (latest ≠ st.listingIds →
        incoming handleLog st raw latest =
          ⟨markHandled st raw,
            repeatNotice st raw ++ [.log .changeInListings, .connectWS latest], none⟩) := by
  constructor
  · intro hl
    constructor
    · unfold incoming
      simp only [hl, ne_eq, not_true_eq_false, if_false]
      split
      · exact restarts_repeatNotice st raw
      · simp only [restarts_append, restarts_repeatNotice, List.nil_append]
        exact dispatch_restarts handleLog _ _
    · intro data hp
      simp [incoming, hl, hp]
  · intro hd
    simp [incoming, hd]

/-- Witness for the amended C8: the tracker returns `[1, 2]` again, and the
new-head frame is processed: no restart, recorded block 100. -/
theorem restart_iff_sequence_differs_witness :
    restarts (incoming quietHandler (sampleSession [.num 1, .num 2] (.num 90))
        (pushFrame "f1" "0xB" "0x64" "0x5f00") [.num 1, .num 2]).trace = []
      ∧ (incoming quietHandler (sampleSession [.num 1, .num 2] (.num 90))
        (pushFrame "f1" "0xB" "0x64" "0x5f00") [.num 1, .num 2]).session.lastBlock
          = .num 100 :=
  ⟨((restart_iff_sequence_differs quietHandler (sampleSession [.num 1, .num 2] (.num 90))
      (pushFrame "f1" "0xB" "0x64" "0x5f00") [.num 1, .num 2]).1 rfl).1, by decide⟩

/-! ## Handler failures in a batch of logs -/

theorem handlerCalls_map (st : Session) (logs : List JVal) :
    handlerCalls (logs.map fun l => Effect.handleLog (handleLogArgs st l))
      = logs.map (handleLogArgs st) := by
  induction logs with
  | nil => rfl
  | cons l rest ih => simpa [handlerCalls] using ih

/-- When no call throws, the loop calls the handler on every log, in order. -/
theorem forwardLogs_no_throw (handleLog : HandleLogArgs → CallResult) (st : Session)
    (logs : List JVal)
    (hq : ∀ l ∈ logs, ∀ e, handleLog (handleLogArgs st l) ≠ .threw e) :
    forwardLogs handleLog st logs
      = (logs.map (fun l => Effect.handleLog (handleLogArgs st l)), none) := by
  induction logs with
  | nil => rfl
  | cons l rest ih =>
    have ih2 := ih (fun x hx => hq x (List.mem_cons_of_mem _ hx))
    unfold forwardLogs
    split
    · rename_i e he
      exact absurd he (hq l (List.mem_cons_self _ _) e)
    · rw [ih2]; rfl

/-- When the first call that throws is the one on `l`, the loop has called
the handler on the logs up to `l` and on none after it. -/
theorem forwardLogs_throw (handleLog : HandleLogArgs → CallResult) (st : Session)
    (pre : List JVal) (l : JVal) (post : List JVal) (e : JsError)
    (hpre : ∀ x ∈ pre, ∀ e2, handleLog (handleLogArgs st x) ≠ .threw e2)
    (hl : handleLog (handleLogArgs st l) = .threw e) :
    forwardLogs handleLog st (pre ++ l :: post)
      = ((pre ++ [l]).map (fun x => Effect.handleLog (handleLogArgs st x)), some e) := by
  induction pre with
  | nil =>
    simp only [List.nil_append]
    unfold forwardLogs
    rw [hl]
    rfl
  | cons x rest ih =>
    have ih2 := ih (fun y hy => hpre y (List.mem_cons_of_mem _ hy))
    simp only [List.cons_append]
    unfold forwardLogs
    split
    · rename_i e2 he
      exact absurd he (hpre x (List.mem_cons_self _ _) e2)
    · rw [ih2]; rfl

theorem forwardLogs_markHandled (handleLog : HandleLogArgs → CallResult) (st : Session)
    (raw : RawFrame) (logs : List JVal) :
    forwardLogs handleLog (markHandled st raw) logs = forwardLogs handleLog st logs := by
  induction logs with
  | nil => rfl
  | cons l rest ih => unfold forwardLogs; rw [ih]; rfl

/-- With the watch set unchanged, a response with `id` 3 whose `result` is an
array runs the forwarding loop after the count line. -/
theorem incoming_logsResponse (handleLog : HandleLogArgs → CallResult) (st : Session)
    (raw : RawFrame) (latest : List JVal) (data : JVal) (logs : List JVal)
    (hl : latest = st.listingIds) (hp : raw.parsed = some data)
    (hid : data.field "id" = .num 3) (hres : data.field "result" = .arr logs) :
    incoming handleLog st raw latest =
      ⟨markHandled st raw,
        repeatNotice st raw ++ (Effect.log (.gotUnhandledLogs (.num logs.length))
          :: (forwardLogs handleLog st logs).1),
        (forwardLogs handleLog st logs).2⟩ := by
  have h0 : data.nullish = false := by
    cases hn : data.nullish
    · rfl
    · rw [field_of_nullish data "id" hn] at hid
      cases hid
  have hd : dispatch handleLog (markHandled st raw) data =
      ⟨markHandled st raw,
        Effect.log (.gotUnhandledLogs (.num logs.length))
          :: (forwardLogs handleLog (markHandled st raw) logs).1,
        (forwardLogs handleLog (markHandled st raw) logs).2⟩ := by
    rw [dispatch_eq handleLog (markHandled st raw) data h0, hid, hres]
    simp [strictEq, JVal.prop, JVal.nullish, JVal.field]
  rw [forwardLogs_markHandled] at hd
  simp [incoming, hl, hp, hd]

/-- C9, as stated, fails: a batch of five logs whose handler throws on the
second one.  The handler is called on the first two logs only, the other
three are not forwarded, and the run of `incoming` raises. -/
theorem handler_throw_aborts_batch :
    handlerCalls (incoming (throwingHandler "0x1")
        (sampleSession [.num 1, .num 2] (.num 90))
        (logsResponse "r1" [sampleLog "0x0", sampleLog "0x1", sampleLog "0x2",
          sampleLog "0x3", sampleLog "0x4"]) [.num 1, .num 2]).trace
      = [handleLogArgs (sampleSession [.num 1, .num 2] (.num 90)) (sampleLog "0x0"),
         handleLogArgs (sampleSession [.num 1, .num 2] (.num 90)) (sampleLog "0x1")]
    ∧ (incoming (throwingHandler "0x1") (sampleSession [.num 1, .num 2] (.num 90))
        (logsResponse "r1" [sampleLog "0x0", sampleLog "0x1", sampleLog "0x2",
          sampleLog "0x3", sampleLog "0x4"]) [.num 1, .num 2]).raised
      = some (.error "HandlerError") := by
  decide

/-- C9, amended: for a response with `id` 3 carrying a list of logs (watch set
unchanged).  If no call of the handler throws before returning (a handler
whose failure is a rejected promise included), the handler is called on every
log, in list order, and the run does not raise.  If the handler throws on a
log and on none before it, the handler has been called on the logs up to that
one and on no later log, and the run raises the handler's error. -/
theorem batch_forwarding (handleLog : HandleLogArgs → CallResult) (st : Session)
    (raw : RawFrame) (latest : List JVal) (data : JVal) (logs : List JVal)
    (hl : latest = st.listingIds) (hp : raw.parsed = some data)
    (hid : data.field "id" = .num 3) (hres : data.field "result" = .arr logs) :
    ((∀ l ∈ logs, ∀ e, handleLog (handleLogArgs st l) ≠ .threw e) →
        handlerCalls (incoming handleLog st raw latest).trace
            = logs.map (handleLogArgs st)
          ∧ (incoming handleLog st raw latest).raised = none)
      ∧ ∀ pre l post e, logs = pre ++ l :: post →
          (∀ x ∈ pre, ∀ e2, handleLog (handleLogArgs st x) ≠ .threw e2) →
          handleLog (handleLogArgs st l) = .threw e →
          handlerCalls (incoming handleLog st raw latest).trace
              = (pre ++ [l]).map (handleLogArgs st)
            ∧ (incoming handleLog st raw latest).raised = some e := by
  rw [incoming_logsResponse handleLog st raw latest data logs hl hp hid hres]
  constructor
  · intro hq
    rw [forwardLogs_no_throw handleLog st logs hq]
    refine ⟨?_, rfl⟩
    simp only [handlerCalls_append, handlerCalls_repeatNotice, List.nil_append]
    have := handlerCalls_map st logs
    simpa [handlerCalls] using this
  · intro pre l post e hlogs hpre hthrow
    subst hlogs
    rw [forwardLogs_throw handleLog st pre l post e hpre hthrow]
    refine ⟨?_, rfl⟩
    simp only [handlerCalls_append, handlerCalls_repeatNotice, List.nil_append]
    have := handlerCalls_map st (pre ++ [l])
    simpa [handlerCalls] using this

/-- Witness for the amended C9: five logs, the handler's promise is rejected
on the second; all five logs are forwarded and the run does not raise. -/
theorem batch_forwarding_witness :
    handlerCalls (incoming (rejectingHandler "0x1")
        (sampleSession [.num 1, .num 2] (.num 90))
        (logsResponse "r1" [sampleLog "0x0", sampleLog "0x1", sampleLog "0x2",
          sampleLog "0x3", sampleLog "0x4"]) [.num 1, .num 2]).trace
      = [sampleLog "0x0", sampleLog "0x1", sampleLog "0x2", sampleLog "0x3",
          sampleLog "0x4"].map (handleLogArgs (sampleSession [.num 1, .num 2] (.num 90)))
    ∧ (incoming (rejectingHandler "0x1") (sampleSession [.num 1, .num 2] (.num 90))
        (logsResponse "r1" [sampleLog "0x0", sampleLog "0x1", sampleLog "0x2",
          sampleLog "0x3", sampleLog "0x4"]) [.num 1, .num 2]).raised = none :=
  (batch_forwarding (rejectingHandler "0x1") (sampleSession [.num 1, .num 2] (.num 90))
    (logsResponse "r1" [sampleLog "0x0", sampleLog "0x1", sampleLog "0x2",
      sampleLog "0x3", sampleLog "0x4"]) [.num 1, .num 2] _
    [sampleLog "0x0", sampleLog "0x1", sampleLog "0x2", sampleLog "0x3", sampleLog "0x4"]
    rfl rfl (by decide) (by decide)).1
    (by intro l _ e; unfold rejectingHandler; split <;> simp)

/-! ## Topic encoding -/

theorem hexDigitVal_digitChar (d : Nat) (hd : d < 16) :
    hexDigitVal (Nat.digitChar d) = some d := by
  interval_cases d <;> decide

theorem hexValueFrom_append (acc : Nat) (xs ys : List Char) :
    hexValueFrom acc (xs ++ ys) = (hexValueFrom acc xs).bind fun a => hexValueFrom a ys := by
  induction xs generalizing acc with
  | nil => rfl
  | cons c cs ih =>
    simp only [List.cons_append, hexValueFrom]
    cases hexDigitVal c with
    | none => rfl
    | some d => exact ih _

theorem toDigitsCore_acc (fuel : Nat) :
    ∀ (n : Nat) (acc : List Char),
      Nat.toDigitsCore 16 fuel n acc = Nat.toDigitsCore 16 fuel n [] ++ acc := by
  induction fuel with
  | zero => intro n acc; rfl
  | succ fuel ih =>
    intro n acc
    simp only [Nat.toDigitsCore]
    split
    · rfl
    · rw [ih (n / 16) (Nat.digitChar (n % 16) :: acc), ih (n / 16) [Nat.digitChar (n % 16)]]
      simp

/-- Reading back the hex digits of `n` gives `n`. -/
theorem hexValue_toDigitsCore (fuel : Nat) :
    ∀ n : Nat, n < fuel → hexValueFrom 0 (Nat.toDigitsCore 16 fuel n []) = some n := by
  induction fuel with
  | zero => intro n h; omega
  | succ fuel ih =>
    intro n h
    simp only [Nat.toDigitsCore]
    split
    · rename_i hz
      have hlt : n < 16 := by
        by_contra hc
        have : 1 ≤ n / 16 := Nat.div_pos (by omega) (by decide)
        omega
      simp only [hexValueFrom, hexDigitVal_digitChar (n % 16) (Nat.mod_lt _ (by decide))]
      congr 1
      omega
    · rename_i hz
      rw [toDigitsCore_acc fuel (n / 16) [Nat.digitChar (n % 16)], hexValueFrom_append,
        ih (n / 16) (by omega)]
      simp only [Option.bind, hexValueFrom,
        hexDigitVal_digitChar (n % 16) (Nat.mod_lt _ (by decide))]
      congr 1
      omega

theorem hexValue_toDigits (n : Nat) : hexValue (Nat.toDigits 16 n) = some n :=
  hexValue_toDigitsCore (n + 1) n (Nat.lt_succ_self n)

theorem hexValueFrom_zeros (k : Nat) (cs : List Char) :
    hexValueFrom 0 (List.replicate k '0' ++ cs) = hexValueFrom 0 cs := by
  induction k with
  | zero => rfl
  | succ k ih =>
    simp only [List.replicate_succ, List.cons_append, hexValueFrom]
    have h0 : hexDigitVal '0' = some 0 := by decide
    rw [h0]
    exact ih

theorem hexValueFrom_digits (cs : List Char) :
    ∀ (acc v : Nat), hexValueFrom acc cs = some v → ∀ c ∈ cs, (hexDigitVal c).isSome = true := by
  induction cs with
  | nil => intro _ _ _ c hc; cases hc
  | cons x xs ih =>
    intro acc v h c hc
    simp only [hexValueFrom] at h
    cases hx : hexDigitVal x with
    | none => rw [hx] at h; cases h
    | some d =>
      rw [hx] at h
      rcases List.mem_cons.mp hc with rfl | hmem
      · rw [hx]; rfl
      · exact ih _ v h c hmem

theorem toDigits_length_le (n : Nat) (h : n < 2 ^ 256) : (Nat.toDigits 16 n).length ≤ 64 :=
  Nat.toDigitsCore_length 16 (by decide) (n + 1) n 64 (by norm_num at h ⊢; exact h)
    (by decide)

theorem toDigitsCore_acc10 (fuel : Nat) :
    ∀ (n : Nat) (acc : List Char),
      Nat.toDigitsCore 10 fuel n acc = Nat.toDigitsCore 10 fuel n [] ++ acc := by
  induction fuel with
  | zero => intro n acc; rfl
  | succ fuel ih =>
    intro n acc
    simp only [Nat.toDigitsCore]
    split
    · rfl
    · rw [ih (n / 10) (Nat.digitChar (n % 10) :: acc), ih (n / 10) [Nat.digitChar (n % 10)]]
      simp

theorem decDigit_digitChar (d : Nat) (hd : d < 10) :
    ('0' ≤ Nat.digitChar d ∧ Nat.digitChar d ≤ '9')
      ∧ (Nat.digitChar d).toNat - '0'.toNat = d := by
  interval_cases d <;> decide

theorem decValueFrom_append (acc : Nat) (xs ys : List Char) :
    decValueFrom acc (xs ++ ys) = (decValueFrom acc xs).bind fun a => decValueFrom a ys := by
  induction xs generalizing acc with
  | nil => rfl
  | cons c cs ih =>
    simp only [List.cons_append, decValueFrom]
    split
    · exact ih _
    · rfl

/-- Reading back the decimal digits of `n` gives `n`. -/
theorem decValue_toDigitsCore (fuel : Nat) :
    ∀ n : Nat, n < fuel → decValueFrom 0 (Nat.toDigitsCore 10 fuel n []) = some n := by
  induction fuel with
  | zero => intro n h; omega
  | succ fuel ih =>
    intro n h
    have hd := decDigit_digitChar (n % 10) (Nat.mod_lt _ (by decide))
    simp only [Nat.toDigitsCore]
    split
    · rename_i hz
      have hlt : n < 10 := by
        by_contra hc
        have : 1 ≤ n / 10 := Nat.div_pos (by omega) (by decide)
        omega
      simp only [decValueFrom, hd.1, and_self, if_true, hd.2]
      congr 1
      omega
    · rename_i hz
      rw [toDigitsCore_acc10 fuel (n / 10) [Nat.digitChar (n % 10)], decValueFrom_append,
        ih (n / 10) (by omega)]
      simp only [Option.bind, decValueFrom, hd.1, and_self, if_true, hd.2]
      congr 1
      omega

theorem decValue_toDigits (n : Nat) : decValueFrom 0 (Nat.toDigits 10 n) = some n :=
  decValue_toDigitsCore (n + 1) n (Nat.lt_succ_self n)

theorem decValueFrom_digits (cs : List Char) :
    ∀ (acc v : Nat), decValueFrom acc cs = some v → ∀ c ∈ cs, '0' ≤ c ∧ c ≤ '9' := by
  induction cs with
  | nil => intro _ _ _ c hc; cases hc
  | cons x xs ih =>
    intro acc v h c hc
    simp only [decValueFrom] at h
    split at h
    · rename_i hx
      rcases List.mem_cons.mp hc with rfl | hmem
      · exact hx
      · exact ih _ v h c hmem
    · cases h

theorem toDigits10_ne_nil (n : Nat) : Nat.toDigits 10 n ≠ [] := by
  intro h
  have hv := decValue_toDigits n
  rw [h] at hv
  simp only [decValueFrom, Option.some.injEq] at hv
  subst hv
  revert h
  decide

/-- A text made of decimal digits, with or without a leading `-`, is not a
strict hex string. -/
theorem parseHexStrict_decimal (cs : List Char) (hcs : ∀ c ∈ cs, '0' ≤ c ∧ c ≤ '9') :
    parseHexStrict (String.mk cs) = none ∧ parseHexStrict (String.mk ('-' :: cs)) = none := by
  have hno : has0x cs = false := by
    unfold has0x
    split
    · have := hcs 'x' (by simp)
      exact absurd this.2 (by decide)
    · have := hcs 'X' (by simp)
      exact absurd this.2 (by decide)
    · rfl
  constructor
  · unfold parseHexStrict
    simp only
    split
    · have := hcs '-' (by simp)
      exact absurd this.1 (by decide)
    · simp [hno]
  · unfold parseHexStrict
    simp [hno]

theorem parseDecimal_digits (n : Nat) :
    parseDecimal (String.mk (Nat.toDigits 10 n)) = some (Int.ofNat n)
      ∧ parseDecimal (String.mk ('-' :: Nat.toDigits 10 n)) = some (- (Int.ofNat n)) := by
  have hne := toDigits10_ne_nil n
  have hv := decValue_toDigits n
  have hds := decValueFrom_digits _ 0 n hv
  constructor
  · unfold parseDecimal
    simp only
    split
    · rename_i heq; exact absurd heq hne
    · rename_i heq
      have := hds '-' (by rw [heq]; simp)
      exact absurd this.1 (by decide)
    · rename_i rest heq
      have := hds '-' (by rw [heq]; simp)
      exact absurd this.1 (by decide)
    · rw [hv]; rfl
  · cases hd : Nat.toDigits 10 n with
    | nil => exact absurd hd hne
    | cons c rest =>
      rw [hd] at hv
      simp only [parseDecimal, hv]
      rfl

theorem infinityFrom_eq : infinityFrom = 2 ^ 1024 - 2 ^ 970 := by
  unfold infinityFrom
  norm_num

/-- What the encoder needs to know about a decimal digit. -/
theorem decimalDigits_facts :
    ∀ c ∈ decimalDigits,
      c.toLower = c ∧ isJsSpace c = false ∧ isDecimalDigit c = true
        ∧ c ≠ '-' ∧ c ≠ '+' ∧ c ≠ 'x' ∧ c ≠ 'X' ∧ c ≠ 'o' ∧ c ≠ 'O' ∧ c ≠ 'b' ∧ c ≠ 'B'
        ∧ c ≠ '.' ∧ ¬ (('a' ≤ c ∧ c ≤ 'f') ∨ ('A' ≤ c ∧ c ≤ 'F')) := by
  decide

theorem digitChar_mem (d : Nat) (hd : d < 10) : Nat.digitChar d ∈ decimalDigits := by
  interval_cases d <;> decide

theorem toDigitsCore10_mem (fuel : Nat) :
    ∀ (n : Nat) (acc : List Char), (∀ c ∈ acc, c ∈ decimalDigits) →
      ∀ c ∈ Nat.toDigitsCore 10 fuel n acc, c ∈ decimalDigits := by
  induction fuel with
  | zero => intro n acc hacc c hc; exact hacc c hc
  | succ fuel ih =>
    intro n acc hacc c hc
    have hd := digitChar_mem (n % 10) (Nat.mod_lt _ (by decide))
    simp only [Nat.toDigitsCore] at hc
    have hacc2 : ∀ c ∈ Nat.digitChar (n % 10) :: acc, c ∈ decimalDigits := by
      intro x hx
      rcases List.mem_cons.mp hx with rfl | hx
      · exact hd
      · exact hacc x hx
    split at hc
    · exact hacc2 c hc
    · exact ih _ _ hacc2 c hc

theorem toDigits10_mem (n : Nat) : ∀ c ∈ Nat.toDigits 10 n, c ∈ decimalDigits :=
  toDigitsCore10_mem (n + 1) n [] (by intro c hc; cases hc)

theorem digits_map_toLower (cs : List Char) (h : ∀ c ∈ cs, c ∈ decimalDigits) :
    cs.map Char.toLower = cs := by
  induction cs with
  | nil => rfl
  | cons c rest ih =>
    rw [List.map_cons, ih fun x hx => h x (List.mem_cons_of_mem _ hx),
      (decimalDigits_facts c (h c (List.mem_cons_self _ _))).1]

theorem digits_trimEnd (cs : List Char) (h : ∀ c ∈ cs, c ∈ decimalDigits) :
    trimEnd cs = cs := by
  induction cs with
  | nil => rfl
  | cons c rest ih =>
    have hr := ih fun x hx => h x (List.mem_cons_of_mem _ hx)
    have hc := (decimalDigits_facts c (h c (List.mem_cons_self _ _))).2.1
    unfold trimEnd
    rw [hr]
    cases rest with
    | nil => simp [hc]
    | cons d ds => rfl

theorem digits_trimChars (cs : List Char) (h : ∀ c ∈ cs, c ∈ decimalDigits) :
    trimChars cs = cs ∧ trimChars ('-' :: cs) = '-' :: cs := by
  have hdrop : cs.dropWhile isJsSpace = cs := by
    cases cs with
    | nil => rfl
    | cons c rest =>
      have hc := (decimalDigits_facts c (h c (List.mem_cons_self _ _))).2.1
      simp [List.dropWhile, hc]
  constructor
  · unfold trimChars
    rw [hdrop]
    exact digits_trimEnd cs h
  · have hm : isJsSpace '-' = false := by decide
    unfold trimChars
    simp only [List.dropWhile, hm]
    unfold trimEnd
    rw [digits_trimEnd cs h]
    cases cs with
    | nil => simp [hm]
    | cons d ds => rfl

theorem digits_takeWhile (cs : List Char) (h : ∀ c ∈ cs, c ∈ decimalDigits) :
    cs.takeWhile isDecimalDigit = cs ∧ cs.dropWhile isDecimalDigit = [] := by
  induction cs with
  | nil => exact ⟨rfl, rfl⟩
  | cons c rest ih =>
    have hr := ih fun x hx => h x (List.mem_cons_of_mem _ hx)
    have hc := (decimalDigits_facts c (h c (List.mem_cons_self _ _))).2.2.1
    simp [List.takeWhile, List.dropWhile, hc, hr.1, hr.2]

theorem digits_decimalLiteral (cs : List Char) (n : Nat) (hne : cs ≠ [])
    (h : ∀ c ∈ cs, c ∈ decimalDigits) (hv : decValueFrom 0 cs = some n) :
    decimalLiteral cs = some (n, 0) := by
  unfold decimalLiteral
  simp only [(digits_takeWhile cs h).1, (digits_takeWhile cs h).2, hne, false_and, if_false,
    List.append_nil, exponentPart, hv, List.length_nil]
  rfl

theorem digits_decimalFinite (cs : List Char) (n : Nat) (hne : cs ≠ [])
    (h : ∀ c ∈ cs, c ∈ decimalDigits) (hv : decValueFrom 0 cs = some n) :
    decimalFinite cs = decide (n < infinityFrom) := by
  unfold decimalFinite
  rw [digits_decimalLiteral cs n hne h hv]
  simp [belowInfinity]

/-- The test `isFinite` on the decimal text of an integer: true exactly below
the magnitude that rounds to `Infinity`. -/
theorem digits_numberIsFinite (cs : List Char) (n : Nat) (hne : cs ≠ [])
    (h : ∀ c ∈ cs, c ∈ decimalDigits) (hv : decValueFrom 0 cs = some n) :
    numberIsFinite (String.mk cs) = decide (n < infinityFrom)
      ∧ numberIsFinite (String.mk ('-' :: cs)) = decide (n < infinityFrom) := by
  have hfin := digits_decimalFinite cs n hne h hv
  constructor
  · unfold numberIsFinite
    simp only [(digits_trimChars cs h).1]
    cases cs with
    | nil => exact absurd rfl hne
    | cons c rest =>
      have hc := decimalDigits_facts c (h c (List.mem_cons_self _ _))
      simp only [hc.2.2.2.1, hc.2.2.2.2.1, or_self, if_false]
      by_cases h0 : c = '0'
      · simp only [h0, if_true]
        cases rest with
        | nil =>
          subst h0
          simp only [decValueFrom] at hv
          have : n = 0 := by
            have h00 : ('0' ≤ '0' ∧ '0' ≤ '9') := by decide
            simp only [h00, and_self, if_true, decValueFrom] at hv
            simpa using hv.symm
          subst this
          decide
        | cons x digits =>
          have hx := decimalDigits_facts x (h x (by simp))
          simp only [hx.2.2.2.2.2.1, hx.2.2.2.2.2.2.1, hx.2.2.2.2.2.2.2.1,
            hx.2.2.2.2.2.2.2.2.1, hx.2.2.2.2.2.2.2.2.2.1, hx.2.2.2.2.2.2.2.2.2.2.1, or_self,
            if_false]
          rw [← h0]
          exact hfin
      · simp only [h0, if_false]
        exact hfin
  · unfold numberIsFinite
    simp only [(digits_trimChars cs h).2]
    simp only [Char.reduceEq, or_true, if_true, true_or]
    exact hfin

theorem digits_has0x (cs : List Char) (h : ∀ c ∈ cs, c ∈ decimalDigits) :
    has0x cs = false ∧ strip0x cs = cs := by
  constructor
  · unfold has0x
    split
    · exact absurd rfl (decimalDigits_facts 'x' (h 'x' (by simp))).2.2.2.2.2.1
    · exact absurd rfl (decimalDigits_facts 'X' (h 'X' (by simp))).2.2.2.2.2.2.1
    · rfl
  · unfold strip0x
    split
    · exact absurd rfl (decimalDigits_facts 'x' (h 'x' (by simp))).2.2.2.2.2.1
    · exact absurd rfl (decimalDigits_facts 'X' (h 'X' (by simp))).2.2.2.2.2.2.1
    · rfl

theorem digits_isAlphaHex (cs : List Char) (hne : cs ≠ [])
    (h : ∀ c ∈ cs, c ∈ decimalDigits) : isAlphaHex cs = false := by
  cases cs with
  | nil => exact absurd rfl hne
  | cons c rest =>
    have hc := (decimalDigits_facts c (h c (List.mem_cons_self _ _))).2.2.2.2.2.2.2.2.2.2.2.2
    have hd : decide (('a' ≤ c ∧ c ≤ 'f') ∨ ('A' ≤ c ∧ c ≤ 'F')) = false :=
      decide_eq_false hc
    simp only [isAlphaHex, List.all_cons, hd, Bool.false_and, Bool.and_false]

/-- The function `toBN` reads the decimal text of an integer as that integer. -/
theorem digits_toBNText (n : Nat) :
    toBNText (String.mk (Nat.toDigits 10 n)) = some (Int.ofNat n)
      ∧ toBNText (String.mk ('-' :: Nat.toDigits 10 n)) = some (- (Int.ofNat n)) := by
  have hne := toDigits10_ne_nil n
  have hmem := toDigits10_mem n
  have hdec := parseDecimal_digits n
  have h0x := digits_has0x _ hmem
  have halpha := digits_isAlphaHex _ hne hmem
  have hnd : ∀ rest, Nat.toDigits 10 n ≠ '-' :: rest := by
    intro rest heq
    exact (decimalDigits_facts '-' (hmem '-' (by rw [heq]; simp))).2.2.2.1 rfl
  constructor
  · unfold toBNText
    simp only [digits_map_toLower _ hmem, (digits_trimChars _ hmem).1, h0x.1, h0x.2]
    cases hd : Nat.toDigits 10 n with
    | nil => exact absurd hd hne
    | cons c rest =>
      have hc : c ≠ '-' := by
        intro hc
        exact hnd rest (by rw [hd, hc])
      rw [hd] at hdec halpha h0x
      simp only [hc, decide_False, Bool.false_and, Bool.or_false, if_false, reduceCtorEq,
        hdec.1, Option.isSome_some, Bool.not_true, halpha, Bool.false_eq_true,
        Bool.not_false, Bool.and_true, Bool.and_self, if_true, Option.map_some, h0x.1]
      simp
  · unfold toBNText
    have hm : Char.toLower '-' = '-' := by decide
    simp only [List.map_cons, hm, digits_map_toLower _ hmem, (digits_trimChars _ hmem).2]
    have h1 : has0x ('-' :: Nat.toDigits 10 n) = false := by
      unfold has0x
      split
      · rename_i heq; cases heq
      · rename_i heq; cases heq
      · rfl
    have h2 : strip0x ('-' :: Nat.toDigits 10 n) = '-' :: Nat.toDigits 10 n := by
      unfold strip0x
      split
      · rename_i heq; cases heq
      · rename_i heq; cases heq
      · rfl
    simp only [h1, h2, h0x.1, h0x.2, decide_True, Bool.true_and, Bool.or_false, if_true, hne,
      if_false, hdec.1, Option.isSome_some, Bool.not_true, halpha, Bool.false_eq_true,
      Bool.not_false, Bool.and_true, Bool.and_self, Option.map_some, Bool.false_and]
    simp

/-- The encoder reads the decimal text of an integer as that integer, when
the integer is in the range of the doubles. -/
theorem numberToHex_decimal (id : Int) (hfin : id.natAbs < infinityFrom) :
    numberToHex (.str (decimalOf id)) = .ok (.str (hexOfInt id)) := by
  have hne := toDigits10_ne_nil id.natAbs
  have hmem := toDigits10_mem id.natAbs
  have hv := decValue_toDigits id.natAbs
  have hf := digits_numberIsFinite _ id.natAbs hne hmem hv
  have hbn := digits_toBNText id.natAbs
  have hd : decide (id.natAbs < infinityFrom) = true := by simpa using hfin
  unfold decimalOf
  by_cases hneg : id < 0
  · have hid : - (Int.ofNat id.natAbs) = id := by
      simp only [Int.ofNat_eq_coe]; omega
    simp only [hneg, if_true, numberToHex, hf.2, hd, Bool.not_true, Bool.false_and,
      Bool.false_eq_true, if_false, hbn.2, hid]
  · have hid : Int.ofNat id.natAbs = id := by
      simp only [Int.ofNat_eq_coe]; omega
    simp only [hneg, if_false, numberToHex, hf.1, hd, Bool.not_true, Bool.false_and,
      Bool.false_eq_true, hbn.1, hid]

/-- The encoder rejects the decimal text of an integer that `Number` reads as
infinite. -/
theorem numberToHex_decimal_infinite (id : Int) (hinf : infinityFrom ≤ id.natAbs) :
    numberToHex (.str (decimalOf id)) = .error (.error "Given input is not a number.") := by
  have hne := toDigits10_ne_nil id.natAbs
  have hmem := toDigits10_mem id.natAbs
  have hv := decValue_toDigits id.natAbs
  have hds := decValueFrom_digits _ 0 _ hv
  have hhex := parseHexStrict_decimal _ hds
  have hf := digits_numberIsFinite _ id.natAbs hne hmem hv
  have hd : decide (id.natAbs < infinityFrom) = false := by simpa using hinf
  unfold decimalOf
  by_cases hneg : id < 0
  · simp only [hneg, if_true, numberToHex, hf.2, hd, hhex.2, Option.isSome_none,
      Bool.not_false, Bool.and_self, if_true]
  · simp only [hneg, if_false, numberToHex, hf.1, hd, hhex.1, Option.isSome_none,
      Bool.not_false, Bool.and_self, if_true]

theorem listingTopic_decimal (id : Int) (hfin : id.natAbs < infinityFrom) :
    listingTopic (.str (decimalOf id)) = .ok (.str (padLeft (hexOfInt id) 64)) := by
  simp only [listingTopic, numberToHex_decimal id hfin]

theorem listingTopic_decimal_infinite (id : Int) (hinf : infinityFrom ≤ id.natAbs) :
    listingTopic (.str (decimalOf id)) = .error (.error "Given input is not a number.") := by
  simp only [listingTopic, numberToHex_decimal_infinite id hinf]

theorem below_infinityFrom (n : Nat) (h : n < 2 ^ 256) : n < infinityFrom := by
  have h2 : (2 : Nat) ^ 256 < infinityFrom := by
    unfold infinityFrom
    norm_num
  omega

theorem listingTopic_num (n : Int) (h : n.natAbs < 10 ^ 21) :
    listingTopic (.num n) = .ok (.str (padLeft (hexOfInt n) 64)) := by
  simp only [listingTopic, numberToHex_num n h]

/-- The padded text of a non-negative integer below `2^256`: `0x`, zeros up to
64 digits, and the hex digits of the number. -/
theorem padLeft_hexOfInt_nat (n : Nat) (h : n < 2 ^ 256) :
    padLeft (hexOfInt (n : Int)) 64
      = String.mk ('0' :: 'x' ::
          (List.replicate (64 - (Nat.toDigits 16 n).length) '0' ++ Nat.toDigits 16 n)) := by
  have hlen := toDigits_length_le n h
  have hhex : hexOfInt (n : Int) = String.mk ('0' :: 'x' :: Nat.toDigits 16 n) := by
    unfold hexOfInt toString16
    have : ¬ ((n : Int) < 0) := by simp
    rw [if_neg this]
    rfl
  rw [hhex]
  unfold padLeft
  simp only [has0x, strip0x, if_true]
  have hle : (Nat.toDigits 16 n).length ≤ 64 + 1 := by omega
  simp only [hle, if_true]
  have hsub : 64 + 1 - (Nat.toDigits 16 n).length - 1 = 64 - (Nat.toDigits 16 n).length := by
    omega
  rw [hsub]
  rfl

/-- C10: for an integer identifier `id` with `0 ≤ id < 2^256`, the topic
`padLeft(numberToHex(id), 64)` is `0x` followed by exactly 64 hexadecimal
digits, which are zeros followed by the hex digits of `id`, and whose value
is `id`.  The identifier is given as its decimal text, as `getListingIds`
produces it, or, when it is a safe integer, as a number. -/
theorem topic_fixed_width (id : Int) (h0 : 0 ≤ id) (h1 : id < 2 ^ 256) :
    ∃ body : List Char,
      listingTopic (.str (decimalOf id)) = .ok (.str (String.mk ('0' :: 'x' :: body)))
        ∧ (id < 2 ^ 53 → listingTopic (.num id) = .ok (.str (String.mk ('0' :: 'x' :: body))))
        ∧ body.length = 64
        ∧ (∀ c ∈ body, (hexDigitVal c).isSome = true)
        ∧ body = List.replicate (64 - (Nat.toDigits 16 id.toNat).length) '0'
            ++ Nat.toDigits 16 id.toNat
        ∧ (hexValue body).map Int.ofNat = some id := by
  obtain ⟨n, rfl⟩ := Int.eq_ofNat_of_zero_le h0
  have hn : n < 2 ^ 256 := by exact_mod_cast h1
  have hlen := toDigits_length_le n hn
  have hval : hexValue (List.replicate (64 - (Nat.toDigits 16 n).length) '0'
      ++ Nat.toDigits 16 n) = some n := by
    unfold hexValue
    rw [hexValueFrom_zeros]
    exact hexValue_toDigits n
  refine ⟨List.replicate (64 - (Nat.toDigits 16 n).length) '0' ++ Nat.toDigits 16 n,
    ?_, ?_, ?_, ?_, ?_, ?_⟩
  · rw [listingTopic_decimal _ (by simpa using below_infinityFrom n hn), padLeft_hexOfInt_nat n hn]
  · intro h53
    have hb : (n : Int).natAbs < 10 ^ 21 := by
      omega
    rw [listingTopic_num _ hb, padLeft_hexOfInt_nat n hn]
  · simp only [List.length_append, List.length_replicate]
    omega
  · exact hexValueFrom_digits _ 0 n hval
  · simp
  · rw [hval]; rfl

/-- Witness for C10: the identifier 255, as the text `255` and as a number. -/
theorem topic_fixed_width_witness :
    ∃ body : List Char,
      listingTopic (.str (decimalOf 255)) = .ok (.str (String.mk ('0' :: 'x' :: body)))
        ∧ ((255 : Int) < 2 ^ 53 →
            listingTopic (.num 255) = .ok (.str (String.mk ('0' :: 'x' :: body))))
        ∧ body.length = 64
        ∧ (∀ c ∈ body, (hexDigitVal c).isSome = true)
        ∧ body = List.replicate (64 - (Nat.toDigits 16 (255 : Int).toNat).length) '0'
            ++ Nat.toDigits 16 (255 : Int).toNat
        ∧ (hexValue body).map Int.ofNat = some 255 :=
  topic_fixed_width 255 (by decide) (by norm_num)

/-! ## The topic filter of the two requests -/

/-- The encoder is a `map`: when it succeeds, every identifier has a topic and
the output lists them in order. -/
theorem listingTopics_ok (ids topics : List JVal) (h : listingTopics ids = .ok topics) :
    List.Forall₂ (fun id t => listingTopic id = .ok t) ids topics := by
  induction ids generalizing topics with
  | nil =>
    simp only [listingTopics, Except.ok.injEq] at h
    subst h
    exact List.Forall₂.nil
  | cons id rest ih =>
    simp only [listingTopics] at h
    cases h1 : listingTopic id with
    | error e => rw [h1] at h; cases h
    | ok t =>
      rw [h1] at h
      cases h2 : listingTopics rest with
      | error e => rw [h2] at h; cases h
      | ok ts =>
        rw [h2] at h
        simp only [Except.ok.injEq] at h
        subst h
        exact List.Forall₂.cons h1 (ih ts h2)

theorem listingTopics_of_forall2 (ids topics : List JVal)
    (h : List.Forall₂ (fun id t => listingTopic id = .ok t) ids topics) :
    listingTopics ids = .ok topics := by
  induction h with
  | nil => rfl
  | cons h1 _ ih => simp only [listingTopics, h1, ih]

theorem forall2_eq_map (ids topics : List JVal)
    (h : List.Forall₂ (fun id t => listingTopic id = .ok t) ids topics) :
    topics = ids.map fun id => ((listingTopic id).toOption).getD .null := by
  induction h with
  | nil => rfl
  | cons h1 _ ih =>
    rw [List.map_cons, ← ih, h1]
    rfl

theorem forall2_of_all_ok (ids : List JVal)
    (h : ∀ id ∈ ids, ∃ t, listingTopic id = .ok t) :
    List.Forall₂ (fun id t => listingTopic id = .ok t) ids
      (ids.map fun id => ((listingTopic id).toOption).getD .null) := by
  induction ids with
  | nil => exact List.Forall₂.nil
  | cons id rest ih =>
    obtain ⟨t, ht⟩ := h id (List.mem_cons_self _ _)
    refine List.Forall₂.cons ?_ (ih fun x hx => h x (List.mem_cons_of_mem _ hx))
    show listingTopic id = .ok (((listingTopic id).toOption).getD .null)
    rw [ht]
    rfl

theorem all_ok_of_forall2 (ids topics : List JVal)
    (h : List.Forall₂ (fun id t => listingTopic id = .ok t) ids topics) :
    ∀ id ∈ ids, ∃ t, listingTopic id = .ok t := by
  induction h with
  | nil => intro id hid; cases hid
  | cons h1 _ ih =>
    intro id hid
    rcases List.mem_cons.mp hid with rfl | hmem
    · exact ⟨_, h1⟩
    · exact ih id hmem

theorem SubscribeToLogs_ok (address : JVal) (ids topics : List JVal)
    (h : listingTopics ids = .ok topics) :
    SubscribeToLogs address ids =
      .ok (.obj [("jsonrpc", .str "2.0"), ("id", .num 1), ("method", .str "eth_subscribe"),
        ("params", .arr [.str "logs",
          .obj [("address", address), ("topics", .arr [.null, .null, .arr topics])]])]) := by
  simp only [SubscribeToLogs, h]

/-- C11: encoding a permutation of a list of identifiers gives a permutation
of the encoded topics (and fails only if the original encoding fails), in the
topic list and in the logs-subscription request built from it; and the
encoder is a function: the same list always gives the same output. -/
theorem topics_perm (address : JVal) (ids ids2 topics : List JVal)
    (hp : List.Perm ids ids2) (h : listingTopics ids = .ok topics) :
    (∃ topics2, listingTopics ids2 = .ok topics2 ∧ List.Perm topics topics2
        ∧ (∃ rpc, SubscribeToLogs address ids = .ok rpc
            ∧ (subscribeFilter rpc).field "topics" = .arr [.null, .null, .arr topics])
        ∧ (∃ rpc2, SubscribeToLogs address ids2 = .ok rpc2
            ∧ (subscribeFilter rpc2).field "topics" = .arr [.null, .null, .arr topics2]))
      ∧ ∀ out1 out2, SubscribeToLogs address ids = out1 →
          SubscribeToLogs address ids = out2 → out1 = out2 := by
  have hf := listingTopics_ok ids topics h
  have hall := all_ok_of_forall2 ids topics hf
  have hall2 : ∀ id ∈ ids2, ∃ t, listingTopic id = .ok t :=
    fun id hid => hall id (hp.symm.subset hid)
  have hf2 := forall2_of_all_ok ids2 hall2
  have h2 := listingTopics_of_forall2 _ _ hf2
  refine ⟨⟨_, h2, ?_, ⟨_, SubscribeToLogs_ok address ids topics h, rfl⟩,
    ⟨_, SubscribeToLogs_ok address ids2 _ h2, rfl⟩⟩, ?_⟩
  · rw [forall2_eq_map ids topics hf]
    exact hp.map _
  · intro out1 out2 h1 h2
    rw [← h1, ← h2]

/-- Witness for C11: the watch sets `[1, 2, 3]` and `[3, 1, 2]`. -/
theorem topics_perm_witness :
    (∃ topics2, listingTopics [.num 3, .num 1, .num 2] = .ok topics2
        ∧ List.Perm
          [.str "0x0000000000000000000000000000000000000000000000000000000000000001",
           .str "0x0000000000000000000000000000000000000000000000000000000000000002",
           .str "0x0000000000000000000000000000000000000000000000000000000000000003"]
          topics2
        ∧ (∃ rpc, SubscribeToLogs sampleNetwork.marketplaceContract
              [.num 1, .num 2, .num 3] = .ok rpc
            ∧ (subscribeFilter rpc).field "topics" = .arr [.null, .null, .arr
              [.str "0x0000000000000000000000000000000000000000000000000000000000000001",
               .str "0x0000000000000000000000000000000000000000000000000000000000000002",
               .str "0x0000000000000000000000000000000000000000000000000000000000000003"]])
        ∧ (∃ rpc2, SubscribeToLogs sampleNetwork.marketplaceContract
              [.num 3, .num 1, .num 2] = .ok rpc2
            ∧ (subscribeFilter rpc2).field "topics" = .arr [.null, .null, .arr topics2]))
      ∧ ∀ out1 out2,
          SubscribeToLogs sampleNetwork.marketplaceContract [.num 1, .num 2, .num 3] = out1 →
          SubscribeToLogs sampleNetwork.marketplaceContract [.num 1, .num 2, .num 3] = out2 →
          out1 = out2 :=
  topics_perm sampleNetwork.marketplaceContract [.num 1, .num 2, .num 3]
    [.num 3, .num 1, .num 2] _
    ((List.Perm.swap _ _ _).trans ((List.Perm.swap _ _ _).cons _)).symm (by decide)

theorem toDigitsCore_length_ge (fuel : Nat) :
    ∀ (n k : Nat), n < fuel → 16 ^ k ≤ n →
      k + 1 ≤ (Nat.toDigitsCore 16 fuel n []).length := by
  induction fuel with
  | zero => intro n k h; omega
  | succ fuel ih =>
    intro n k h hk
    simp only [Nat.toDigitsCore]
    split
    · rename_i hz
      have hlt : n < 16 := by
        by_contra hc
        have : 1 ≤ n / 16 := Nat.div_pos (by omega) (by decide)
        omega
      cases k with
      | zero => simp
      | succ k =>
        have : 16 ≤ 16 ^ (k + 1) := by
          calc 16 = 16 ^ 1 := by norm_num
            _ ≤ 16 ^ (k + 1) := Nat.pow_le_pow_right (by decide) (by omega)
        omega
    · rename_i hz
      rw [toDigitsCore_acc fuel (n / 16) [Nat.digitChar (n % 16)]]
      simp only [List.length_append, List.length_singleton]
      cases k with
      | zero => omega
      | succ k =>
        have hdiv : 16 ^ k ≤ n / 16 := by
          rw [Nat.le_div_iff_mul_le (by decide)]
          calc 16 ^ k * 16 = 16 ^ (k + 1) := by ring
            _ ≤ n := hk
        have := ih (n / 16) k (by omega) hdiv
        omega

/-- An integer of `2^256` or more has more than 64 hex digits. -/
theorem toDigits_length_gt (n : Nat) (h : 2 ^ 256 ≤ n) : 64 < (Nat.toDigits 16 n).length := by
  have h16 : 16 ^ 64 ≤ n := by
    have : (16 : Nat) ^ 64 = 2 ^ 256 := by norm_num
    omega
  have := toDigitsCore_length_ge (n + 1) n 64 (Nat.lt_succ_self n) h16
  unfold Nat.toDigits
  omega

theorem listingTopics_decimal (ids : List Int) (hfin : ∀ i ∈ ids, i.natAbs < infinityFrom) :
    listingTopics (ids.map fun id => JVal.str (decimalOf id))
      = .ok (ids.map fun id => JVal.str (padLeft (hexOfInt id) 64)) := by
  induction ids with
  | nil => rfl
  | cons id rest ih =>
    simp only [List.map_cons, listingTopics,
      listingTopic_decimal id (hfin id (List.mem_cons_self _ _)),
      ih fun i hi => hfin i (List.mem_cons_of_mem _ hi)]

/-- The padded text of a negative integer: the zeros come first and the text
`-0x...` of `numberToHex` follows, without a `0x` in front. -/
theorem padLeft_hexOfInt_neg (id : Int) (h : id < 0) :
    (padLeft (hexOfInt id) 64).data
      = List.replicate (64 - (3 + (Nat.toDigits 16 id.natAbs).length)) '0'
          ++ '-' :: '0' :: 'x' :: Nat.toDigits 16 id.natAbs := by
  have hhex : hexOfInt id = String.mk ('-' :: '0' :: 'x' :: Nat.toDigits 16 id.natAbs) := by
    unfold hexOfInt toString16
    rw [if_pos h]
    rfl
  rw [hhex]
  have h1 : has0x ('-' :: '0' :: 'x' :: Nat.toDigits 16 id.natAbs) = false := rfl
  have h2 : strip0x ('-' :: '0' :: 'x' :: Nat.toDigits 16 id.natAbs)
      = '-' :: '0' :: 'x' :: Nat.toDigits 16 id.natAbs := rfl
  unfold padLeft
  simp only [h1, h2, Bool.false_eq_true, if_false, List.nil_append, List.length_cons]
  congr 2
  split <;> omega

/-- The padded text of an integer of `2^256` or more is the text of
`numberToHex` unchanged, `0x` and more than 64 digits. -/
theorem padLeft_hexOfInt_big (n : Nat) (h : 2 ^ 256 ≤ n) :
    padLeft (hexOfInt (n : Int)) 64 = String.mk ('0' :: 'x' :: Nat.toDigits 16 n) := by
  have hlen := toDigits_length_gt n h
  have hhex : hexOfInt (n : Int) = String.mk ('0' :: 'x' :: Nat.toDigits 16 n) := by
    unfold hexOfInt toString16
    have : ¬ ((n : Int) < 0) := by simp
    rw [if_neg this]
    rfl
  rw [hhex]
  unfold padLeft
  simp only [has0x, strip0x, if_true]
  have hz : (if (Nat.toDigits 16 n).length ≤ 64 + 1
      then 64 + 1 - (Nat.toDigits 16 n).length else 0) - 1 = 0 := by
    split <;> omega
  rw [hz]
  rfl

/-! ## Identifiers out of range -/

/-- C12, as stated, fails: the identifier `-1` and the identifier `2^256`
(as decimal text) are both encoded without any error.  The first gives 60
zeros followed by `-0x1`, the second `0x1` followed by 64 zeros, 65 digits. -/
theorem out_of_range_ids_encode :
    listingTopic (.num (-1)) = .ok (.str
        "000000000000000000000000000000000000000000000000000000000000-0x1")
      ∧ listingTopic (.str
          "115792089237316195423570985008687907853269984665640564039457584007913129639936")
        = .ok (.str
          "0x10000000000000000000000000000000000000000000000000000000000000000")
      ∧ SubscribeToLogs sampleNetwork.marketplaceContract [.num (-1)]
        = .ok (.obj [("jsonrpc", .str "2.0"), ("id", .num 1), ("method", .str "eth_subscribe"),
            ("params", .arr [.str "logs",
              .obj [("address", sampleNetwork.marketplaceContract),
                ("topics", .arr [.null, .null, .arr [.str
                  "000000000000000000000000000000000000000000000000000000000000-0x1"]])]])]) := by
  refine ⟨by decide, ?_, by decide⟩
  set_option maxRecDepth 1000000 in decide

/-- C12, amended: no identifier is rejected for being negative or for being
`2^256` or more.  Building the topic filter succeeds for every integer
identifier given as decimal text whose magnitude is below `2^1024 - 2^970`
(the texts that `isFinite` accepts), and for every safe integer given as a
number, in range or not.  The topic is `padLeft(numberToHex(id), 64)`: for
`id < 0` zeros followed by the text `-0x...`, for `id ≥ 2^256` the unpadded
`0x` text of more than 64 digits (and for `0 ≤ id < 2^256` the 64-digit
topic).  Decimal text of a larger magnitude is rejected, positive or negative,
with the `Error` of `numberToHex`, `Given input ... is not a number`.
Accordingly the logs-subscription request is built for every list of
identifiers below that magnitude. -/
theorem topic_fails_only_beyond_doubles (id : Int) (address : JVal) (ids : List Int) :
    (id.natAbs < 2 ^ 1024 - 2 ^ 970 →
        listingTopic (.str (decimalOf id)) = .ok (.str (padLeft (hexOfInt id) 64)))
      ∧ (2 ^ 1024 - 2 ^ 970 ≤ id.natAbs →
          listingTopic (.str (decimalOf id))
            = .error (.error "Given input is not a number."))
      ∧ (id.natAbs < 2 ^ 53 →
          listingTopic (.num id) = .ok (.str (padLeft (hexOfInt id) 64)))
      ∧ (id < 0 →
          (padLeft (hexOfInt id) 64).data
            = List.replicate (64 - (3 + (Nat.toDigits 16 id.natAbs).length)) '0'
                ++ '-' :: '0' :: 'x' :: Nat.toDigits 16 id.natAbs)
      ∧ (2 ^ 256 ≤ id →
          padLeft (hexOfInt id) 64 = String.mk ('0' :: 'x' :: Nat.toDigits 16 id.natAbs)
            ∧ 64 < (Nat.toDigits 16 id.natAbs).length)
      ∧ ((∀ i ∈ ids, i.natAbs < 2 ^ 1024 - 2 ^ 970) →
          SubscribeToLogs address (ids.map fun i => JVal.str (decimalOf i))
            = .ok (.obj [("jsonrpc", .str "2.0"), ("id", .num 1),
                ("method", .str "eth_subscribe"),
                ("params", .arr [.str "logs",
                  .obj [("address", address),
                    ("topics", .arr [.null, .null,
                      .arr (ids.map fun i => JVal.str (padLeft (hexOfInt i) 64))])]])])) := by
  rw [← infinityFrom_eq]
  refine ⟨listingTopic_decimal id, listingTopic_decimal_infinite id, ?_,
    padLeft_hexOfInt_neg id, ?_, ?_⟩
  · intro h
    exact listingTopic_num id (by omega)
  · intro h
    obtain ⟨n, rfl⟩ := Int.eq_ofNat_of_zero_le (by omega : (0 : Int) ≤ id)
    have hn : 2 ^ 256 ≤ n := by exact_mod_cast h
    exact ⟨padLeft_hexOfInt_big n hn, toDigits_length_gt n hn⟩
  · intro hfin
    exact SubscribeToLogs_ok address _ _ (listingTopics_decimal ids hfin)

/-- Witness for the amended C12: the identifier `-1`, as decimal text and as
a number. -/
theorem topic_fails_only_beyond_doubles_witness :
    listingTopic (.str (decimalOf (-1))) = .ok (.str (padLeft (hexOfInt (-1)) 64))
      ∧ listingTopic (.num (-1)) = .ok (.str (padLeft (hexOfInt (-1)) 64))
      ∧ padLeft (hexOfInt (-1)) 64
        = "000000000000000000000000000000000000000000000000000000000000-0x1" :=
  ⟨(topic_fails_only_beyond_doubles (-1) sampleNetwork.marketplaceContract []).1
      (by norm_num),
    (topic_fails_only_beyond_doubles (-1) sampleNetwork.marketplaceContract []).2.2.1
      (by decide),
    by decide⟩

/-! ## Shape of the requests -/

theorem GetPastLogs_ok_inv (address fromBlock toBlock : JVal) (ids : List JVal) (rpc : JVal)
    (h : GetPastLogs address fromBlock toBlock ids = .ok rpc) :
    ∃ topics fromHex toHex, listingTopics ids = .ok topics
      ∧ numberToHex fromBlock = .ok fromHex ∧ numberToHex toBlock = .ok toHex
      ∧ rpc = .obj [("jsonrpc", .str "2.0"), ("id", .num 3), ("method", .str "eth_getLogs"),
          ("params", .arr [.obj [("address", address),
            ("topics", .arr [.null, .null, .arr topics]),
            ("fromBlock", fromHex), ("toBlock", toHex)]])] := by
  unfold GetPastLogs at h
  cases h1 : listingTopics ids with
  | error e => rw [h1] at h; cases h
  | ok topics =>
    cases h2 : numberToHex fromBlock with
    | error e => rw [h1, h2] at h; cases h
    | ok fromHex =>
      cases h3 : numberToHex toBlock with
      | error e => rw [h1, h2, h3] at h; cases h
      | ok toHex =>
        rw [h1, h2, h3] at h
        simp only [Except.ok.injEq] at h
        exact ⟨topics, fromHex, toHex, rfl, rfl, rfl, h.symm⟩

theorem SubscribeToLogs_ok_inv (address : JVal) (ids : List JVal) (rpc : JVal)
    (h : SubscribeToLogs address ids = .ok rpc) :
    ∃ topics, listingTopics ids = .ok topics
      ∧ rpc = .obj [("jsonrpc", .str "2.0"), ("id", .num 1), ("method", .str "eth_subscribe"),
          ("params", .arr [.str "logs",
            .obj [("address", address), ("topics", .arr [.null, .null, .arr topics])]])] := by
  unfold SubscribeToLogs at h
  cases h1 : listingTopics ids with
  | error e => rw [h1] at h; cases h
  | ok topics =>
    rw [h1] at h
    simp only [Except.ok.injEq] at h
    exact ⟨topics, rfl, h.symm⟩

/-- C13: for a watch set, the logs-subscription request and the
historical-log request carry the same `topics` filter: an array of three
entries, `null`, `null`, and the list of the encoded identifiers in watch-set
order. -/
theorem same_topics_filter (address1 address2 fromBlock toBlock : JVal) (ids : List JVal)
    (rpc1 rpc3 : JVal)
    (h1 : SubscribeToLogs address1 ids = .ok rpc1)
    (h3 : GetPastLogs address2 fromBlock toBlock ids = .ok rpc3) :
    ∃ topics, List.Forall₂ (fun id t => listingTopic id = .ok t) ids topics
      ∧ (subscribeFilter rpc1).field "topics" = .arr [.null, .null, .arr topics]
      ∧ (getLogsFilter rpc3).field "topics" = .arr [.null, .null, .arr topics] := by
  obtain ⟨topics, ht, rfl⟩ := SubscribeToLogs_ok_inv address1 ids rpc1 h1
  obtain ⟨topics3, fromHex, toHex, ht3, _, _, rfl⟩ :=
    GetPastLogs_ok_inv address2 fromBlock toBlock ids rpc3 h3
  rw [ht] at ht3
  simp only [Except.ok.injEq] at ht3
  subst ht3
  exact ⟨topics, listingTopics_ok ids topics ht, rfl, rfl⟩

/-- Witness for C13: the watch set `[1, 2]` with the block range 90 to 100. -/
theorem same_topics_filter_witness :
    ∃ topics, List.Forall₂ (fun id t => listingTopic id = .ok t) [.num 1, .num 2] topics
      ∧ (subscribeFilter (.obj [("jsonrpc", .str "2.0"), ("id", .num 1),
          ("method", .str "eth_subscribe"),
          ("params", .arr [.str "logs", .obj [("address", sampleNetwork.marketplaceContract),
            ("topics", .arr [.null, .null, .arr
              [.str "0x0000000000000000000000000000000000000000000000000000000000000001",
               .str "0x0000000000000000000000000000000000000000000000000000000000000002"]])
            ]])])).field "topics" = .arr [.null, .null, .arr topics]
      ∧ (getLogsFilter (getLogsRpc .undefined
          [.str "0x0000000000000000000000000000000000000000000000000000000000000001",
           .str "0x0000000000000000000000000000000000000000000000000000000000000002"]
          90 100)).field "topics" = .arr [.null, .null, .arr topics] :=
  same_topics_filter sampleNetwork.marketplaceContract .undefined (.num 90) (.num 100)
    [.num 1, .num 2] _ _ (by decide) (by decide)

/-- C14 fails on the code: the `eth_getLogs` request sent for the new-head gap
of the sample session (recorded block 90, head `0x64`) has no `address` in its
filter.  `incoming` calls `GetPastLogs` without an `address`, so the property
is `undefined` (and left out of the text sent), while the session's contract
address is `0x698f...54c2`; `topics`, `fromBlock` and `toBlock` are there. -/
theorem gap_request_lacks_address :
    (sends (incoming quietHandler (sampleSession [.num 1, .num 2] (.num 90))
        (pushFrame "f1" "0xB" "0x64" "0x5f00") [.num 1, .num 2]).trace).map
        (fun rpc => ((getLogsFilter rpc).field "address", (getLogsFilter rpc).field "fromBlock",
          (getLogsFilter rpc).field "toBlock"))
      = [(.undefined, .str "0x5a", .str "0x64")]
    ∧ (sampleSession [.num 1, .num 2] (.num 90)).network.marketplaceContract
      = .str "0x698ff47b84837d3971118a369c570172ee7e54c2" := by
  decide

/-- C15: the three requests use fixed correlation ids and method names.  The
logs subscription is `eth_subscribe` with `id` 1 and
`params = ['logs', {address, topics}]`, the new-heads subscription is
`eth_subscribe` with `id` 2 and `params = ['newHeads']`, and the historical
query is `eth_getLogs` with `id` 3, whatever the arguments. -/
theorem request_ids_and_methods (address1 address3 fromBlock toBlock : JVal)
    (ids1 ids3 : List JVal) (rpc1 rpc3 : JVal)
    (h1 : SubscribeToLogs address1 ids1 = .ok rpc1)
    (h3 : GetPastLogs address3 fromBlock toBlock ids3 = .ok rpc3) :
    (rpc1.field "jsonrpc" = .str "2.0" ∧ rpc1.field "id" = .num 1
        ∧ rpc1.field "method" = .str "eth_subscribe"
        ∧ ∃ topics, rpc1.field "params" = .arr [.str "logs",
            .obj [("address", address1), ("topics", topics)]])
      ∧ (SubscribeToNewHeads.field "jsonrpc" = .str "2.0"
        ∧ SubscribeToNewHeads.field "id" = .num 2
        ∧ SubscribeToNewHeads.field "method" = .str "eth_subscribe"
        ∧ SubscribeToNewHeads.field "params" = .arr [.str "newHeads"])
      ∧ (rpc3.field "jsonrpc" = .str "2.0" ∧ rpc3.field "id" = .num 3
        ∧ rpc3.field "method" = .str "eth_getLogs") := by
  obtain ⟨topics, _, rfl⟩ := SubscribeToLogs_ok_inv address1 ids1 rpc1 h1
  obtain ⟨topics3, fromHex, toHex, _, _, _, rfl⟩ :=
    GetPastLogs_ok_inv address3 fromBlock toBlock ids3 rpc3 h3
  refine ⟨⟨?_, ?_, ?_, ⟨.arr [.null, .null, .arr topics], ?_⟩⟩,
    ⟨by decide, by decide, by decide, by decide⟩, ⟨?_, ?_, ?_⟩⟩
  all_goals simp [JVal.field, List.lookup]

/-- Witness for C15: the requests of the sample session over the watch set
`[1]`, with the block range 90 to 100. -/
theorem request_ids_and_methods_witness :
    ((JVal.obj [("jsonrpc", .str "2.0"), ("id", .num 1), ("method", .str "eth_subscribe"),
          ("params", .arr [.str "logs", .obj [("address", sampleNetwork.marketplaceContract),
            ("topics", .arr [.null, .null, .arr [.str
              "0x0000000000000000000000000000000000000000000000000000000000000001"]])]])]).field
          "jsonrpc" = .str "2.0"
        ∧ (JVal.obj [("jsonrpc", .str "2.0"), ("id", .num 1), ("method", .str "eth_subscribe"),
          ("params", .arr [.str "logs", .obj [("address", sampleNetwork.marketplaceContract),
            ("topics", .arr [.null, .null, .arr [.str
              "0x0000000000000000000000000000000000000000000000000000000000000001"]])]])]).field
          "id" = .num 1
        ∧ (JVal.obj [("jsonrpc", .str "2.0"), ("id", .num 1), ("method", .str "eth_subscribe"),
          ("params", .arr [.str "logs", .obj [("address", sampleNetwork.marketplaceContract),
            ("topics", .arr [.null, .null, .arr [.str
              "0x0000000000000000000000000000000000000000000000000000000000000001"]])]])]).field
          "method" = .str "eth_subscribe"
        ∧ ∃ topics,
          (JVal.obj [("jsonrpc", .str "2.0"), ("id", .num 1), ("method", .str "eth_subscribe"),
          ("params", .arr [.str "logs", .obj [("address", sampleNetwork.marketplaceContract),
            ("topics", .arr [.null, .null, .arr [.str
              "0x0000000000000000000000000000000000000000000000000000000000000001"]])]])]).field
          "params" = .arr [.str "logs",
            .obj [("address", sampleNetwork.marketplaceContract), ("topics", topics)]])
      ∧ (SubscribeToNewHeads.field "jsonrpc" = .str "2.0"
        ∧ SubscribeToNewHeads.field "id" = .num 2
        ∧ SubscribeToNewHeads.field "method" = .str "eth_subscribe"
        ∧ SubscribeToNewHeads.field "params" = .arr [.str "newHeads"])
      ∧ ((getLogsRpc .undefined
          [.str "0x0000000000000000000000000000000000000000000000000000000000000001"]
          90 100).field "jsonrpc" = .str "2.0"
        ∧ (getLogsRpc .undefined
          [.str "0x0000000000000000000000000000000000000000000000000000000000000001"]
          90 100).field "id" = .num 3
        ∧ (getLogsRpc .undefined
          [.str "0x0000000000000000000000000000000000000000000000000000000000000001"]
          90 100).field "method" = .str "eth_getLogs") :=
  request_ids_and_methods sampleNetwork.marketplaceContract .undefined (.num 90)
    (.num 100) [.num 1] [.num 1] _ _ (by decide) (by decide)

/-! ## Forwarding of logs and acknowledgments -/

theorem not_nullish_of_field (data : JVal) (key : String) (v : JVal)
    (h : data.field key = v) (hv : v ≠ .undefined) : data.nullish = false := by
  cases hn : data.nullish
  · rfl
  · rw [field_of_nullish data key hn] at h
    exact absurd h.symm hv

/-- C16, as stated, fails: a response with three logs whose handler throws on
the first.  The handler is called once, not three times. -/
theorem logs_response_cut_short :
    handlerCalls (incoming (throwingHandler "0x0")
        (sampleSession [.num 1, .num 2] (.num 90))
        (logsResponse "r2" [sampleLog "0x0", sampleLog "0x1", sampleLog "0x2"])
        [.num 1, .num 2]).trace
      = [handleLogArgs (sampleSession [.num 1, .num 2] (.num 90)) (sampleLog "0x0")]
    ∧ (handlerCalls (incoming (throwingHandler "0x0")
        (sampleSession [.num 1, .num 2] (.num 90))
        (logsResponse "r2" [sampleLog "0x0", sampleLog "0x1", sampleLog "0x2"])
        [.num 1, .num 2]).trace).length ≠ 3 := by
  decide

/-- C16, amended: for a response with `id` 3 whose `result` is a list of `k`
logs (watch set unchanged), provided no call of the handler throws before
returning, the handler is called exactly `k` times, once per log in list
order, each time with that log and the session's `networkId`, contract
address and contract version; `lastBlock`, `logs` and `heads` keep their
values, and the run does not raise. -/
theorem logs_response_forwards_all (handleLog : HandleLogArgs → CallResult) (st : Session)
    (raw : RawFrame) (latest : List JVal) (data : JVal) (logs : List JVal)
    (hl : latest = st.listingIds) (hp : raw.parsed = some data)
    (hid : data.field "id" = .num 3) (hres : data.field "result" = .arr logs)
    (hq : ∀ l ∈ logs, ∀ e, handleLog (handleLogArgs st l) ≠ .threw e) :
    handlerCalls (incoming handleLog st raw latest).trace
        = logs.map (fun l => HandleLogArgs.mk l st.network.marketplaceContract
            st.network.networkId st.network.marketplaceVersion)
      ∧ (handlerCalls (incoming handleLog st raw latest).trace).length = logs.length
      ∧ (incoming handleLog st raw latest).session.lastBlock = st.lastBlock
      ∧ (incoming handleLog st raw latest).session.logs = st.logs
      ∧ (incoming handleLog st raw latest).session.heads = st.heads
      ∧ (incoming handleLog st raw latest).raised = none := by
  rw [incoming_logsResponse handleLog st raw latest data logs hl hp hid hres,
    forwardLogs_no_throw handleLog st logs hq]
  have hc : handlerCalls (repeatNotice st raw ++ (Effect.log (.gotUnhandledLogs
      (.num logs.length)) :: logs.map (fun l => Effect.handleLog (handleLogArgs st l))))
      = logs.map (handleLogArgs st) := by
    simp only [handlerCalls_append, handlerCalls_repeatNotice, List.nil_append]
    have := handlerCalls_map st logs
    simpa [handlerCalls] using this
  refine ⟨?_, ?_, rfl, rfl, rfl, rfl⟩
  · rw [hc]; rfl
  · rw [hc]; simp

/-- Witness for the amended C16: a response with three logs and a handler
that returns. -/
theorem logs_response_forwards_all_witness :
    (handlerCalls (incoming quietHandler (sampleSession [.num 1, .num 2] (.num 90))
        (logsResponse "r2" [sampleLog "0x0", sampleLog "0x1", sampleLog "0x2"])
        [.num 1, .num 2]).trace).length = 3 :=
  (logs_response_forwards_all quietHandler (sampleSession [.num 1, .num 2] (.num 90))
    (logsResponse "r2" [sampleLog "0x0", sampleLog "0x1", sampleLog "0x2"])
    [.num 1, .num 2] _ [sampleLog "0x0", sampleLog "0x1", sampleLog "0x2"]
    rfl rfl (by decide) (by decide)
    (by intro l _ e; simp [quietHandler])).2.1

/-- C17: a frame whose `id` is none of 1, 2, 3 and whose
`params.subscription` is the recorded logs subscription id (watch set
unchanged) makes exactly one handler call, with `params.result` and the
session's `networkId`, contract address and contract version, sends no
request, makes no upsert, and leaves `lastBlock`, `logs` and `heads` alone. -/
theorem log_push_forwards_once (handleLog : HandleLogArgs → CallResult) (st : Session)
    (raw : RawFrame) (latest : List JVal) (data : JVal)
    (hl : latest = st.listingIds) (hp : raw.parsed = some data)
    (h0 : data.nullish = false)
    (h1 : strictEq (data.field "id") (.num 1) = false)
    (h2 : strictEq (data.field "id") (.num 2) = false)
    (h3 : strictEq (data.field "id") (.num 3) = false)
    (hrec : st.logs ≠ .undefined)
    (hsub : strictEq (get data "params" "subscription") st.logs = true) :
    handlerCalls (incoming handleLog st raw latest).trace
        = [HandleLogArgs.mk (pushResult data) st.network.marketplaceContract
            st.network.networkId st.network.marketplaceVersion]
      ∧ sends (incoming handleLog st raw latest).trace = []
      ∧ upserts (incoming handleLog st raw latest).trace = []
      ∧ (incoming handleLog st raw latest).session.lastBlock = st.lastBlock
      ∧ (incoming handleLog st raw latest).session.logs = st.logs
      ∧ (incoming handleLog st raw latest).session.heads = st.heads := by
  have hpn : (data.field "params").nullish = false := by
    cases hn : (data.field "params").nullish
    · rfl
    · exfalso
      have hg : get data "params" "subscription" = .undefined := by
        simp [get, h0, hn]
      rw [hg] at hsub
      cases hlogs : st.logs <;> simp_all [strictEq]
  have hd : dispatch handleLog (markHandled st raw) data =
      match handleLog (handleLogArgs st (pushResult data)) with
      | .threw e => ⟨markHandled st raw, [.handleLog (handleLogArgs st (pushResult data))],
          some e⟩
      | _ => ⟨markHandled st raw, [.handleLog (handleLogArgs st (pushResult data))], none⟩ := by
    rw [dispatch_eq handleLog (markHandled st raw) data h0]
    have hsub2 : strictEq (get data "params" "subscription") (markHandled st raw).logs
        = true := hsub
    simp only [h1, h2, h3, hsub2, Bool.false_eq_true, if_false, if_true, JVal.prop, hpn]
    rfl
  have hi : incoming handleLog st raw latest =
      ⟨(dispatch handleLog (markHandled st raw) data).session,
        repeatNotice st raw ++ (dispatch handleLog (markHandled st raw) data).trace,
        (dispatch handleLog (markHandled st raw) data).raised⟩ := by
    simp [incoming, hl, hp]
  rw [hi, hd]
  simp only [handlerCalls_append, handlerCalls_repeatNotice, sends_append,
    sends_repeatNotice, upserts_append, upserts_repeatNotice, List.nil_append]
  cases handleLog (handleLogArgs st (pushResult data)) <;>
    exact ⟨rfl, rfl, rfl, rfl, rfl, rfl⟩

/-- Witness for C17: a push on the logs subscription `0xA` of the sample
session. -/
theorem log_push_forwards_once_witness :
    handlerCalls (incoming quietHandler (sampleSession [.num 1, .num 2] (.num 90))
        (logPushFrame "p1" "0xA" (sampleLog "0x7")) [.num 1, .num 2]).trace
        = [HandleLogArgs.mk (sampleLog "0x7") sampleNetwork.marketplaceContract
            sampleNetwork.networkId sampleNetwork.marketplaceVersion]
      ∧ sends (incoming quietHandler (sampleSession [.num 1, .num 2] (.num 90))
        (logPushFrame "p1" "0xA" (sampleLog "0x7")) [.num 1, .num 2]).trace = [] :=
  ⟨(log_push_forwards_once quietHandler (sampleSession [.num 1, .num 2] (.num 90))
      (logPushFrame "p1" "0xA" (sampleLog "0x7")) [.num 1, .num 2] _ rfl rfl
      (by decide) (by decide) (by decide) (by decide) (by decide) (by decide)).1,
    (log_push_forwards_once quietHandler (sampleSession [.num 1, .num 2] (.num 90))
      (logPushFrame "p1" "0xA" (sampleLog "0x7")) [.num 1, .num 2] _ rfl rfl
      (by decide) (by decide) (by decide) (by decide) (by decide) (by decide)).2.1⟩

/-- C18: an acknowledgment records the frame's `result` as the matching
subscription id and changes nothing else.  With `id` 1, `logs` becomes
`data.result`; with `id` 2, `heads` becomes `data.result`; the other id and
`lastBlock` keep their values, no handler call, no request and no upsert is
made and the run does not raise, whatever else the frame carries (a
`params.subscription` included). -/
theorem ack_records_subscription (handleLog : HandleLogArgs → CallResult) (st : Session)
    (raw : RawFrame) (latest : List JVal) (data : JVal)
    (hl : latest = st.listingIds) (hp : raw.parsed = some data)
    (hid : data.field "id" = .num 1 ∨ data.field "id" = .num 2) :
    (data.field "id" = .num 1 →
        (incoming handleLog st raw latest).session
          = { markHandled st raw with logs := data.field "result" })
      ∧ (data.field "id" = .num 2 →
        (incoming handleLog st raw latest).session
          = { markHandled st raw with heads := data.field "result" })
      ∧ (incoming handleLog st raw latest).session.lastBlock = st.lastBlock
      ∧ (incoming handleLog st raw latest).trace = repeatNotice st raw
      ∧ handlerCalls (incoming handleLog st raw latest).trace = []
      ∧ sends (incoming handleLog st raw latest).trace = []
      ∧ upserts (incoming handleLog st raw latest).trace = []
      ∧ (incoming handleLog st raw latest).raised = none := by
  have h0 : data.nullish = false := by
    rcases hid with h | h
    · exact not_nullish_of_field data "id" _ h (by simp)
    · exact not_nullish_of_field data "id" _ h (by simp)
  have hi : incoming handleLog st raw latest =
      ⟨(dispatch handleLog (markHandled st raw) data).session,
        repeatNotice st raw ++ (dispatch handleLog (markHandled st raw) data).trace,
        (dispatch handleLog (markHandled st raw) data).raised⟩ := by
    simp [incoming, hl, hp]
  rcases hid with h | h
  · have hd : dispatch handleLog (markHandled st raw) data =
        ⟨{ markHandled st raw with logs := data.field "result" }, [], none⟩ := by
      rw [dispatch_eq handleLog (markHandled st raw) data h0, h]
      rfl
    rw [hi, hd]
    refine ⟨fun _ => rfl, ?_, rfl, List.append_nil _, ?_, ?_, ?_, rfl⟩
    · intro h2
      rw [h] at h2
      cases h2
    · rw [List.append_nil]; exact handlerCalls_repeatNotice st raw
    · rw [List.append_nil]; exact sends_repeatNotice st raw
    · rw [List.append_nil]; exact upserts_repeatNotice st raw
  · have hd : dispatch handleLog (markHandled st raw) data =
        ⟨{ markHandled st raw with heads := data.field "result" }, [], none⟩ := by
      rw [dispatch_eq handleLog (markHandled st raw) data h0, h]
      rfl
    rw [hi, hd]
    refine ⟨?_, fun _ => rfl, rfl, List.append_nil _, ?_, ?_, ?_, rfl⟩
    · intro h2
      rw [h] at h2
      cases h2
    · rw [List.append_nil]; exact handlerCalls_repeatNotice st raw
    · rw [List.append_nil]; exact sends_repeatNotice st raw
    · rw [List.append_nil]; exact upserts_repeatNotice st raw

/-- Witness for C18: the acknowledgment `{id: 1, result: "0xC"}`, carrying a
`params.subscription` as well, handled by the sample session. -/
theorem ack_records_subscription_witness :
    (incoming quietHandler (sampleSession [.num 1, .num 2] (.num 90))
        (ackFrame "a1" 1 "0xC") [.num 1, .num 2]).session
      = { markHandled (sampleSession [.num 1, .num 2] (.num 90)) (ackFrame "a1" 1 "0xC")
          with logs := .str "0xC" }
    ∧ handlerCalls (incoming quietHandler (sampleSession [.num 1, .num 2] (.num 90))
        (ackFrame "a1" 1 "0xC") [.num 1, .num 2]).trace = [] :=
  ⟨(ack_records_subscription quietHandler (sampleSession [.num 1, .num 2] (.num 90))
      (ackFrame "a1" 1 "0xC") [.num 1, .num 2] _ rfl rfl (Or.inl (by decide))).1
      (by decide),
    (ack_records_subscription quietHandler (sampleSession [.num 1, .num 2] (.num 90))
      (ackFrame "a1" 1 "0xC") [.num 1, .num 2] _ rfl rfl
      (Or.inl (by decide))).2.2.2.2.1⟩

/-! ## Unrecognised frames -/

theorem strictEq_undefined_left (v : JVal) (hv : v ≠ .undefined) :
    strictEq .undefined v = false := by
  cases v <;> simp_all [strictEq]

/-- Once both subscription ids are recorded, a frame whose `id` is none of 1,
2, 3 and which has no `params.subscription` is logged as unknown and
dropped. -/
theorem unknown_frame_discarded (handleLog : HandleLogArgs → CallResult) (st : Session)
    (raw : RawFrame) (latest : List JVal) (data : JVal)
    (hl : latest = st.listingIds) (hp : raw.parsed = some data)
    (h0 : data.nullish = false)
    (h1 : strictEq (data.field "id") (.num 1) = false)
    (h2 : strictEq (data.field "id") (.num 2) = false)
    (h3 : strictEq (data.field "id") (.num 3) = false)
    (hsub : get data "params" "subscription" = .undefined)
    (hlogs : st.logs ≠ .undefined) (hheads : st.heads ≠ .undefined) :
    incoming handleLog st raw latest =
      ⟨markHandled st raw, repeatNotice st raw ++ [.log .unknownMessage], none⟩ := by
  have hd : dispatch handleLog (markHandled st raw) data =
      ⟨markHandled st raw, [.log .unknownMessage], none⟩ := by
    rw [dispatch_eq handleLog (markHandled st raw) data h0]
    have e1 : strictEq (get data "params" "subscription") (markHandled st raw).logs = false := by
      rw [hsub]; exact strictEq_undefined_left _ hlogs
    have e2 : strictEq (get data "params" "subscription") (markHandled st raw).heads = false := by
      rw [hsub]; exact strictEq_undefined_left _ hheads
    simp only [h1, h2, h3, e1, e2, Bool.false_eq_true, if_false]
  simp [incoming, hl, hp, hd]

/-- C19 fails on the code in the states where a subscription id is not yet
recorded, because `undefined === undefined` holds.  In the session as
`connectWS` leaves it, a notification with `params` but no
`params.subscription` is forwarded to the handler, and an error response with
`id: null` and no `params` makes the run raise a `TypeError` instead of being
logged and dropped.  With only the logs id recorded, such a notification whose
`result` looks like a block header is taken for a new head: the recorded block
moves from 90 to 100 and 100 is upserted. -/
theorem unrecorded_ids_match_stray_frames :
    freshSession.logs = .undefined ∧ freshSession.heads = .undefined
      ∧ handlerCalls (incoming quietHandler freshSession
          (strayNotification "s1" (sampleLog "0x0")) [.num 1, .num 2]).trace
        = [handleLogArgs freshSession (sampleLog "0x0")]
      ∧ (incoming quietHandler freshSession (errorResponse "e1") [.num 1, .num 2]).raised
        = some .typeError
      ∧ (incoming quietHandler { freshSession with logs := .str "0xA" }
          (strayNotification "s2"
            (.obj [("number", .str "0x64"), ("timestamp", .str "0x5f00")]))
          [.num 1, .num 2]).session.lastBlock = .num 100
      ∧ upserts (incoming quietHandler { freshSession with logs := .str "0xA" }
          (strayNotification "s2"
            (.obj [("number", .str "0x64"), ("timestamp", .str "0x5f00")]))
          [.num 1, .num 2]).trace = [(.num 4, .num 100)] := by
  decide

/-! ## The duplicate check -/

theorem forwardLogs_handled (handleLog : HandleLogArgs → CallResult) (st : Session)
    (handled : List String) (logs : List JVal) :
    forwardLogs handleLog { st with handled := handled } logs
      = forwardLogs handleLog st logs := by
  induction logs with
  | nil => rfl
  | cons l rest ih => unfold forwardLogs; rw [ih]; rfl

/-- The new-heads branch does not read `handled`. -/
theorem onNewHead_handled (st : Session) (handled : List String) (data : JVal) :
    onNewHead { st with handled := handled } data
      = ⟨{ (onNewHead st data).session with handled := handled },
          (onNewHead st data).trace, (onNewHead st data).raised⟩ := by
  unfold onNewHead
  simp only
  cases (data.field "params").prop "result" with
  | error e => rfl
  | ok head =>
    simp only
    cases handleNewHead head st.network.networkId with
    | error e => rfl
    | ok p =>
      obtain ⟨number, t1⟩ := p
      simp only
      split
      · rfl
      · split
        · cases GetPastLogs .undefined st.lastBlock number st.listingIds <;> rfl
        · rfl

/-- The classification of a frame does not read `handled`. -/
theorem dispatch_handled (handleLog : HandleLogArgs → CallResult) (st : Session)
    (handled : List String) (data : JVal) :
    dispatch handleLog { st with handled := handled } data
      = ⟨{ (dispatch handleLog st data).session with handled := handled },
          (dispatch handleLog st data).trace, (dispatch handleLog st data).raised⟩ := by
  cases h0 : data.nullish
  swap
  · simp [dispatch, JVal.prop, h0]
  rw [dispatch_eq handleLog st data h0, dispatch_eq handleLog _ data h0]
  simp only
  split
  · rfl
  · split
    · rfl
    · split
      · cases (data.field "result").prop "length" with
        | error e => rfl
        | ok length =>
          simp only
          split
          · rw [forwardLogs_handled]
          · rfl
      · split
        · cases (data.field "params").prop "result" with
          | error e => rfl
          | ok result =>
            simp only
            have ha : handleLogArgs { st with handled := handled } result
                = handleLogArgs st result := rfl
            rw [ha]
            cases handleLog (handleLogArgs st result) <;> rfl
        · split
          · exact onNewHead_handled st handled data
          · rfl

theorem dispatch_keeps_handled (handleLog : HandleLogArgs → CallResult) (st : Session)
    (data : JVal) : (dispatch handleLog st data).session.handled = st.handled := by
  have h := dispatch_handled handleLog st st.handled data
  have hst : { st with handled := st.handled } = st := by cases st; rfl
  rw [hst] at h
  have h2 := congrArg (fun r => r.session.handled) h
  exact h2

theorem forwardLogs_not_notice (handleLog : HandleLogArgs → CallResult) (st : Session)
    (logs : List JVal) :
    Effect.log .ignoringRepeated ∉ (forwardLogs handleLog st logs).1 := by
  induction logs with
  | nil => simp [forwardLogs]
  | cons l rest ih =>
    unfold forwardLogs
    cases handleLog (handleLogArgs st l) <;> simp [ih]

theorem handleNewHead_not_notice (head networkId number : JVal) (t1 : List Effect)
    (h : handleNewHead head networkId = .ok (number, t1)) :
    Effect.log .ignoringRepeated ∉ t1 := by
  unfold handleNewHead at h
  split at h
  · cases h
  · split at h
    · cases h
    · split at h
      · cases h
      · cases h
        simp

theorem onNewHead_not_notice (st : Session) (data : JVal) :
    Effect.log .ignoringRepeated ∉ (onNewHead st data).trace := by
  unfold onNewHead
  cases (data.field "params").prop "result" with
  | error e => simp
  | ok head =>
    simp only
    cases hh : handleNewHead head st.network.networkId with
    | error e => simp
    | ok p =>
      obtain ⟨number, t1⟩ := p
      have h1 := handleNewHead_not_notice head st.network.networkId number t1 hh
      simp only
      split
      · simp [h1]
      · split
        · cases GetPastLogs .undefined st.lastBlock number st.listingIds <;> simp [h1]
        · exact h1

theorem dispatch_not_notice (handleLog : HandleLogArgs → CallResult) (st : Session)
    (data : JVal) :
    Effect.log .ignoringRepeated ∉ (dispatch handleLog st data).trace := by
  unfold dispatch
  cases data.prop "id" with
  | error e => simp
  | ok id =>
    simp only
    split
    · simp
    · split
      · simp
      · split
        · cases (data.field "result").prop "length" with
          | error e => simp
          | ok length =>
            simp only
            split
            · simp [forwardLogs_not_notice]
            · simp
        · split
          · cases (data.field "params").prop "result" with
            | error e => simp
            | ok result =>
              simp only
              cases handleLog (handleLogArgs st result) <;> simp
          · split
            · exact onNewHead_not_notice st data
            · simp

/-- The listener with another `handled` map: the run differs in the duplicate
notice and in `handled` itself, and in nothing else; the notice is written
nowhere else in the run. -/
theorem incoming_handled (handleLog : HandleLogArgs → CallResult) (st : Session)
    (raw : RawFrame) (latest : List JVal) (handled2 : List String) :
    ∃ rest session,
      incoming handleLog st raw latest
          = ⟨session, repeatNotice st raw ++ rest, (incoming handleLog st raw latest).raised⟩
        ∧ incoming handleLog { st with handled := handled2 } raw latest
          = ⟨{ session with handled := raw.sha3 :: handled2 },
              repeatNotice { st with handled := handled2 } raw ++ rest,
              (incoming handleLog st raw latest).raised⟩
        ∧ session.handled = raw.sha3 :: st.handled
        ∧ Effect.log .ignoringRepeated ∉ rest := by
  unfold incoming
  by_cases hl : latest = st.listingIds
  · have hl2 : latest = ({ st with handled := handled2 } : Session).listingIds := hl
    simp only [ne_eq, hl, hl2, not_true_eq_false, if_false]
    cases raw.parsed with
    | none => exact ⟨[], markHandled st raw, by simp, by simp [markHandled], rfl, by simp⟩
    | some data =>
      simp only
      have hm : markHandled { st with handled := handled2 } raw
          = { markHandled st raw with handled := raw.sha3 :: handled2 } := rfl
      rw [hm, dispatch_handled handleLog (markHandled st raw) (raw.sha3 :: handled2) data]
      exact ⟨_, _, rfl, rfl, dispatch_keeps_handled handleLog (markHandled st raw) data,
        dispatch_not_notice handleLog (markHandled st raw) data⟩
  · have hl2 : ¬ latest = ({ st with handled := handled2 } : Session).listingIds := hl
    simp only [ne_eq, hl, hl2, not_false_eq_true, if_true]
    exact ⟨_, markHandled st raw, rfl, rfl, rfl, by simp⟩

/-- C20: the duplicate check flags but does not suppress.  The run of a
frame starts with the line `Ignoring repeated ws message` exactly when the
hash of the frame is in the seen-frame cache, and the line is written nowhere
else, so it is written once for a repeat and not at all otherwise.  What
follows it is the same for any other content of the cache (the hash present
or absent): the same effects in the same order, hence the same handler calls,
requests, upserts and restarts, the same exception if any, and the same
session variables apart from the cache; and after handling any frame its hash
is in the cache. -/
theorem dedup_flags_only (handleLog : HandleLogArgs → CallResult) (st : Session)
    (raw : RawFrame) (latest : List JVal) (handled2 : List String) :
    (∃ rest, (incoming handleLog st raw latest).trace
          = (if raw.sha3 ∈ st.handled then [Effect.log .ignoringRepeated] else []) ++ rest
        ∧ (incoming handleLog { st with handled := handled2 } raw latest).trace
          = (if raw.sha3 ∈ handled2 then [Effect.log .ignoringRepeated] else []) ++ rest
        ∧ Effect.log .ignoringRepeated ∉ rest)
      ∧ (incoming handleLog st raw latest).trace.count (Effect.log .ignoringRepeated)
        = (if raw.sha3 ∈ st.handled then 1 else 0)
      ∧ handlerCalls (incoming handleLog { st with handled := handled2 } raw latest).trace
        = handlerCalls (incoming handleLog st raw latest).trace
      ∧ sends (incoming handleLog { st with handled := handled2 } raw latest).trace
        = sends (incoming handleLog st raw latest).trace
      ∧ upserts (incoming handleLog { st with handled := handled2 } raw latest).trace
        = upserts (incoming handleLog st raw latest).trace
      ∧ restarts (incoming handleLog { st with handled := handled2 } raw latest).trace
        = restarts (incoming handleLog st raw latest).trace
      ∧ (incoming handleLog { st with handled := handled2 } raw latest).raised
        = (incoming handleLog st raw latest).raised
      ∧ (incoming handleLog { st with handled := handled2 } raw latest).session.lastBlock
        = (incoming handleLog st raw latest).session.lastBlock
      ∧ (incoming handleLog { st with handled := handled2 } raw latest).session.logs
        = (incoming handleLog st raw latest).session.logs
      ∧ (incoming handleLog { st with handled := handled2 } raw latest).session.heads
        = (incoming handleLog st raw latest).session.heads
      ∧ (incoming handleLog { st with handled := handled2 } raw latest).session.listingIds
        = (incoming handleLog st raw latest).session.listingIds
      ∧ raw.sha3 ∈ (incoming handleLog st raw latest).session.handled
      ∧ raw.sha3 ∈ (incoming handleLog { st with handled := handled2 } raw latest).session.handled
      := by
  obtain ⟨rest, session, h1, h2, h3, h4⟩ := incoming_handled handleLog st raw latest handled2
  have e1 : (incoming handleLog st raw latest).trace = repeatNotice st raw ++ rest := by
    rw [h1]
  have e2 : (incoming handleLog { st with handled := handled2 } raw latest).trace
      = repeatNotice { st with handled := handled2 } raw ++ rest := by
    rw [h2]
  have e3 : (incoming handleLog st raw latest).session = session := by rw [h1]
  have e4 : (incoming handleLog { st with handled := handled2 } raw latest).session
      = { session with handled := raw.sha3 :: handled2 } := by rw [h2]
  refine ⟨⟨rest, e1, e2, h4⟩, ?_, ?_, ?_, ?_, ?_, ?_, ?_, ?_, ?_, ?_, ?_, ?_⟩
  · rw [e1, List.count_append, List.count_eq_zero_of_not_mem h4]
    unfold repeatNotice
    split <;> simp
  · rw [e1, e2]
    simp only [handlerCalls_append, handlerCalls_repeatNotice]
  · rw [e1, e2]
    simp only [sends_append, sends_repeatNotice]
  · rw [e1, e2]
    simp only [upserts_append, upserts_repeatNotice]
  · rw [e1, e2]
    simp only [restarts_append, restarts_repeatNotice]
  · rw [h2]
  · rw [e3, e4]
  · rw [e3, e4]
  · rw [e3, e4]
  · rw [e3, e4]
  · rw [e3, h3]
    exact List.mem_cons_self _ _
  · rw [e4]
    exact List.mem_cons_self _ _

/-- Witness for C20: the same log push delivered twice to one session.  The
second run writes the notice and then calls the handler again, with the same
argument as the first run. -/
theorem dedup_flags_only_witness :
    (incoming quietHandler (sampleSession [.num 1, .num 2] (.num 90))
        (logPushFrame "p1" "0xA" (sampleLog "0x7")) [.num 1, .num 2]).trace
      = [.handleLog (handleLogArgs (sampleSession [.num 1, .num 2] (.num 90))
          (sampleLog "0x7"))]
    ∧ (incoming quietHandler
        (incoming quietHandler (sampleSession [.num 1, .num 2] (.num 90))
          (logPushFrame "p1" "0xA" (sampleLog "0x7")) [.num 1, .num 2]).session
        (logPushFrame "p1" "0xA" (sampleLog "0x7")) [.num 1, .num 2]).trace
      = [.log .ignoringRepeated,
         .handleLog (handleLogArgs (sampleSession [.num 1, .num 2] (.num 90))
          (sampleLog "0x7"))]
    ∧ (incoming quietHandler
        (incoming quietHandler (sampleSession [.num 1, .num 2] (.num 90))
          (logPushFrame "p1" "0xA" (sampleLog "0x7")) [.num 1, .num 2]).session
        (logPushFrame "p1" "0xA" (sampleLog "0x7")) [.num 1, .num 2]).trace.count
          (Effect.log .ignoringRepeated)
      = (if (logPushFrame "p1" "0xA" (sampleLog "0x7")).sha3
            ∈ (incoming quietHandler (sampleSession [.num 1, .num 2] (.num 90))
                (logPushFrame "p1" "0xA" (sampleLog "0x7")) [.num 1, .num 2]).session.handled
          then 1 else 0) :=
  ⟨by decide, by decide,
    (dedup_flags_only quietHandler
      (incoming quietHandler (sampleSession [.num 1, .num 2] (.num 90))
        (logPushFrame "p1" "0xA" (sampleLog "0x7")) [.num 1, .num 2]).session
      (logPushFrame "p1" "0xA" (sampleLog "0x7")) [.num 1, .num 2] []).2.1⟩

/-! ## The watch-set tracker -/

/-- C21, as stated, fails: for the shops of network 4 with listing ids
`4-000-5`, `4-001-5` and `legacy`, `getListingIds` returns the identifier `5`
twice and an `undefined`. -/
theorem watch_set_with_duplicate_and_undefined :
    getListingIds sampleShops sampleNetwork = [.str "5", .str "5", .undefined]
      ∧ ¬ (getListingIds sampleShops sampleNetwork).Nodup
      ∧ JVal.undefined ∈ getListingIds sampleShops sampleNetwork := by
  have h : getListingIds sampleShops sampleNetwork = [.str "5", .str "5", .undefined] := by
    decide
  rw [h]
  refine ⟨rfl, by decide, by decide⟩

/-- C21, amended: the watch set has one entry per distinct non-null listing
id among the shops of the network, the third `-`-separated part of that
listing id.  It never contains `null`; it contains no `undefined` when every
such listing id has at least three parts, and no identifier twice when
distinct listing ids have distinct third parts. -/
theorem watch_set_of_listing_ids (shops : List ShopRow) (network : Network) :
    getListingIds shops network = (listingIdGroups shops network).map thirdPart
      ∧ (listingIdGroups shops network).Nodup
      ∧ (∀ id, id ∈ listingIdGroups shops network ↔
          ∃ shop ∈ shops, shop.networkId = network.networkId ∧ shop.listingId = some id)
      ∧ JVal.null ∉ getListingIds shops network
      ∧ ((∀ id ∈ listingIdGroups shops network, thirdPart id ≠ .undefined) →
          JVal.undefined ∉ getListingIds shops network)
      ∧ ((∀ a ∈ listingIdGroups shops network, ∀ b ∈ listingIdGroups shops network,
            thirdPart a = thirdPart b → a = b) →
          (getListingIds shops network).Nodup) := by
  refine ⟨rfl, List.nodup_dedup _, ?_, ?_, ?_, ?_⟩
  · intro id
    simp only [listingIdGroups, List.mem_dedup, List.mem_filterMap, List.mem_filter,
      decide_eq_true_eq]
    constructor
    · rintro ⟨shop, ⟨hs, hn⟩, hid⟩
      exact ⟨shop, hs, hn, hid⟩
    · rintro ⟨shop, hs, hn, hid⟩
      exact ⟨shop, ⟨hs, hn⟩, hid⟩
  · intro hmem
    simp only [getListingIds, List.mem_map] at hmem
    obtain ⟨id, _, hid⟩ := hmem
    unfold thirdPart at hid
    split at hid <;> cases hid
  · intro hdef hmem
    simp only [getListingIds, List.mem_map] at hmem
    obtain ⟨id, hin, hid⟩ := hmem
    exact hdef id hin hid
  · intro hinj
    unfold getListingIds
    exact List.Nodup.map_on (fun a ha b hb hab => hinj a ha b hb hab) (List.nodup_dedup _)

/-- Witness for the amended C21: shops whose listing ids are well formed and
of one contract version give the watch set `[7, 5]`, without repetition. -/
theorem watch_set_of_listing_ids_witness :
    getListingIds tidyShops sampleNetwork = [.str "7", .str "5"]
      ∧ (getListingIds tidyShops sampleNetwork).Nodup :=
  ⟨by decide,
    (watch_set_of_listing_ids tidyShops sampleNetwork).2.2.2.2.2 (by decide)⟩

/-! ## Liveness timer and session start -/

/-- C22 fails on the code.  A session on socket 0 has armed its liveness timer
(timer 7) when `connectWS` is called again and constructs socket 1.  The call
closes socket 0, but the `clearTimeout` it makes is on its own, still unset
`pingTimeout`, so timer 7 stays pending; when it fires, its callback calls
`ws.reconnect()` on the module-level socket, which is now socket 1 of the new
session. -/
theorem superseded_timer_still_fires :
    (heartbeat none 7).1 = some 7
      ∧ ((Runtime.mk (some 0) [] []).run (heartbeat none 7).2).pending = [7]
      ∧ actions (connectWS (some 0) 1 sampleNetwork [.num 1, .num 2, .num 3]
          (some (.num 90))).2.2
        = [.clearTimeout none, .wsClose 0, .wsNew 1 sampleNetwork.providerWs]
      ∧ (((Runtime.mk (some 0) [] []).run (heartbeat none 7).2).run
          (connectWS (some 0) 1 sampleNetwork [.num 1, .num 2, .num 3]
            (some (.num 90))).2.2)
        = Runtime.mk (some 1) [0] [7]
      ∧ ((Runtime.mk (some 1) [0] [7]).fire 7).2
        = [.log .wsPingTimeout, .wsReconnect (some 1)] := by
  decide

/-- C23: on the `open` event of a session whose watch set encodes, exactly
two requests are sent, the logs subscription (built from the session's
contract address and watch set) first and the new-heads subscription second,
and the liveness timer is armed: the timer `setTimeout` returns becomes the
session's `pingTimeout` and is pending afterwards. -/
theorem open_subscribes_and_arms (st : Session) (pingTimeout : Option Nat) (timer : Nat)
    (rt : Runtime) (topics : List JVal)
    (hw : listingTopics st.listingIds = .ok topics) :
    sends (onOpen st pingTimeout timer).2.1
        = [.obj [("jsonrpc", .str "2.0"), ("id", .num 1), ("method", .str "eth_subscribe"),
            ("params", .arr [.str "logs",
              .obj [("address", st.network.marketplaceContract),
                ("topics", .arr [.null, .null, .arr topics])]])],
           SubscribeToNewHeads]
      ∧ SubscribeToLogs st.network.marketplaceContract st.listingIds
        = .ok (.obj [("jsonrpc", .str "2.0"), ("id", .num 1), ("method", .str "eth_subscribe"),
            ("params", .arr [.str "logs",
              .obj [("address", st.network.marketplaceContract),
                ("topics", .arr [.null, .null, .arr topics])]])])
      ∧ (onOpen st pingTimeout timer).2.2 = none
      ∧ (onOpen st pingTimeout timer).1 = some timer
      ∧ Effect.setTimeout timer 35000 ∈ (onOpen st pingTimeout timer).2.1
      ∧ timer ∈ (rt.run (onOpen st pingTimeout timer).2.1).pending := by
  have hs := SubscribeToLogs_ok st.network.marketplaceContract st.listingIds topics hw
  have ho : onOpen st pingTimeout timer =
      (some timer, [.log .wsOpen, .clearTimeout pingTimeout, .setTimeout timer 35000,
        .wsOnPing, .send (.obj [("jsonrpc", .str "2.0"), ("id", .num 1),
          ("method", .str "eth_subscribe"),
          ("params", .arr [.str "logs",
            .obj [("address", st.network.marketplaceContract),
              ("topics", .arr [.null, .null, .arr topics])]])]),
        .send SubscribeToNewHeads], none) := by
    simp only [onOpen, hs, heartbeat]
    rfl
  rw [ho]
  refine ⟨by simp [sends], hs, rfl, rfl, by simp, ?_⟩
  cases pingTimeout <;> simp [Runtime.run, Runtime.apply]

/-- Witness for C23: the sample session opens. -/
theorem open_subscribes_and_arms_witness :
    sends (onOpen (sampleSession [.num 1, .num 2] (.num 90)) none 7).2.1
        = [.obj [("jsonrpc", .str "2.0"), ("id", .num 1), ("method", .str "eth_subscribe"),
            ("params", .arr [.str "logs",
              .obj [("address", sampleNetwork.marketplaceContract),
                ("topics", .arr [.null, .null, .arr
                  [.str "0x0000000000000000000000000000000000000000000000000000000000000001",
                   .str "0x0000000000000000000000000000000000000000000000000000000000000002"
                  ]])]])],
           SubscribeToNewHeads] :=
  (open_subscribes_and_arms (sampleSession [.num 1, .num 2] (.num 90)) none 7
    (Runtime.mk (some 0) [] [])
    [.str "0x0000000000000000000000000000000000000000000000000000000000000001",
     .str "0x0000000000000000000000000000000000000000000000000000000000000002"]
    (by decide)).1

theorem run_heartbeat (rt : Runtime) (pingTimeout : Option Nat) (timer : Nat) :
    rt.run (heartbeat pingTimeout timer).2
      = { rt with pending := timer :: (match pingTimeout with
            | some old => rt.pending.filter (· ≠ old)
            | none => rt.pending) } := by
  cases pingTimeout <;> rfl

theorem run_onPing (rt : Runtime) (pingTimeout : Option Nat) (timer : Nat) :
    rt.run (onPing pingTimeout timer).2 = rt.run (heartbeat pingTimeout timer).2 := by
  cases pingTimeout <;> rfl

theorem run_onOpen (st : Session) (rt : Runtime) (pingTimeout : Option Nat) (timer : Nat) :
    rt.run (onOpen st pingTimeout timer).2.1 = rt.run (heartbeat pingTimeout timer).2 := by
  unfold onOpen
  cases SubscribeToLogs st.network.marketplaceContract st.listingIds <;>
    cases pingTimeout <;> rfl

theorem onOpen_pingTimeout (st : Session) (pingTimeout : Option Nat) (timer : Nat) :
    (onOpen st pingTimeout timer).1 = some timer := by
  unfold onOpen
  cases SubscribeToLogs st.network.marketplaceContract st.listingIds <;> rfl

theorem timerCalls_onOpen (st : Session) (pingTimeout : Option Nat) (timer : Nat) :
    timerCalls (onOpen st pingTimeout timer).2.1
      = [.clearTimeout pingTimeout, .setTimeout timer 35000] := by
  unfold onOpen
  cases SubscribeToLogs st.network.marketplaceContract st.listingIds <;> rfl

/-- The state of the timers of a session: none is pending, or the one held in
`pingTimeout` is. -/
theorem liveStep_invariant (s : Live) (e : LiveEvent)
    (h : s.runtime.pending = [] ∨ ∃ t, s.runtime.pending = [t] ∧ s.pingTimeout = some t) :
    (liveStep s e).runtime.pending = []
      ∨ ∃ t, (liveStep s e).runtime.pending = [t] ∧ (liveStep s e).pingTimeout = some t := by
  have hb : ∀ timer, (s.runtime.run (heartbeat s.pingTimeout timer).2).pending = [timer] := by
    intro timer
    rw [run_heartbeat]
    rcases h with h | ⟨t, h, hpt⟩
    · cases hp : s.pingTimeout <;> simp [h]
    · simp [hpt, h]
  cases e with
  | opened timer =>
    right
    refine ⟨timer, ?_, onOpen_pingTimeout _ _ _⟩
    show (s.runtime.run (onOpen s.session s.pingTimeout timer).2.1).pending = [timer]
    rw [run_onOpen]
    exact hb timer
  | ping timer =>
    right
    refine ⟨timer, ?_, rfl⟩
    show (s.runtime.run (onPing s.pingTimeout timer).2).pending = [timer]
    rw [run_onPing]
    exact hb timer
  | fire timer =>
    show (s.runtime.fire timer).1.pending = []
      ∨ ∃ t, (s.runtime.fire timer).1.pending = [t] ∧ s.pingTimeout = some t
    rcases h with h | ⟨t, h, hpt⟩
    · left
      simp [Runtime.fire, h]
    · by_cases ht : timer = t
      · left
        subst ht
        simp [Runtime.fire, h]
      · right
        refine ⟨t, ?_, hpt⟩
        simp [Runtime.fire, h, ht]

theorem liveRun_invariant (events : List LiveEvent) :
    ∀ s : Live,
      (s.runtime.pending = [] ∨ ∃ t, s.runtime.pending = [t] ∧ s.pingTimeout = some t) →
      ((liveRun s events).runtime.pending = []
        ∨ ∃ t, (liveRun s events).runtime.pending = [t]
            ∧ (liveRun s events).pingTimeout = some t) := by
  induction events with
  | nil => intro s h; exact h
  | cons e rest ih =>
    intro s h
    exact ih (liveStep s e) (liveStep_invariant s e h)

theorem liveStep_session (s : Live) (e : LiveEvent) : (liveStep s e).session = s.session := by
  cases e <;> rfl

theorem liveRun_session (events : List LiveEvent) :
    ∀ s : Live, (liveRun s events).session = s.session := by
  induction events with
  | nil => intro s; rfl
  | cons e rest ih =>
    intro s
    exact (ih (liveStep s e)).trans (liveStep_session s e)

/-- C28: within one session, started with no timer pending, after any
sequence of opens, pings and timer firings at most one liveness timer is
pending, and it is the one held in `pingTimeout`.  From any state so reached:
the `open` listener and the `ping` listener each clear the timer held in
`pingTimeout` and set a new one with a delay of 35000 ms (30000 + 5000), which
is then the only one pending; and when the pending timer fires, the effects
are the log line and `ws.reconnect()` on the session's socket and nothing
else: no socket is closed or constructed, no timer is left pending, and the
variables of the session (watch set, subscription ids, `lastBlock`) are
those it was constructed with. -/
theorem one_liveness_timer (st : Session) (rt : Runtime) (events : List LiveEvent)
    (h : rt.pending = []) :
    (liveRun ⟨st, none, rt, []⟩ events).runtime.pending.length ≤ 1
      ∧ (∀ t ∈ (liveRun ⟨st, none, rt, []⟩ events).runtime.pending,
          (liveRun ⟨st, none, rt, []⟩ events).pingTimeout = some t)
      ∧ (∀ timer,
          timerCalls (onOpen st (liveRun ⟨st, none, rt, []⟩ events).pingTimeout timer).2.1
              = [.clearTimeout (liveRun ⟨st, none, rt, []⟩ events).pingTimeout,
                 .setTimeout timer (30000 + 5000)]
            ∧ timerCalls (onPing (liveRun ⟨st, none, rt, []⟩ events).pingTimeout timer).2
              = [.clearTimeout (liveRun ⟨st, none, rt, []⟩ events).pingTimeout,
                 .setTimeout timer 35000]
            ∧ (liveRun ⟨st, none, rt, []⟩ (events ++ [.opened timer])).runtime.pending
              = [timer]
            ∧ (liveRun ⟨st, none, rt, []⟩ (events ++ [.ping timer])).runtime.pending
              = [timer])
      ∧ (∀ t ∈ (liveRun ⟨st, none, rt, []⟩ events).runtime.pending,
          (liveRun ⟨st, none, rt, []⟩ (events ++ [.fire t])).trace
              = (liveRun ⟨st, none, rt, []⟩ events).trace
                ++ [.log .wsPingTimeout,
                    .wsReconnect (liveRun ⟨st, none, rt, []⟩ events).runtime.ws]
            ∧ (liveRun ⟨st, none, rt, []⟩ (events ++ [.fire t])).runtime.pending = []
            ∧ (liveRun ⟨st, none, rt, []⟩ (events ++ [.fire t])).runtime.ws
              = (liveRun ⟨st, none, rt, []⟩ events).runtime.ws
            ∧ (liveRun ⟨st, none, rt, []⟩ (events ++ [.fire t])).runtime.closed
              = (liveRun ⟨st, none, rt, []⟩ events).runtime.closed
            ∧ (liveRun ⟨st, none, rt, []⟩ (events ++ [.fire t])).pingTimeout
              = (liveRun ⟨st, none, rt, []⟩ events).pingTimeout)
      ∧ (liveRun ⟨st, none, rt, []⟩ events).session = st := by
  have hinv := liveRun_invariant events ⟨st, none, rt, []⟩ (Or.inl h)
  have hstep : ∀ e, liveRun ⟨st, none, rt, []⟩ (events ++ [e])
      = liveStep (liveRun ⟨st, none, rt, []⟩ events) e := by
    intro e
    simp [liveRun, List.foldl_append]
  have hsess : (liveRun ⟨st, none, rt, []⟩ events).session = st :=
    liveRun_session events ⟨st, none, rt, []⟩
  generalize liveRun ⟨st, none, rt, []⟩ events = s at hinv hstep hsess
  refine ⟨?_, ?_, ?_, ?_, hsess⟩
  · rcases hinv with h0 | ⟨t, h1, _⟩
    · rw [h0]; simp
    · rw [h1]; simp
  · intro t ht
    rcases hinv with h0 | ⟨t1, h1, hp⟩
    · rw [h0] at ht; cases ht
    · rw [h1] at ht
      simp only [List.mem_singleton] at ht
      rw [ht]; exact hp
  · intro timer
    refine ⟨timerCalls_onOpen _ _ _, rfl, ?_, ?_⟩
    · rw [hstep]
      rcases liveStep_invariant s (.opened timer) hinv with h0 | ⟨t, h1, hp⟩
      · have hb : (liveStep s (.opened timer)).runtime.pending
            = (s.runtime.run (heartbeat s.pingTimeout timer).2).pending := by
          show (s.runtime.run (onOpen s.session s.pingTimeout timer).2.1).pending = _
          rw [run_onOpen]
        rw [hb, run_heartbeat] at h0
        simp at h0
      · have hq : (liveStep s (.opened timer)).pingTimeout = some timer :=
          onOpen_pingTimeout _ _ _
        rw [hq] at hp
        cases hp
        exact h1
    · rw [hstep]
      rcases liveStep_invariant s (.ping timer) hinv with h0 | ⟨t, h1, hp⟩
      · have hb : (liveStep s (.ping timer)).runtime.pending
            = (s.runtime.run (heartbeat s.pingTimeout timer).2).pending := by
          show (s.runtime.run (onPing s.pingTimeout timer).2).pending = _
          rw [run_onPing]
        rw [hb, run_heartbeat] at h0
        simp at h0
      · have hq : (liveStep s (.ping timer)).pingTimeout = some timer := rfl
        rw [hq] at hp
        cases hp
        exact h1
  · intro t ht
    rw [hstep]
    have hpend : s.runtime.pending = [t] := by
      rcases hinv with h0 | ⟨t1, h1, _⟩
      · rw [h0] at ht; cases ht
      · rw [h1] at ht
        simp only [List.mem_singleton] at ht
        rw [ht]; exact h1
    have hfire : s.runtime.fire t
        = ({ s.runtime with pending := [] }, [.log .wsPingTimeout, .wsReconnect s.runtime.ws]) := by
      simp [Runtime.fire, hpend, pingTimeoutFired]
    refine ⟨?_, ?_, ?_, ?_, rfl⟩
    · show s.trace ++ (s.runtime.fire t).2 = _
      rw [hfire]
    · show (s.runtime.fire t).1.pending = []
      rw [hfire]
    · show (s.runtime.fire t).1.ws = _
      rw [hfire]
    · show (s.runtime.fire t).1.closed = _
      rw [hfire]

/-- Witness for C28: open (timer 1), two pings (timers 2 and 3), then timer
3 fires: the run ends with the log line and the reconnect of socket 0, and no
timer is pending until the reopened socket arms timer 4. -/
theorem one_liveness_timer_witness :
    (liveRun ⟨sampleSession [.num 1, .num 2] (.num 90), none, Runtime.mk (some 0) [] [], []⟩
        [.opened 1, .ping 2, .ping 3]).runtime.pending = [3]
      ∧ (liveRun ⟨sampleSession [.num 1, .num 2] (.num 90), none, Runtime.mk (some 0) [] [], []⟩
        ([.opened 1, .ping 2, .ping 3] ++ [.fire 3])).trace
        = (liveRun ⟨sampleSession [.num 1, .num 2] (.num 90), none,
              Runtime.mk (some 0) [] [], []⟩ [.opened 1, .ping 2, .ping 3]).trace
          ++ [.log .wsPingTimeout,
              .wsReconnect (liveRun ⟨sampleSession [.num 1, .num 2] (.num 90), none,
                Runtime.mk (some 0) [] [], []⟩ [.opened 1, .ping 2, .ping 3]).runtime.ws]
      ∧ (liveRun ⟨sampleSession [.num 1, .num 2] (.num 90), none, Runtime.mk (some 0) [] [], []⟩
        [.opened 1, .ping 2, .ping 3, .fire 3]).runtime = Runtime.mk (some 0) [] []
      ∧ (liveRun ⟨sampleSession [.num 1, .num 2] (.num 90), none, Runtime.mk (some 0) [] [], []⟩
        [.opened 1, .ping 2, .ping 3, .fire 3, .opened 4]).runtime.pending = [4] :=
  ⟨by decide,
    ((one_liveness_timer (sampleSession [.num 1, .num 2] (.num 90)) (Runtime.mk (some 0) [] [])
      [.opened 1, .ping 2, .ping 3] rfl).2.2.2.1 3 (by decide)).1,
    by decide, by decide⟩

/-! ## Frames that make the listener raise -/

/-- C24, as stated, fails: a frame whose text is not JSON makes the run of
`incoming` raise a `SyntaxError`, and nothing is logged. -/
theorem garbled_frame_raises :
    (incoming quietHandler (sampleSession [.num 1, .num 2] (.num 90))
        (garbledFrame "g1") [.num 1, .num 2]).raised = some .syntaxError
      ∧ (incoming quietHandler (sampleSession [.num 1, .num 2] (.num 90))
        (garbledFrame "g1") [.num 1, .num 2]).trace = []
      ∧ (incoming quietHandler (sampleSession [.num 1, .num 2] (.num 90))
        (garbledFrame "g1") [.num 1, .num 2]).raised ≠ none := by
  decide

/-- C24, amended: a frame whose text is not JSON (watch set unchanged) makes
the run raise the `SyntaxError` of `JSON.parse`; nothing is logged for the
failure, nothing is forwarded, sent or upserted, and the session variables
are as before except that the hash of the frame is recorded, so that every
later frame is handled as it would have been without the bad one, apart from
the duplicate notice and the content of the cache. -/
theorem garbled_frame_leaves_session (handleLog : HandleLogArgs → CallResult)
    (st : Session) (raw : RawFrame) (latest : List JVal)
    (hl : latest = st.listingIds) (hp : raw.parsed = none) :
    incoming handleLog st raw latest
        = ⟨{ st with handled := raw.sha3 :: st.handled }, repeatNotice st raw,
            some .syntaxError⟩
      ∧ handlerCalls (incoming handleLog st raw latest).trace = []
      ∧ sends (incoming handleLog st raw latest).trace = []
      ∧ upserts (incoming handleLog st raw latest).trace = []
      ∧ ∀ (next : RawFrame) (latest2 : List JVal),
          actions (incoming handleLog (incoming handleLog st raw latest).session
              next latest2).trace
            = actions (incoming handleLog st next latest2).trace
          ∧ (incoming handleLog (incoming handleLog st raw latest).session
              next latest2).raised
            = (incoming handleLog st next latest2).raised
          ∧ (incoming handleLog (incoming handleLog st raw latest).session
              next latest2).session.lastBlock
            = (incoming handleLog st next latest2).session.lastBlock
          ∧ (incoming handleLog (incoming handleLog st raw latest).session
              next latest2).session.logs
            = (incoming handleLog st next latest2).session.logs
          ∧ (incoming handleLog (incoming handleLog st raw latest).session
              next latest2).session.heads
            = (incoming handleLog st next latest2).session.heads := by
  have hi : incoming handleLog st raw latest
      = ⟨{ st with handled := raw.sha3 :: st.handled }, repeatNotice st raw,
          some .syntaxError⟩ := by
    simp [incoming, hl, hp, markHandled]
  refine ⟨hi, ?_, ?_, ?_, ?_⟩
  · rw [hi]; exact handlerCalls_repeatNotice st raw
  · rw [hi]; exact sends_repeatNotice st raw
  · rw [hi]; exact upserts_repeatNotice st raw
  · intro next latest2
    rw [hi]
    obtain ⟨rest, session, h1, h2, _⟩ :=
      incoming_handled handleLog st next latest2 (raw.sha3 :: st.handled)
    have hn : ∀ (a : Session), actions (repeatNotice a next ++ rest) = actions rest := by
      intro a
      unfold actions repeatNotice
      split <;> simp [Effect.isLog]
    simp only
    rw [h2]
    refine ⟨?_, rfl, ?_, ?_, ?_⟩
    · simp only [hn]
      rw [h1]
      simp only [hn]
    · rw [h1]
    · rw [h1]
    · rw [h1]

/-- Witness for the amended C24: a garbled frame, then a new head; the head
is handled as usual and the recorded block becomes 100. -/
theorem garbled_frame_leaves_session_witness :
    (incoming quietHandler (incoming quietHandler
        (sampleSession [.num 1, .num 2] (.num 90)) (garbledFrame "g1")
        [.num 1, .num 2]).session
      (pushFrame "f1" "0xB" "0x64" "0x5f00") [.num 1, .num 2]).session.lastBlock
      = (incoming quietHandler (sampleSession [.num 1, .num 2] (.num 90))
        (pushFrame "f1" "0xB" "0x64" "0x5f00") [.num 1, .num 2]).session.lastBlock :=
  ((garbled_frame_leaves_session quietHandler (sampleSession [.num 1, .num 2] (.num 90))
    (garbledFrame "g1") [.num 1, .num 2] rfl rfl).2.2.2.2
    (pushFrame "f1" "0xB" "0x64" "0x5f00") [.num 1, .num 2]).2.2.1

/-- C25, as stated, fails: a failure response to `eth_getLogs` (`id` 3, an
`error` and no `result`) makes the run of `incoming` raise a `TypeError`, on
reading `data.result.length`. -/
theorem getLogs_failure_raises :
    (incoming quietHandler (sampleSession [.num 1, .num 2] (.num 90))
        (getLogsFailure "x1") [.num 1, .num 2]).raised = some .typeError
      ∧ (incoming quietHandler (sampleSession [.num 1, .num 2] (.num 90))
        (getLogsFailure "x1") [.num 1, .num 2]).raised ≠ none := by
  decide

/-- C25, amended: a response with `id` 3 that has no `result` (watch set
unchanged) makes the run raise a `TypeError`; nothing is logged for it,
nothing is forwarded to the handler, no request is sent, no upsert is made,
and `lastBlock`, `logs` and `heads` keep their values. -/
theorem getLogs_failure_effects (handleLog : HandleLogArgs → CallResult)
    (st : Session) (raw : RawFrame) (latest : List JVal) (data : JVal)
    (hl : latest = st.listingIds) (hp : raw.parsed = some data)
    (hid : data.field "id" = .num 3) (hres : (data.field "result").nullish = true) :
    incoming handleLog st raw latest
        = ⟨markHandled st raw, repeatNotice st raw, some .typeError⟩
      ∧ handlerCalls (incoming handleLog st raw latest).trace = []
      ∧ sends (incoming handleLog st raw latest).trace = []
      ∧ upserts (incoming handleLog st raw latest).trace = []
      ∧ (incoming handleLog st raw latest).session.lastBlock = st.lastBlock
      ∧ (incoming handleLog st raw latest).session.logs = st.logs
      ∧ (incoming handleLog st raw latest).session.heads = st.heads := by
  have h0 : data.nullish = false := not_nullish_of_field data "id" _ hid (by simp)
  have hd : dispatch handleLog (markHandled st raw) data
      = ⟨markHandled st raw, [], some .typeError⟩ := by
    rw [dispatch_eq handleLog (markHandled st raw) data h0, hid]
    simp [strictEq, JVal.prop, hres]
  have hi : incoming handleLog st raw latest
      = ⟨markHandled st raw, repeatNotice st raw, some .typeError⟩ := by
    simp [incoming, hl, hp, hd]
  rw [hi]
  exact ⟨rfl, handlerCalls_repeatNotice st raw, sends_repeatNotice st raw,
    upserts_repeatNotice st raw, rfl, rfl, rfl⟩

/-- Witness for the amended C25: the failure response handled by the sample
session. -/
theorem getLogs_failure_effects_witness :
    incoming quietHandler (sampleSession [.num 1, .num 2] (.num 90))
        (getLogsFailure "x1") [.num 1, .num 2]
      = ⟨markHandled (sampleSession [.num 1, .num 2] (.num 90)) (getLogsFailure "x1"),
          repeatNotice (sampleSession [.num 1, .num 2] (.num 90)) (getLogsFailure "x1"),
          some .typeError⟩ :=
  (getLogs_failure_effects quietHandler (sampleSession [.num 1, .num 2] (.num 90))
    (getLogsFailure "x1") [.num 1, .num 2] _ rfl rfl (by decide) (by decide)).1

/-- A session whose `lastBlock` is still `undefined` (`connectWS` found no row
for the network): a new-head push with block number `n` sends no request, in
particular no `eth_getLogs`, makes the upsert of `n` and sets `lastBlock` to
`n`. -/
theorem first_head_without_record (handleLog : HandleLogArgs → CallResult)
    (st : Session) (raw : RawFrame) (latest : List JVal) (data : JVal) (n : Int)
    (ts : JVal)
    (hU : st.lastBlock = .undefined)
    (hl : latest = st.listingIds)
    (hp : raw.parsed = some data)
    (hh : isHeadPush st data = true)
    (hn : hexToNumber ((pushResult data).field "number") = .ok (.num n))
    (ht : hexToNumber ((pushResult data).field "timestamp") = .ok ts) :
    (∀ ws socket network listingIds,
        (connectWS ws socket network listingIds none).1.lastBlock = .undefined)
      ∧ sends (incoming handleLog st raw latest).trace = []
      ∧ getLogsRequests (incoming handleLog st raw latest).trace = []
      ∧ upserts (incoming handleLog st raw latest).trace = [(st.network.networkId, .num n)]
      ∧ (incoming handleLog st raw latest).session.lastBlock = .num n := by
  rw [incoming_headPush handleLog st raw latest data hl hp hh,
    onNewHead_near (markHandled st raw) data n ts (Or.inl hU) hn ht]
  refine ⟨fun _ _ _ _ => rfl, ?_, ?_, ?_, rfl⟩
  · simp only [sends_append, sends_repeatNotice, List.nil_append]
    simp [sends]
  · simp only [getLogsRequests, sends_append, sends_repeatNotice, List.nil_append]
    simp [sends]
  · simp only [upserts_append, upserts_repeatNotice, List.nil_append]
    simp [upserts, markHandled]

/-- A session started without a row, after both acknowledgments, receives the
head `0x64`. -/
theorem first_head_without_record_example :
    sends (incoming quietHandler (sampleSession [.num 1, .num 2] .undefined)
        (pushFrame "f1" "0xB" "0x64" "0x5f00") [.num 1, .num 2]).trace = []
      ∧ (incoming quietHandler (sampleSession [.num 1, .num 2] .undefined)
        (pushFrame "f1" "0xB" "0x64" "0x5f00") [.num 1, .num 2]).session.lastBlock
          = .num 100 :=
  ⟨(first_head_without_record quietHandler (sampleSession [.num 1, .num 2] .undefined)
      (pushFrame "f1" "0xB" "0x64" "0x5f00") [.num 1, .num 2] _ 100 (.num 24320)
      rfl rfl rfl (by decide) (by decide) (by decide)).2.1,
    (first_head_without_record quietHandler (sampleSession [.num 1, .num 2] .undefined)
      (pushFrame "f1" "0xB" "0x64" "0x5f00") [.num 1, .num 2] _ 100 (.num 24320)
      rfl rfl rfl (by decide) (by decide) (by decide)).2.2.2.2⟩

/-- A session started by `start` has read a row: the `lastBlock` it begins
with is the value of the column, never the `undefined` of the branch without
a row. -/
theorem start_reads_row (rows : List NetworkRow) (shops : List ShopRow) (ws : Option Nat)
    (socket : Nat) (session : Session) (ws2 : Option Nat)
    (h : (start rows shops ws socket).1 = some (session, ws2)) :
    ∃ row found, row ∈ rows ∧ found ∈ rows ∧ row.active = true
      ∧ found.network.networkId = row.network.networkId
      ∧ session = (connectWS ws socket row.network (getListingIds shops row.network)
          (some found.lastBlock)).1
      ∧ session.lastBlock = found.lastBlock := by
  unfold start at h
  cases hr : rows.find? fun row => row.active with
  | none => rw [hr] at h; cases h
  | some row =>
    rw [hr] at h
    have hmem := List.mem_of_find?_eq_some hr
    have hact : row.active = true := by simpa using List.find?_some hr
    have hsome : (rows.find? fun found =>
        decide (found.network.networkId = row.network.networkId)).isSome = true := by
      rw [List.find?_isSome]
      exact ⟨row, hmem, by simp⟩
    cases hf : rows.find? fun found =>
        decide (found.network.networkId = row.network.networkId) with
    | none => rw [hf] at hsome; cases hsome
    | some found =>
      have hfm := List.mem_of_find?_eq_some hf
      have hfid : found.network.networkId = row.network.networkId := by
        simpa using List.find?_some hf
      simp only [hf, Option.map_some, Option.some.injEq, Prod.mk.injEq] at h
      refine ⟨row, found, hmem, hfm, hact, hfid, h.1.symm, ?_⟩
      rw [← h.1]
      rfl

/-- A session whose `lastBlock` is `null` (the row exists, no block was
recorded): a first head with block number above 500, or at most 1, sends no
request and sets `lastBlock`. -/
theorem first_head_null_record (handleLog : HandleLogArgs → CallResult)
    (st : Session) (raw : RawFrame) (latest : List JVal) (data : JVal) (n : Int)
    (ts : JVal)
    (hU : st.lastBlock = .null)
    (hl : latest = st.listingIds)
    (hp : raw.parsed = some data)
    (hh : isHeadPush st data = true)
    (hn : hexToNumber ((pushResult data).field "number") = .ok (.num n))
    (ht : hexToNumber ((pushResult data).field "timestamp") = .ok ts)
    (hfar : n ≤ 1 ∨ 500 < n) :
    sends (incoming handleLog st raw latest).trace = []
      ∧ upserts (incoming handleLog st raw latest).trace = [(st.network.networkId, .num n)]
      ∧ (incoming handleLog st raw latest).session.lastBlock = .num n := by
  have hsub : jsSub (.num n) (markHandled st raw).lastBlock = some n := by
    show jsSub (.num n) st.lastBlock = some n
    rw [hU]
    simp [jsSub, toNumber]
  rw [incoming_headPush handleLog st raw latest data hl hp hh,
    onNewHead_decoded (markHandled st raw) data n ts hn ht, hsub]
  rcases hfar with h1 | h500
  · have a : jsGt (some n) 500 = false := by simp [jsGt]; omega
    have b : jsGt (some n) 1 = false := by simp [jsGt]; omega
    simp only [a, b, Bool.false_eq_true, if_false]
    refine ⟨?_, ?_, trivial⟩
    · simp only [sends_append, sends_repeatNotice, List.nil_append]
      simp [sends]
    · simp only [upserts_append, upserts_repeatNotice, List.nil_append]
      simp [upserts, markHandled]
  · have a : jsGt (some n) 500 = true := by simp [jsGt]; omega
    simp only [a, if_true]
    refine ⟨?_, ?_, trivial⟩
    · simp only [sends_append, sends_repeatNotice, List.nil_append]
      simp [sends]
    · simp only [upserts_append, upserts_repeatNotice, List.nil_append]
      simp [upserts, markHandled]

/-- C26 fails on the code.  `start` reads the active network and `connectWS`
finds that row again, so before any block was recorded the session begins
with `lastBlock = null`, not `undefined`.  After both acknowledgments the
first head, with block number 100, gives `blockDiff = 100 - null = 100`, and
an `eth_getLogs` request is sent with `fromBlock` `null` and `toBlock` `0x64`. -/
theorem unrecorded_block_backfills_from_null :
    (start unrecordedRows tidyShops none 0).1
        = some ((connectWS none 0 sampleNetwork [.str "7", .str "5"] (some .null)).1, some 0)
      ∧ (connectWS none 0 sampleNetwork [.str "7", .str "5"] (some .null)).1.lastBlock = .null
      ∧ Effect.log .noRecordedBlock ∉ (start unrecordedRows tidyShops none 0).2
      ∧ getLogsRequests (incoming quietHandler
          (incomingAll quietHandler
            (connectWS none 0 sampleNetwork [.str "7", .str "5"] (some .null)).1
            [(ackFrame "a1" 1 "0xA", [.str "7", .str "5"]),
             (ackFrame "a2" 2 "0xB", [.str "7", .str "5"])])
          (pushFrame "f1" "0xB" "0x64" "0x5f00") [.str "7", .str "5"]).trace
        = [.obj [("jsonrpc", .str "2.0"), ("id", .num 3), ("method", .str "eth_getLogs"),
            ("params", .arr [.obj [("address", .undefined),
              ("topics", .arr [.null, .null, .arr
                [.str "0x0000000000000000000000000000000000000000000000000000000000000007",
                 .str "0x0000000000000000000000000000000000000000000000000000000000000005"]]),
              ("fromBlock", .null), ("toBlock", .str "0x64")]])]]
      ∧ (incoming quietHandler
          (incomingAll quietHandler
            (connectWS none 0 sampleNetwork [.str "7", .str "5"] (some .null)).1
            [(ackFrame "a1" 1 "0xA", [.str "7", .str "5"]),
             (ackFrame "a2" 2 "0xB", [.str "7", .str "5"])])
          (pushFrame "f1" "0xB" "0x64" "0x5f00") [.str "7", .str "5"]).session.lastBlock
        = .num 100 := by
  decide

end Listener

namespace Storefront

/-- C27: when the listing accepts `token-ETH` or `token-DAI` and the token
status says the account has enough balance of one it accepts, the suggested
token is one the listing accepts and the account has enough balance of; a
listing that accepts both with enough ETH gets `token-ETH`.  This is the
`suggestedToken` that `WithPrices` hands down once nothing is loading. -/
theorem suggested_token_is_payable (listing : Listing)
    (tokenStatus : List (String × TokenStatus))
    (h : (accepts listing "token-ETH" = true ∧ hasBalance tokenStatus "token-ETH" = true)
      ∨ (accepts listing "token-DAI" = true ∧ hasBalance tokenStatus "token-DAI" = true)) :
    (∃ token, suggestedToken (some listing) tokenStatus = some token
        ∧ accepts listing token = true ∧ hasBalance tokenStatus token = true
        ∧ WithPrices false true true (some listing) tokenStatus
          = .ready tokenStatus (some token))
      ∧ (accepts listing "token-ETH" = true → hasBalance tokenStatus "token-ETH" = true →
          suggestedToken (some listing) tokenStatus = some "token-ETH") := by
  constructor
  · by_cases hE : accepts listing "token-ETH" = true ∧ hasBalance tokenStatus "token-ETH" = true
    · refine ⟨"token-ETH", ?_, hE.1, hE.2, ?_⟩
      · simp [suggestedToken, hE.1, hE.2]
      · simp [WithPrices, suggestedToken, hE.1, hE.2]
    · have hD : accepts listing "token-DAI" = true ∧ hasBalance tokenStatus "token-DAI" = true := by
        rcases h with h | h
        · exact absurd h hE
        · exact h
      have hE2 : (accepts listing "token-ETH" && hasBalance tokenStatus "token-ETH") = false := by
        cases h1 : accepts listing "token-ETH" <;> cases h2 : hasBalance tokenStatus "token-ETH"
          <;> simp_all
      refine ⟨"token-DAI", ?_, hD.1, hD.2, ?_⟩
      · simp [suggestedToken, hE2, hD.1]
      · simp [WithPrices, suggestedToken, hE2, hD.1]
  · intro h1 h2
    simp [suggestedToken, h1, h2]

/-- Witness for C27: a listing that accepts ETH and DAI, an account with
enough ETH and not enough DAI. -/
theorem suggested_token_is_payable_witness :
    suggestedToken (some { acceptedTokens := [{ id := "token-ETH" }, { id := "token-DAI" }] })
        [("token-ETH", { hasBalance := true, hasAllowance := true }),
         ("token-DAI", { hasBalance := false, hasAllowance := false })]
      = some "token-ETH" :=
  (suggested_token_is_payable
    { acceptedTokens := [{ id := "token-ETH" }, { id := "token-DAI" }] }
    [("token-ETH", { hasBalance := true, hasAllowance := true }),
     ("token-DAI", { hasBalance := false, hasAllowance := false })]
    (Or.inl ⟨by decide, by decide⟩)).2 (by decide) (by decide)

end Storefront

namespace CartState

theorem fl_exact (n : Int) (h : n.natAbs < 2 ^ 53) : fl n = .fin n := by
  unfold fl
  rw [if_pos h]

theorem add_exact (a b : Int) (h : (a + b).natAbs < 2 ^ 53) :
    (JNum.fin a).add (.fin b) = .fin (a + b) := by
  show fl (a + b) = _
  exact fl_exact _ h

theorem sub_exact (a b : Int) (h : (a - b).natAbs < 2 ^ 53) :
    (JNum.fin a).sub (.fin b) = .fin (a - b) := by
  show fl (a + -b) = _
  rw [← sub_eq_add_neg]
  exact fl_exact _ h

theorem mul_exact (a b : Int) (h : (a * b).natAbs < 2 ^ 53) :
    (JNum.fin a).mul (.fin b) = .fin (a * b) := by
  show fl (a * b) = _
  exact fl_exact _ h

theorem nearestEven_hundred (a : Nat) :
    100 * nearestEven a 100 ≤ a + 50 ∧ a ≤ 100 * nearestEven a 100 + 50
      ∧ (a % 100 = 0 → 100 * nearestEven a 100 = a) := by
  unfold nearestEven
  split <;> omega

/-- Rounding `x / 100` to a multiple of `2^-j` with `j ≥ 6` and then to the
nearest integer gives the integer nearest to `x / 100`. -/
theorem round_scaled (x j : Nat) (hj : 6 ≤ j) :
    (2 * nearestEven (x * 2 ^ j) 100 + 2 ^ j) / 2 ^ (j + 1) = (2 * x + 100) / 200 := by
  obtain ⟨Q, hQ, hQpos⟩ : ∃ Q, 2 ^ j = 64 * Q ∧ 0 < Q := by
    refine ⟨2 ^ (j - 6), ?_, Nat.pow_pos (by decide)⟩
    have : j = 6 + (j - 6) := by omega
    conv_lhs => rw [this, pow_add]
    norm_num
  have hm := nearestEven_hundred (x * 2 ^ j)
  have ht1 : 200 * ((2 * x + 100) / 200) ≤ 2 * x + 100 := Nat.mul_div_le _ _
  have ht2 : 2 * x + 102 ≤ 200 * ((2 * x + 100) / 200) + 200 := by omega
  generalize (2 * x + 100) / 200 = t at ht1 ht2 ⊢
  generalize nearestEven (x * 2 ^ j) 100 = m at hm ⊢
  rw [pow_succ]
  generalize 2 ^ j = P at hQ hm ⊢
  have hA : 200 * (P * t) ≤ 2 * (x * P) + 100 * P := by
    have := Nat.mul_le_mul_left P ht1
    have e1 : P * (200 * t) = 200 * (P * t) := by ring
    have e2 : P * (2 * x + 100) = 2 * (x * P) + 100 * P := by ring
    omega
  have hB : 2 * (x * P) + 102 * P ≤ 200 * (P * t) + 200 * P := by
    have := Nat.mul_le_mul_left P ht2
    have e1 : P * (2 * x + 102) = 2 * (x * P) + 102 * P := by ring
    have e2 : P * (200 * t + 200) = 200 * (P * t) + 200 * P := by ring
    omega
  have hD : 200 * t + 2 ≤ 2 * x + 100 → 200 * (P * t) + 2 * P ≤ 2 * (x * P) + 100 * P := by
    intro h
    have := Nat.mul_le_mul_left P h
    have e1 : P * (200 * t + 2) = 200 * (P * t) + 2 * P := by ring
    have e2 : P * (2 * x + 100) = 2 * (x * P) + 100 * P := by ring
    omega
  have hC : 2 * x + 100 = 200 * t → 2 * (x * P) + 100 * P = 200 * (P * t) := by
    intro h
    have := congrArg (fun v => P * v) h
    simp only at this
    have e1 : P * (2 * x + 100) = 2 * (x * P) + 100 * P := by ring
    have e2 : P * (200 * t) = 200 * (P * t) := by ring
    omega
  have hPpos : 0 < P * 2 := by omega
  apply Nat.div_eq_of_lt_le
  · -- t * (P * 2) ≤ 2 * m + P
    have e : t * (P * 2) = 2 * (P * t) := by ring
    rw [e]
    by_cases htie : 2 * x + 100 = 200 * t
    · have hc := hC htie
      generalize P * t = u at hA hB hD hc ⊢
      generalize x * P = a at hA hB hD hm hc ⊢
      have hmod : a % 100 = 0 := by omega
      have := hm.2.2 hmod
      omega
    · have hd := hD (by omega)
      generalize P * t = u at hA hB hd ⊢
      generalize x * P = a at hA hB hd hm ⊢
      omega
  · have e : (t + 1) * (P * 2) = 2 * (P * t) + 2 * P := by ring
    rw [e]
    generalize P * t = u at hA hB hD ⊢
    generalize x * P = a at hA hB hD hm ⊢
    omega

theorem exponentOf_le (x : Nat) (h : x < 2 ^ 53) : exponentOf x ≤ 52 := by
  have := Nat.toDigitsCore_length 2 (by decide) (x + 1) x 53 h (by decide)
  unfold exponentOf Nat.toDigits
  omega

/-- The value `Math.round(x / 100)` for a double `0 ≤ x < 2^53` is the integer
nearest to `x / 100`, a half going up. -/
theorem roundHundredth_exact (x : Nat) (h : x < 2 ^ 53) :
    roundHundredth (x : Int) = roundPercent (x : Int) := by
  unfold roundPercent
  by_cases h0 : x = 0
  · subst h0
    decide
  have hlog := exponentOf_le x h
  have hne : (x : Int) ≠ 0 := by exact_mod_cast h0
  have hsign : (x : Int).sign = 1 := Int.sign_eq_one_of_pos (by omega)
  have h58 : exponentOf x ≤ 58 := by omega
  unfold roundHundredth
  simp only [hne, if_false, Int.natAbs_ofNat, h58, if_true, hsign, mul_one]
  generalize hj : (if 100 * 2 ^ 52 ≤ x * 2 ^ (58 - exponentOf x) then 58 - exponentOf x
    else 58 - exponentOf x + 1) = j
  have hj6 : 6 ≤ j := by
    rw [← hj]
    split <;> omega
  have := round_scaled x j hj6
  have hc := congrArg (fun v : Nat => (v : Int)) this
  simp only [Int.natCast_div] at hc
  push_cast at hc
  rw [hc]

/-- The sub-total of a cart whose quantities and prices are natural numbers,
with a sum below `2^53`, is the exact sum. -/
theorem subTotal_exact (lines : List (Nat × Nat)) :
    ∀ (items : List Item) (acc : Nat),
      items.map (fun i => (i.quantity, i.price))
          = lines.map (fun l => (JNum.fin (l.1 : Int), JNum.fin (l.2 : Int))) →
      acc + (lines.map fun l => l.1 * l.2).sum < 2 ^ 53 →
      items.foldl (fun (total : JNum) (item : Item) => total.add (item.quantity.mul item.price))
          (JNum.fin (acc : Int))
        = JNum.fin ((acc + (lines.map fun l => l.1 * l.2).sum : Nat) : Int) := by
  induction lines with
  | nil =>
    intro items acc h _
    cases items with
    | nil => simp
    | cons i rest => simp at h
  | cons l ls ih =>
    intro items acc h hb
    cases items with
    | nil => simp at h
    | cons i rest =>
      simp only [List.map_cons, List.cons.injEq, Prod.mk.injEq, List.sum_cons] at h hb
      obtain ⟨⟨hq, hp⟩, hrest⟩ := h
      simp only [List.foldl_cons, hq, hp]
      have h1 : (JNum.fin (l.1 : Int)).mul (.fin (l.2 : Int)) = .fin ((l.1 * l.2 : Nat) : Int) := by
        rw [mul_exact _ _ (by
          have : ((l.1 : Int) * (l.2 : Int)).natAbs = l.1 * l.2 := by
            rw [← Int.natCast_mul, Int.natAbs_ofNat]
          omega)]
        push_cast
        rfl
      have h2 : (JNum.fin (acc : Int)).add (.fin ((l.1 * l.2 : Nat) : Int))
          = .fin ((acc + l.1 * l.2 : Nat) : Int) := by
        rw [add_exact _ _ (by
          have : ((acc : Int) + ((l.1 * l.2 : Nat) : Int)).natAbs = acc + l.1 * l.2 := by
            rw [← Int.natCast_add, Int.natAbs_ofNat]
          omega)]
        push_cast
        rfl
      rw [h1, h2, ih rest (acc + l.1 * l.2) hrest (by omega)]
      simp only [List.map_cons, List.sum_cons]
      congr 2
      omega

/-- C29, as stated, fails for a donation given as text.  The guard of line
192 admits the text `200`, line 193 stores it as it is, and with the sample
cart and a discount of ten percent (sub-total 3995, shipping 500, discount
450) line 232 gives `4045 + '200'`, the text `4045200`, where the claim has
the number 4245. -/
theorem donation_text_is_appended :
    (reducer (reducer sampleState tenPercent) (.setDonation (.text "200"))).cart.donation
        = .text "200"
      ∧ (reducer (reducer sampleState tenPercent) (.setDonation (.text "200"))).cart.subTotal
        = .fin 3995
      ∧ (reducer (reducer sampleState tenPercent) (.setDonation (.text "200"))).cart.discount
        = .fin 450
      ∧ (reducer (reducer sampleState tenPercent) (.setDonation (.text "200"))).cart.total
        = .text "4045200"
      ∧ (reducer (reducer sampleState tenPercent) (.setDonation (.text "200"))).cart.total
        ≠ .num (.fin (3995 + 500 - 450 + 200))
      ∧ (reducer largeState .other).cart.subTotal = .fin 9007199515875288
      ∧ (94906267 * 94906267 : Int) = 9007199515875289 := by
  decide

/-- C29, amended.  After every action the totals of the cart are the ones
lines 210-232 compute from the cart itself, in the arithmetic of doubles:
`subTotal` is the sum of `quantity * price` over the items, `discount` is 0
unless a discount code is set (then `Math.round((subTotal + shipping) * value
/ 100)` for `percentage` and `value * 100` for `fixed`), and `total` is
`subTotal + shipping - discount + donation` from left to right, which for a
donation that is a text is the text of `subTotal + shipping - discount`
followed by the donation.  When the donation is a number and the quantities,
prices, shipping, discount value and donation are natural numbers whose
sums and products stay below `2^53`, these are the exact integers of the
claim. -/
theorem reducer_totals (state : State) (action : Action) :
    (reducer state action).cart.subTotal = subTotalOf (reducer state action).cart.items
      ∧ (reducer state action).cart.discount
        = discountOf (reducer state action).cart.discountObj
            (reducer state action).cart.subTotal (shippingOf (reducer state action).cart)
      ∧ (reducer state action).cart.total
        = jsPlus (((reducer state action).cart.subTotal.add
              (shippingOf (reducer state action).cart)).sub
            (reducer state action).cart.discount) (reducer state action).cart.donation
      ∧ (∀ text, (reducer state action).cart.donation = .text text →
          (reducer state action).cart.total
            = .text ((((reducer state action).cart.subTotal.add
                  (shippingOf (reducer state action).cart)).sub
                (reducer state action).cart.discount).toText ++ text))
      ∧ (∀ (lines : List (Nat × Nat)) (shipping donation : Nat),
          (reducer state action).cart.items.map (fun i => (i.quantity, i.price))
              = lines.map (fun l => (JNum.fin (l.1 : Int), JNum.fin (l.2 : Int))) →
          shippingOf (reducer state action).cart = .fin (shipping : Int) →
          (reducer state action).cart.donation = .num (.fin (donation : Int)) →
          (lines.map fun l => l.1 * l.2).sum + shipping + donation < 2 ^ 53 →
          (reducer state action).cart.subTotal
              = .fin (((lines.map fun l => l.1 * l.2).sum : Nat) : Int)
            ∧ (((reducer state action).cart.discountObj.code = none
                  ∨ (reducer state action).cart.discountObj.code = some "") →
                (reducer state action).cart.discount = .fin 0
                  ∧ (reducer state action).cart.total
                    = .num (.fin (((lines.map fun l => l.1 * l.2).sum + shipping + donation
                        : Nat) : Int)))
            ∧ (∀ (code : String) (value : Nat),
                (reducer state action).cart.discountObj.code = some code → code ≠ "" →
                (reducer state action).cart.discountObj.discountType = some "percentage" →
                (reducer state action).cart.discountObj.value = .fin (value : Int) →
                ((lines.map fun l => l.1 * l.2).sum + shipping) * value < 2 ^ 53 →
                (reducer state action).cart.discount
                    = .fin (roundPercent
                        ((((lines.map fun l => l.1 * l.2).sum + shipping) * value : Nat) : Int))
                  ∧ (reducer state action).cart.total
                    = .num (.fin ((((lines.map fun l => l.1 * l.2).sum + shipping : Nat) : Int)
                        - roundPercent
                          ((((lines.map fun l => l.1 * l.2).sum + shipping) * value : Nat) : Int)
                        + (donation : Int))))
            ∧ (∀ (code : String) (value : Nat),
                (reducer state action).cart.discountObj.code = some code → code ≠ "" →
                (reducer state action).cart.discountObj.discountType = some "fixed" →
                (reducer state action).cart.discountObj.value = .fin (value : Int) →
                value * 100 < 2 ^ 53 →
                (reducer state action).cart.discount = .fin ((value * 100 : Nat) : Int)
                  ∧ (reducer state action).cart.total
                    = .num (.fin ((((lines.map fun l => l.1 * l.2).sum + shipping : Nat) : Int)
                        - ((value * 100 : Nat) : Int) + (donation : Int))))) := by
  generalize hs : applyAction state action = mid
  have hr : reducer state action = retotal mid := by rw [← hs]; rfl
  rw [hr]
  have hitems : (retotal mid).cart.items = mid.cart.items := rfl
  have hsub : (retotal mid).cart.subTotal = subTotalOf mid.cart.items := rfl
  have hship : shippingOf (retotal mid).cart = shippingOf mid.cart := rfl
  have hobj : (retotal mid).cart.discountObj = mid.cart.discountObj := rfl
  have hdis : (retotal mid).cart.discount
      = discountOf mid.cart.discountObj (subTotalOf mid.cart.items) (shippingOf mid.cart) := rfl
  have hdon : (retotal mid).cart.donation = mid.cart.donation := rfl
  have htot : (retotal mid).cart.total
      = jsPlus (((subTotalOf mid.cart.items).add (shippingOf mid.cart)).sub
          (discountOf mid.cart.discountObj (subTotalOf mid.cart.items) (shippingOf mid.cart)))
        mid.cart.donation := rfl
  rw [hitems, hsub, hship, hobj, hdis, hdon, htot]
  refine ⟨rfl, rfl, rfl, ?_, ?_⟩
  · intro text ht
    rw [ht]
    rfl
  · intro lines shipping donation hl hsh hd hb
    have hS : subTotalOf mid.cart.items
        = .fin (((lines.map fun l => l.1 * l.2).sum : Nat) : Int) := by
      have := subTotal_exact lines mid.cart.items 0 hl (by omega)
      simp only [Nat.zero_add] at this
      exact this
    generalize (lines.map fun l => l.1 * l.2).sum = S at hS hb ⊢
    rw [hS, hsh, hd]
    have hT : (JNum.fin (S : Int)).add (.fin (shipping : Int))
        = .fin ((S + shipping : Nat) : Int) := by
      rw [add_exact _ _ (by omega)]
      push_cast
      rfl
    rw [hT]
    refine ⟨rfl, ?_, ?_, ?_⟩
    · intro hc
      have h0 : discountOf mid.cart.discountObj (.fin (S : Int)) (.fin (shipping : Int))
          = .fin 0 := by
        rcases hc with hc | hc <;> simp [discountOf, hc]
      rw [h0]
      refine ⟨rfl, ?_⟩
      rw [sub_exact _ _ (by omega)]
      simp only [jsPlus]
      rw [add_exact _ _ (by omega)]
      push_cast
      simp
    · intro code value hc hne ht hv hx
      have hdisc : discountOf mid.cart.discountObj (.fin (S : Int)) (.fin (shipping : Int))
          = .fin (roundPercent (((S + shipping) * value : Nat) : Int)) := by
        simp only [discountOf, hc, hne, if_false, ht, if_true, hv, hT]
        rw [mul_exact _ _ (by
          have : (((S + shipping : Nat) : Int) * (value : Int)).natAbs = (S + shipping) * value := by
            rw [← Int.natCast_mul, Int.natAbs_ofNat]
          omega)]
        show JNum.fin (roundHundredth _) = _
        rw [← Int.natCast_mul, roundHundredth_exact _ hx]
      rw [hdisc]
      refine ⟨rfl, ?_⟩
      generalize hX : (S + shipping) * value = X at hx
      have hrp : roundPercent (X : Int) = (((2 * X + 100) / 200 : Nat) : Int) := by
        unfold roundPercent
        push_cast
        rfl
      rw [hrp]
      rw [sub_exact _ _ (by omega)]
      simp only [jsPlus]
      rw [add_exact _ _ (by omega)]
    · intro code value hc hne ht hv hx
      have hdisc : discountOf mid.cart.discountObj (.fin (S : Int)) (.fin (shipping : Int))
          = .fin ((value * 100 : Nat) : Int) := by
        have hnp : ¬ (some "fixed" : Option String) = some "percentage" := by decide
        simp only [discountOf, hc, hne, if_false, ht, hnp, if_true, hv]
        rw [mul_exact _ _ (by
          have : ((value : Int) * 100).natAbs = value * 100 := by
            have : ((value : Int) * 100) = ((value * 100 : Nat) : Int) := by push_cast; rfl
            rw [this, Int.natAbs_ofNat]
          omega)]
        push_cast
        rfl
      rw [hdisc]
      refine ⟨rfl, ?_⟩
      rw [sub_exact _ _ (by omega)]
      simp only [jsPlus]
      rw [add_exact _ _ (by omega)]

/-- Witness for the amended C29: the sample cart (two shirts at 1500, a mug at
995, shipping 500, donation 200) with a discount of ten percent: the
sub-total is 3995, the discount `round(4495 * 10 / 100) = 450` and the total
4245. -/
theorem reducer_totals_witness :
    (reducer sampleState tenPercent).cart.subTotal = .fin 3995
      ∧ (reducer sampleState tenPercent).cart.discount = .fin 450
      ∧ (reducer sampleState tenPercent).cart.total = .num (.fin 4245)
      ∧ ((reducer sampleState tenPercent).cart.discount
            = .fin (roundPercent ((((([(2, 1500), (1, 995)] : List (Nat × Nat)).map
                fun l => l.1 * l.2).sum + 500) * 10 : Nat) : Int))
          ∧ (reducer sampleState tenPercent).cart.total
            = .num (.fin ((((([(2, 1500), (1, 995)] : List (Nat × Nat)).map
                  fun l => l.1 * l.2).sum + 500 : Nat) : Int)
                - roundPercent ((((([(2, 1500), (1, 995)] : List (Nat × Nat)).map
                    fun l => l.1 * l.2).sum + 500) * 10 : Nat) : Int)
                + ((200 : Nat) : Int)))) :=
  ⟨by decide, by decide, by decide,
    ((reducer_totals sampleState tenPercent).2.2.2.2 [(2, 1500), (1, 995)] 500 200
      (by decide) (by decide) (by decide) (by decide)).2.2.1 "TEN" 10
      (by decide) (by decide) (by decide) (by decide) (by decide)⟩

end CartState

namespace Sellers

/-- A registration with a missing or empty name, email or password is
answered with status 400 and the table is left alone. -/
theorem createSeller_missing (store : List Seller) (registration : Registration)
    (superuser : Option Bool) (salt : String) (hashPassword : String → String → String)
    (h : missing registration.name = true ∨ missing registration.email = true
      ∨ missing registration.password = true) :
    createSeller store registration superuser salt hashPassword
      = ({ status := some 400, error := some "Invalid registration", seller := none },
          store) := by
  obtain ⟨name, email, password⟩ := registration
  cases name <;> cases email <;> cases password <;>
    simp_all [createSeller, missing]

/-- A registration whose lower-cased email is the email of a row is answered
with status 409 and the table is left alone. -/
theorem createSeller_conflict (store : List Seller) (name email password : String)
    (superuser : Option Bool) (salt : String) (hashPassword : String → String → String)
    (hn : name ≠ "") (he : email ≠ "") (hp : password ≠ "")
    (h : ∃ seller ∈ store, seller.email = toLowerCase email) :
    createSeller store { name := some name, email := some email, password := some password }
        superuser salt hashPassword
      = ({ status := some 409, error := some "Registration exists", seller := none },
          store) := by
  obtain ⟨seller, hmem, heq⟩ := h
  have hfind : (store.find? fun s => s.email == toLowerCase email).isSome = true := by
    rw [List.find?_isSome]
    exact ⟨seller, hmem, by simp [heq]⟩
  cases hf : store.find? fun s => s.email == toLowerCase email with
  | none => rw [hf] at hfind; cases hfind
  | some found => simp [createSeller, hn, he, hp, hf]

/-- C30 fails on the code for an email with a capital letter.  The first
registration of `Bob@Example.com` stores the email as given; the second
registration of the same email looks for `bob@example.com`, finds no row,
and creates a second seller with that email instead of answering 409. -/
theorem same_email_registered_twice :
    (createSeller []
        { name := some "Bob", email := some "Bob@Example.com", password := some "pw1" }
        none "salt1" sampleHash).2
      = [{ name := "Bob", email := "Bob@Example.com", password := "salt1:pw1",
           superuser := none }]
    ∧ (createSeller
        [{ name := "Bob", email := "Bob@Example.com", password := "salt1:pw1",
           superuser := none }]
        { name := some "Bobby", email := some "Bob@Example.com", password := some "pw2" }
        none "salt2" sampleHash)
      = ({ status := none, error := none,
           seller := some { name := "Bobby", email := "Bob@Example.com",
                            password := "salt2:pw2", superuser := none } },
         [{ name := "Bob", email := "Bob@Example.com", password := "salt1:pw1",
            superuser := none },
          { name := "Bobby", email := "Bob@Example.com", password := "salt2:pw2",
            superuser := none }]) := by
  decide

end Sellers
